import Mathlib

/-!
# TextGenius: coordinator, worker and overlay

A shallow embedding of the orchestration code of the TextGenius browser
extension (`background.js`, `offscreen.js`, `content.js`) and theorems about it.

Conventions of the embedding:

* JavaScript strings are Lean `String`s, searched through their character lists.
* A JavaScript `undefined` property is `none`.
* The host (browser) is an oracle `Host`: the answer to the `k`-th host call is a
  function of `k` and the call's arguments, so every behaviour of the environment
  is some `Host`.
* Asynchronous functions of the coordinator are functions `World → result × World`
  where the `World` holds the module variable `creating`, the trace of host calls
  made so far and their number.
* Pixel values are rationals. The page model computes with them exactly;
  `positionCallbackDouble` is the delayed callback of `positionPanel` on doubles,
  each `+` and `-` rounded to the nearest double.
* Concurrent calls of `setupOffscreenDocument` are a transition system `Setup` over
  their `await` points; an answer of the host may reach its call at any later time.
-/

namespace TextGenius

/-! ## Strings -/

/-- Does the character list `s` begin with `needle`? -/
def startsWith : List Char → List Char → Bool
  | _, [] => true
  | [], _ :: _ => false
  | c :: s, d :: needle => c == d && startsWith s needle

/-- Does `needle` occur in the character list `s` as a contiguous run? -/
def includesChars : List Char → List Char → Bool
  | [], needle => startsWith [] needle
  | c :: s, needle => startsWith (c :: s) needle || includesChars s needle

/-- The method `String.prototype.includes` of JavaScript. -/
def includes (s needle : String) : Bool :=
  includesChars s.data needle.data

/-- The specification of `includes`: the text splits around an occurrence of the needle. -/
def Occurs (needle s : String) : Prop :=
  ∃ before after : List Char, s.data = before ++ needle.data ++ after

/-- The operator `||` of JavaScript on a possibly missing string: a missing or empty left
operand gives the right one. -/
def strOr : Option String → String → String
  | none, d => d
  | some s, d => if s = "" then d else s

/-- A template literal substitution of a possibly missing string. -/
def interpolate : Option String → String
  | none => "undefined"
  | some s => s

/-- Lower-casing of the ASCII letters, all other characters unchanged: what
`String.prototype.toLowerCase` does on ASCII text. -/
def asciiLower (s : String) : String :=
  String.mk (s.data.map Char.toLower)

/-! ## Errors -/

/-- A thrown JavaScript `Error` object; `message` is `none` when the property is missing. -/
structure JsError where
  message : Option String
deriving DecidableEq, Repr

/-- The expression `new Error(msg)`. -/
def newError (msg : String) : JsError := ⟨some msg⟩

/-! ## `getAIErrorHelp` (background.js) -/

/-- The remediation text for a missing model: the flags to enable. -/
def setupInstructions : String :=
  "🔧 **How to fix:**\n    \n1. Make sure you're using Chrome Canary or Dev (version 127+)\n2. Enable these flags at chrome://flags/:\n   • #optimization-guide-on-device-model → Enabled BypassPerfRequirement\n   • #prompt-api-for-gemini-nano → Enabled\n3. Restart Chrome\n4. Wait 5-10 minutes for the model to download\n\n📖 More info: https://developer.chrome.com/docs/ai/built-in"

/-- The remediation text for a model that is still downloading. -/
def downloadInstructions : String :=
  "⏳ **Model is downloading**\n\nThe AI model is being downloaded to your device. This is a one-time process.\n\nPlease wait 5-10 minutes and try again.\n\nYou can check download status at: chrome://components/ (look for \"Optimization Guide On Device Model\")"

/-- The remediation text for every other failure. -/
def genericHint : String :=
  "Please check the Chrome DevTools console for more details."

/-- The function `getAIErrorHelp(error)`; `toLowerCase` is the string method of the
JavaScript runtime. -/
def getAIErrorHelp (toLowerCase : String → String) (error : JsError) : String :=
  let message := toLowerCase (strOr error.message "")
  if includes message "not available" || includes message "is not defined" then
    setupInstructions
  else if includes message "downloading" || includes message "after-download" then
    downloadInstructions
  else
    genericHint

/-! ## Messages between the contexts -/

/-- The acknowledgement a page sends back: an object that may carry a `status`. -/
structure TabResponse where
  status : Option String
deriving DecidableEq, Repr

/-- The structured result of a grammar check. -/
structure GrammarResult where
  message : String
  original : String
  corrected : String
  hasChanges : Bool
deriving DecidableEq, Repr

/-- A value the worker returns for a job: nothing, a text, or a structured grammar result. -/
inductive JobResult where
  | undefined
  | text (s : String)
  | grammar (g : GrammarResult)
deriving DecidableEq, Repr

/-- A command the coordinator sends to the page, by its `action`:
`ping`, `showLoading`, `showResult`, `promptForLanguage`. A field that the
object literal does not set, or sets to `undefined`, is `none`. -/
inductive Command where
  | ping
  | showLoading (type : String) (text : String)
  | showResult (type : String) (result : JobResult) (originalText : Option String)
      (correctedText : Option String) (showDiff : Option Bool) (isError : Option Bool)
  | promptForLanguage (languages : List String) (originalText : String)
deriving DecidableEq, Repr

/-- The `data` of a message to the worker: the job. -/
structure Job where
  action : String
  text : String
  mode : Option String := none
  sourceLanguage : Option String := none
  targetLanguage : Option String := none
deriving DecidableEq, Repr

/-- The response object of the worker: `{ success, result }` or `{ success, error }`. -/
structure WorkerResponse where
  success : Bool
  result : JobResult := JobResult.undefined
  error : Option String := none
deriving DecidableEq, Repr

/-! ## The host and the coordinator's world -/

/-- A call of a host API, as recorded in the trace. -/
inductive Event where
  | tabsSendMessage (tabId : Nat) (message : Command) (delivered : Bool)
  | setTimeout (ms : Int)
  | insertCSS (tabId : Nat)
  | executeScript (tabId : Nat)
  | getContexts
  | createDocument
  | runtimeSendMessage (data : Job)
  | notificationsCreate (title : String) (message : String)
deriving DecidableEq, Repr

/-- The environment of the coordinator. Each field answers one host API; its first argument is
the number of host calls answered before this one. -/
structure Host where
  /-- The method `String.prototype.toLowerCase`. -/
  toLowerCase : String → String
  /-- The call `chrome.tabs.sendMessage(tabId, message)`: the page's response, or a rejection. -/
  tabsSendMessage : Nat → Nat → Command → Except JsError (Option TabResponse)
  /-- The call `chrome.scripting.insertCSS`. -/
  insertCSS : Nat → Nat → Except JsError Unit
  /-- The call `chrome.scripting.executeScript` with the file `content.js`. -/
  executeScript : Nat → Nat → Except JsError Unit
  /-- The call `chrome.runtime.getContexts`: is the list of offscreen contexts non-empty? -/
  getContexts : Nat → Bool
  /-- The call `chrome.offscreen.createDocument`. -/
  createDocument : Nat → Except JsError Unit
  /-- The call `chrome.runtime.sendMessage` to the worker: its response, `none` for `undefined`. -/
  runtimeSendMessage : Nat → Job → Except JsError (Option WorkerResponse)

/-- The state of the coordinator between two steps. The module variable `creating` holds
`none` for `undefined` or `null`, and otherwise the promise of a creation, written as the
outcome the promise settles with. -/
structure World where
  creating : Option (Except JsError Unit)
  trace : List Event
  calls : Nat

/-- The state after loading the service worker. -/
def World.initial : World := ⟨none, [], 0⟩

/-- An asynchronous computation of the coordinator: it ends with a value or a thrown error. -/
def Coord (α : Type) : Type := World → Except JsError α × World

/-- Return a value. -/
def Coord.pure {α : Type} (a : α) : Coord α := fun w => (Except.ok a, w)

/-- Run `m`, then `f` on its value; a thrown error skips `f`. -/
def Coord.bind {α β : Type} (m : Coord α) (f : α → Coord β) : Coord β := fun w =>
  match m w with
  | (Except.ok a, w1) => f a w1
  | (Except.error e, w1) => (Except.error e, w1)

instance : Monad Coord where
  pure := Coord.pure
  bind := Coord.bind

/-- The statement `throw e`. -/
def throwJs {α : Type} (e : JsError) : Coord α := fun w => (Except.error e, w)

/-- The block `try { body } catch (e) { handler e }`. -/
def tryCatch {α : Type} (body : Coord α) (handler : JsError → Coord α) : Coord α := fun w =>
  match body w with
  | (Except.ok a, w1) => (Except.ok a, w1)
  | (Except.error e, w1) => handler e w1

/-- Record a host call that needs no answer. -/
def emit (ev : Event) : Coord Unit := fun w =>
  (Except.ok (), { w with trace := w.trace ++ [ev] })

/-- Ask the host: record the call with what the answer determines, count it, and return or
throw the answer. -/
def ask {α : Type} (answer : Nat → Except JsError α) (ev : Except JsError α → Event) :
    Coord α := fun w =>
  (answer w.calls, { w with trace := w.trace ++ [ev (answer w.calls)], calls := w.calls + 1 })

/-- Was the answer a value, not a rejection? -/
def succeeded {α : Type} : Except JsError α → Bool
  | Except.ok _ => true
  | Except.error _ => false

/-- The expression `await chrome.tabs.sendMessage(tabId, message)`. -/
def tabsSendMessage (host : Host) (tabId : Nat) (message : Command) :
    Coord (Option TabResponse) :=
  ask (fun k => host.tabsSendMessage k tabId message)
    (fun r => Event.tabsSendMessage tabId message (succeeded r))

/-- The expression `await new Promise(resolve => setTimeout(resolve, ms))`. -/
def sleep (ms : Int) : Coord Unit := emit (Event.setTimeout ms)

/-! ## `sendMessageToTab` (background.js) -/

/-- The loop of `sendMessageToTab` from the counter value `i`, with `fuel` iterations allowed.
Falling out of the loop returns `undefined`. -/
def sendMessageToTabLoop (host : Host) (tabId : Nat) (message : Command) (retries : Int) :
    Nat → Nat → Coord (Option TabResponse)
  | 0, _ => pure none
  | fuel + 1, i =>
    if (i : Int) < retries then
      tryCatch (tabsSendMessage host tabId message) (fun error =>
        if (i : Int) = retries - 1 then throwJs error
        else do
          sleep (100 * ((i : Int) + 1))
          sendMessageToTabLoop host tabId message retries fuel (i + 1))
    else pure none

/-- The function `sendMessageToTab(tabId, message, retries = 3)`. The loop runs at most
`retries` times, so that much fuel never runs out. -/
def sendMessageToTab (host : Host) (tabId : Nat) (message : Command) (retries : Int := 3) :
    Coord (Option TabResponse) :=
  sendMessageToTabLoop host tabId message retries retries.toNat 0

/-- The host calls of `j` failed deliveries, each followed by its wait, the first of them
being attempt number `i + 1` of the loop. -/
def failedRounds (tabId : Nat) (message : Command) (i j : Nat) : List Event :=
  (List.range j).flatMap (fun k =>
    [Event.tabsSendMessage tabId message false,
      Event.setTimeout (100 * (((i + k : Nat) : Int) + 1))])

/-- The host calls of `n` failed deliveries in a row: after the `k`-th of them, when it is not
the last, a wait of `100 * k` ms. -/
def failedDeliveries (tabId : Nat) (message : Command) (n : Nat) : List Event :=
  (List.range n).flatMap (fun k =>
    Event.tabsSendMessage tabId message false ::
      (if k + 1 < n then [Event.setTimeout (100 * ((k : Int) + 1))] else []))

/-- The deliveries attempted in a trace, in order. -/
def deliveryAttempts (trace : List Event) : List Event :=
  trace.filter (fun ev => match ev with
    | Event.tabsSendMessage _ _ _ => true
    | _ => false)

/-- The waits in a trace, in order. -/
def waits (trace : List Event) : List Int :=
  trace.filterMap (fun ev => match ev with
    | Event.setTimeout ms => some ms
    | _ => none)

/-! ## The page: geometry and selection (content.js) -/

/-- The rectangle `getBoundingClientRect()` returns, in CSS pixels. -/
structure DOMRect where
  left : ℚ
  top : ℚ
  bottom : ℚ
  width : ℚ
  height : ℚ
deriving DecidableEq, Repr

/-- The first range of the page's selection: whether it is collapsed, how many client
rectangles it has, and its bounding rectangle. -/
structure SelRange where
  collapsed : Bool
  clientRects : Nat
  boundingClientRect : DOMRect
deriving DecidableEq, Repr

/-- The window's scroll offsets and inner size, in CSS pixels. -/
structure Viewport where
  scrollX : ℚ
  scrollY : ℚ
  innerWidth : ℚ
  innerHeight : ℚ
deriving DecidableEq, Repr

/-- A value of `style.left`: pixels or a percentage. -/
inductive CssLeft where
  | px (v : ℚ)
  | percent (v : ℚ)
deriving DecidableEq, Repr

/-- The inline style `positionPanel` writes. -/
structure PanelStyle where
  top : Option ℚ := none
  left : Option CssLeft := none
  transform : Option String := none
deriving DecidableEq, Repr

/-- The variables the delayed callback of `positionPanel` captures: the selection's rectangle
and the first `top` and `left`. -/
structure Anchor where
  rect : DOMRect
  top : ℚ
  left : ℚ
deriving DecidableEq, Repr

/-- The synchronous part of `positionPanel(panel)`: with a selection range that has client
rectangles, the style below the range and the captured variables for the callback scheduled
10 ms later; otherwise the centred style and no callback. `selection` is `none` when
`rangeCount` is 0. -/
def positionPanel (selection : Option SelRange) (win : Viewport) : PanelStyle × Option Anchor :=
  match selection with
  | some range =>
    if range.clientRects > 0 then
      let rect := range.boundingClientRect
      let top := rect.bottom + win.scrollY + 10
      let left := rect.left + win.scrollX
      ({ top := some top, left := some (CssLeft.px left) }, some ⟨rect, top, left⟩)
    else
      ({ top := some (win.scrollY + 100), left := some (CssLeft.percent 50),
         transform := some "translateX(-50%)" }, none)
  | none =>
    ({ top := some (win.scrollY + 100), left := some (CssLeft.percent 50),
       transform := some "translateX(-50%)" }, none)

/-- The callback of `positionPanel` for a panel still in the document: from the captured
variables, the window as it is now and the panel's measured rectangle, the `left` and `top` it
assigns, every sum and difference taken exactly. JavaScript rounds each of them to a double:
that is `positionCallbackDouble` below. -/
def positionCallback (a : Anchor) (win : Viewport) (panelRect : DOMRect) : ℚ × ℚ :=
  let left := if a.left + panelRect.width > win.innerWidth - 20
    then win.innerWidth - panelRect.width - 20 else a.left
  let left := if left < 10 then 10 else left
  let top := if a.top + panelRect.height > win.innerHeight + win.scrollY - 20
    then a.rect.top + win.scrollY - panelRect.height - 10 else a.top
  let top := if top < win.scrollY + 10 then win.scrollY + 10 else top
  (left, top)

/-! ## The page: pixel arithmetic on doubles (content.js)

A JavaScript number is an IEEE 754 double, and `+` and `-` give the double nearest to the
exact result, a tie going to the even significand. The doubles are modelled as the rationals
they denote. Overflow to an infinity, `NaN` and the sign of zero are not modelled: pixel
values are far from the first and the comparisons of `positionPanel` do not see the last. -/

/-- The integer nearest to a number, a tie going to the even one. -/
def roundHalfEven (x : ℚ) : ℤ :=
  if x - ⌊x⌋ < 1 / 2 then ⌊x⌋
  else if 1 / 2 < x - ⌊x⌋ then ⌊x⌋ + 1
  else if ⌊x⌋ % 2 = 0 then ⌊x⌋ else ⌊x⌋ + 1

/-- The spacing of the doubles around a positive number: `2 ^ (e - 52)` for the binary
exponent `e` of the number, taken as `-1022` for the numbers below `2 ^ (-1022)`, where the
doubles are evenly spaced. -/
def quantum (x : ℚ) : ℚ := 2 ^ (max (Int.log 2 x) (-1022) - 52)

/-- The double nearest to a positive number. -/
def roundMagnitude (x : ℚ) : ℚ := roundHalfEven (x / quantum x) * quantum x

/-- The double nearest to a number. -/
def roundDouble (x : ℚ) : ℚ :=
  if x = 0 then 0 else if x < 0 then -roundMagnitude (-x) else roundMagnitude x

/-- The sum `x + y` of two doubles as JavaScript computes it. -/
def addDouble (x y : ℚ) : ℚ := roundDouble (x + y)

/-- The difference `x - y` of two doubles as JavaScript computes it. -/
def subDouble (x y : ℚ) : ℚ := roundDouble (x - y)

/-- The callback of `positionPanel` for a panel still in the document, on doubles: from the
captured variables, the window as it is now and the panel's measured rectangle, the numbers
it assigns to `left` and `top`. Each `+` and `-` of the source is one rounded operation, from
left to right; the comparisons are exact. -/
def positionCallbackDouble (a : Anchor) (win : Viewport) (panelRect : DOMRect) : ℚ × ℚ :=
  let left := if addDouble a.left panelRect.width > subDouble win.innerWidth 20
    then subDouble (subDouble win.innerWidth panelRect.width) 20 else a.left
  let left := if left < 10 then 10 else left
  let top :=
    if addDouble a.top panelRect.height > subDouble (addDouble win.innerHeight win.scrollY) 20
    then subDouble (subDouble (addDouble a.rect.top win.scrollY) panelRect.height) 10
    else a.top
  let top := if top < addDouble win.scrollY 10 then addDouble win.scrollY 10 else top
  (left, top)

/-! ## The worker (offscreen.js) -/

/-- The value an object literal gives for a key it inherits from `Object.prototype`, as text:
a native function the way V8 prints it, and the prototype object for `__proto__`; `none` for
every other key. -/
def inheritedText (key : String) : Option String :=
  if key = "__proto__" then some "[object Object]"
  else if key = "constructor" then some "function Object() \x7b [native code] \x7d"
  else if key ∈ ["__defineGetter__", "__defineSetter__", "hasOwnProperty", "__lookupGetter__",
      "__lookupSetter__", "isPrototypeOf", "propertyIsEnumerable", "toString", "valueOf",
      "toLocaleString"] then
    some ("function " ++ key ++ "() \x7b [native code] \x7d")
  else none

/-- The options object `processRewrite` passes to the rewriter: `length` and `tone` as the
table sets them, and in `inherited` the text of the value passed in place of an entry of the
table when the mode is a key the table inherits. -/
structure RewriteOptions where
  length : Option String := none
  tone : Option String := none
  inherited : Option String := none
deriving DecidableEq, Repr

/-- The AI interfaces of the browser, as the worker sees them. A rejected promise, and a
`ReferenceError` for an interface the browser lacks, is an `Except.error`. -/
structure AiHost where
  /-- The call `Summarizer.create()`. -/
  summarizerCreate : Except JsError Unit
  /-- The call `summarizer.summarize(text)`. -/
  summarize : String → Except JsError String
  /-- The call `Rewriter.availability()`. -/
  rewriterAvailability : Except JsError String
  /-- The call `Rewriter.create()`. -/
  rewriterCreate : Except JsError Unit
  /-- The call `rewriter.rewrite(text, options)`. -/
  rewrite : String → RewriteOptions → Except JsError String
  /-- The call `LanguageModel.create({ systemPrompt })`. -/
  languageModelCreate : String → Except JsError Unit
  /-- The call `session.prompt(input)` of a session created with the given system prompt. -/
  prompt : String → String → Except JsError String
  /-- The call `Translator.availability({ sourceLanguage, targetLanguage })`. -/
  translatorAvailability : Option String → Option String → Except JsError String
  /-- The call `Translator.create({ sourceLanguage, targetLanguage, monitor })`. -/
  translatorCreate : Option String → Option String → Except JsError Unit
  /-- The call `translator.translate(text)` of a translator for the given pair. -/
  translate : Option String → Option String → String → Except JsError String
  /-- The method `String.prototype.toUpperCase`. -/
  toUpperCase : String → String

/-- The `TypeError` of reading property `name` of `undefined`, with the message V8 gives it. -/
def typeErrorReading (name : String) : JsError :=
  newError ("Cannot read properties of undefined (reading '" ++ name ++ "')")

/-- The function `processSummarize(text)`. -/
def processSummarize (ai : AiHost) (text : String) : Except JsError JobResult := do
  ai.summarizerCreate
  let summary ← ai.summarize text
  return JobResult.text ("📝 **Summary**\n\n" ++ summary)

/-- The table `rewriteOptions[mode] || {}` of `processRewrite`. A mode that is a key the
table inherits from `Object.prototype` gives the inherited value, which is truthy. -/
def rewriteOptions (mode : Option String) : RewriteOptions :=
  if mode = some "simpler" then { length := some "shorter" }
  else if mode = some "formal" then { tone := some "formal" }
  else if mode = some "casual" then { tone := some "casual" }
  else
    match mode.bind inheritedText with
    | some value => { inherited := some value }
    | none => {}

/-- The table `titles[mode]` of `processRewrite`, as the template literal of the result shows
the entry: `none` is `undefined`. -/
def rewriteTitle (mode : Option String) : Option String :=
  if mode = some "simpler" then some "📖 **Simplified Version**"
  else if mode = some "formal" then some "👔 **Formal Version**"
  else if mode = some "casual" then some "😊 **Casual Version**"
  else mode.bind inheritedText

/-- The function `processRewrite(text, mode)`. -/
def processRewrite (ai : AiHost) (text : String) (mode : Option String) :
    Except JsError JobResult := do
  let availability ← ai.rewriterAvailability
  if availability = "unavailable" then
    throw (newError "The Rewriter API is not supported on this device.")
  ai.rewriterCreate
  let rewritten ← ai.rewrite text (rewriteOptions mode)
  return JobResult.text (interpolate (rewriteTitle mode) ++ "\n\n" ++ rewritten)

/-- The system prompt of `processELI5`. -/
def eli5SystemPrompt : String :=
  "You are a friendly teacher explaining things to a 5-year-old. Use simple words and short sentences."

/-- The function `processELI5(text)`. -/
def processELI5 (ai : AiHost) (text : String) : Except JsError JobResult := do
  ai.languageModelCreate eli5SystemPrompt
  let explanation ← ai.prompt eli5SystemPrompt ("Explain this in very simple terms:\n\n" ++ text)
  return JobResult.text ("🔍 **Simple Explanation**\n\n" ++ explanation)

/-- The system prompt of `processQuiz`. -/
def quizSystemPrompt : String :=
  "You are an educator who creates multiple-choice quizzes. Create 3-4 questions based on the text. Each question should have 4 options. Mark the correct answer with a ✓. Format using Markdown."

/-- The function `processQuiz(text)`. -/
def processQuiz (ai : AiHost) (text : String) : Except JsError JobResult := do
  ai.languageModelCreate quizSystemPrompt
  let quiz ← ai.prompt quizSystemPrompt
    ("Generate a multiple-choice quiz based on this text:\n\n" ++ text)
  return JobResult.text ("🎯 **Quiz Time!**\n\n" ++ quiz)

/-- The function `processTranslate(text, sourceLanguage, targetLanguage)`. -/
def processTranslate (ai : AiHost) (text : String) (sourceLanguage targetLanguage : Option String) :
    Except JsError JobResult := do
  let availability ← ai.translatorAvailability sourceLanguage targetLanguage
  if availability = "unavailable" then
    throw (newError ("The on-device model does not support translating from "
      ++ interpolate sourceLanguage ++ " to " ++ interpolate targetLanguage ++ "."))
  ai.translatorCreate sourceLanguage targetLanguage
  let translatedText ← ai.translate sourceLanguage targetLanguage text
  match targetLanguage with
  | none => throw (typeErrorReading "toUpperCase")
  | some target =>
    return JobResult.text
      ("🌍 **Translated to " ++ ai.toUpperCase target ++ "**\n\n" ++ translatedText)

/-- The function `handleOffscreenAction(data)`. -/
def handleOffscreenAction (ai : AiHost) (data : Job) : Except JsError JobResult :=
  if data.action = "summarize" then processSummarize ai data.text
  else if data.action = "rewrite" then processRewrite ai data.text data.mode
  else if data.action = "eli5" then processELI5 ai data.text
  else if data.action = "quiz" then processQuiz ai data.text
  else if data.action = "translate" then
    processTranslate ai data.text data.sourceLanguage data.targetLanguage
  else throw (newError "Unknown offscreen action")

/-- The worker's `onMessage` listener for a request `{ target: 'offscreen', data }`: the
response it sends. -/
def offscreenListener (ai : AiHost) (data : Job) : WorkerResponse :=
  match handleOffscreenAction ai data with
  | Except.ok result => { success := true, result := result }
  | Except.error error => { success := false, error := error.message }

/-! ## The coordinator (background.js) -/

/-- The constant `SUPPORTED_TRANSLATION_TARGETS`. -/
def SUPPORTED_TRANSLATION_TARGETS : List String := ["es", "de", "fr", "it", "ja"]

/-- Assign the module variable `creating`. -/
def setCreating (v : Option (Except JsError Unit)) : Coord Unit := fun w =>
  (Except.ok (), { w with creating := v })

/-- Read the module variable `creating`. -/
def getCreating : Coord (Option (Except JsError Unit)) := fun w => (Except.ok w.creating, w)

/-- The expression `await p` for a promise `p` that settles with `outcome`. -/
def await {α : Type} (outcome : Except JsError α) : Coord α := fun w => (outcome, w)

/-- The call `chrome.offscreen.createDocument(...)`: it returns its promise at once, written
as the outcome the promise settles with. -/
def createDocument (host : Host) : Coord (Except JsError Unit) := fun w =>
  (Except.ok (host.createDocument w.calls),
    { w with trace := w.trace ++ [Event.createDocument], calls := w.calls + 1 })

/-- The function `setupOffscreenDocument(path)`, run without another call interleaved:
`existing` stands for `existingContexts.length > 0`. -/
def setupOffscreenDocument (host : Host) : Coord Unit := do
  let existing ← ask (fun k => Except.ok (host.getContexts k)) (fun _ => Event.getContexts)
  if existing then
    return ()
  else
    let creating ← getCreating
    match creating with
    | some promise => await promise
    | none =>
      let promise ← createDocument host
      setCreating (some promise)
      await promise
      setCreating none

/-- The message of the error `sendToOffscreen` throws for a failure without one. -/
def unknownOffscreenError : String := "An unknown error occurred in the offscreen document."

/-- The function `sendToOffscreen(data)`. -/
def sendToOffscreen (host : Host) (data : Job) : Coord JobResult := do
  setupOffscreenDocument host
  let response ← ask (fun k => host.runtimeSendMessage k data)
    (fun _ => Event.runtimeSendMessage data)
  match response with
  | some r =>
    if !r.success then throwJs (newError (strOr r.error unknownOffscreenError))
    else return r.result
  | none => throwJs (typeErrorReading "result")

/-- The function `injectContentScript(tabId)`; its `catch` rethrows. -/
def injectContentScript (host : Host) (tabId : Nat) : Coord Bool := do
  ask (fun k => host.insertCSS k tabId) (fun _ => Event.insertCSS tabId)
  ask (fun k => host.executeScript k tabId) (fun _ => Event.executeScript tabId)
  sleep 200
  return true

/-- The function `isContentScriptLoaded(tabId)`, its result read as a condition. -/
def isContentScriptLoaded (host : Host) (tabId : Nat) : Coord Bool :=
  tryCatch
    (do
      let response ← tabsSendMessage host tabId Command.ping
      match response with
      | some r => return decide (r.status = some "ready")
      | none => return false)
    (fun _ => return false)

/-- The text of an error overlay: the failure's message and the hint chosen for it. -/
def aiErrorText (host : Host) (aiError : JsError) : String :=
  "⚠️ **AI Error:** " ++ interpolate aiError.message ++ "\n\n"
    ++ getAIErrorHelp host.toLowerCase aiError

/-- The `switch` of `handleAction`: the `action` and `mode` of the job for a menu id, `none`
for the `default` case. The case `translate` is not in this table, it returns before a job is
built. -/
def offscreenJobFor (menuId : String) : Option (String × Option String) :=
  if menuId = "summarize" ∨ menuId = "eli5" ∨ menuId = "quiz" then some (menuId, none)
  else if menuId = "rewrite-simpler" then some ("rewrite", some "simpler")
  else if menuId = "rewrite-formal" then some ("rewrite", some "formal")
  else if menuId = "rewrite-casual" then some ("rewrite", some "casual")
  else none

/-- The `showResult` command of the grammar branch, built from the properties of the worker's
result; reading a property of `undefined` throws. -/
def grammarCommand (menuId : String) : JobResult → Except JsError Command
  | JobResult.undefined => Except.error (typeErrorReading "message")
  | JobResult.text _ =>
    Except.ok (Command.showResult menuId JobResult.undefined none none none (some false))
  | JobResult.grammar g =>
    Except.ok (Command.showResult menuId (JobResult.text g.message) (some g.original)
      (some g.corrected) (some g.hasChanges) (some false))

/-- The body of the inner `try` of `handleAction`. The test `menuId === 'translate'` after the
`switch` is never true there and is left out. -/
def handleActionJob (host : Host) (tabId : Nat) (menuId text : String) : Coord Unit :=
  if menuId = "grammar" then do
    let grammarResult ← sendToOffscreen host { action := "grammar", text := text }
    let command ← await (grammarCommand menuId grammarResult)
    let _ ← sendMessageToTab host tabId command
    return ()
  else if menuId = "translate" then do
    let _ ← sendMessageToTab host tabId
      (Command.promptForLanguage SUPPORTED_TRANSLATION_TARGETS text)
    return ()
  else
    match offscreenJobFor menuId with
    | none => throwJs (newError "Unknown action for AI processing")
    | some (offscreenAction, offscreenMode) => do
      let result ← sendToOffscreen host
        { action := offscreenAction, mode := offscreenMode, text := text }
      let _ ← sendMessageToTab host tabId
        (Command.showResult menuId result (some text) none none none)
      return ()

/-- The `showResult` command of the `catch (aiError)` handler. -/
def aiErrorCommand (host : Host) (menuId text : String) (aiError : JsError) : Command :=
  Command.showResult menuId (JobResult.text (aiErrorText host aiError)) (some text) none none
    (some true)

/-- The notification of the outer `catch` of `handleAction`. -/
def unreachableNotification : Event :=
  Event.notificationsCreate "TextGenius Error"
    "Could not process text. Please reload the page and try again."

/-- The function `handleAction(tabId, menuId, text)`. -/
def handleAction (host : Host) (tabId : Nat) (menuId text : String) : Coord Unit :=
  tryCatch
    (do
      let isLoaded ← isContentScriptLoaded host tabId
      if !isLoaded then
        let _ ← injectContentScript host tabId
      let _ ← sendMessageToTab host tabId (Command.showLoading menuId text)
      tryCatch (handleActionJob host tabId menuId text)
        (fun aiError => do
          let _ ← sendMessageToTab host tabId (aiErrorCommand host menuId text aiError)
          return ()))
    (fun _ => emit unreachableNotification)

/-- The statements of `handleAction` before its inner `try`, as a computation of their own:
the liveness probe, the injection when the probe finds no page script, and the delivery of
the `showLoading` command. -/
def announceLoading (host : Host) (tabId : Nat) (menuId text : String) :
    Coord (Option TabResponse) := do
  let isLoaded ← isContentScriptLoaded host tabId
  if !isLoaded then
    let _ ← injectContentScript host tabId
  sendMessageToTab host tabId (Command.showLoading menuId text)

/-- Every host call a computation makes satisfies `P`, and the trace only grows. -/
def Emits {α : Type} (P : Event → Prop) (m : Coord α) : Prop :=
  ∀ w, ∃ evs, (m w).2.trace = w.trace ++ evs ∧ ∀ ev ∈ evs, P ev

/-- A host call of the steps that reach the page: a delivery attempt of `ping` or of the
command `loading`, an injection call, or a wait. -/
def AnnounceEvent (tabId : Nat) (loading : Command) (ev : Event) : Prop :=
  (∃ d, ev = Event.tabsSendMessage tabId Command.ping d)
  ∨ (∃ d, ev = Event.tabsSendMessage tabId loading d)
  ∨ ev = Event.insertCSS tabId ∨ ev = Event.executeScript tabId
  ∨ ∃ ms, ev = Event.setTimeout ms

/-- A host call of `sendToOffscreen(data)`. -/
def OffscreenEvent (data : Job) (ev : Event) : Prop :=
  ev = Event.getContexts ∨ ev = Event.createDocument ∨ ev = Event.runtimeSendMessage data

/-- A delivery attempt of `message` to the tab, or a wait. -/
def DeliveryEvent (tabId : Nat) (message : Command) (ev : Event) : Prop :=
  (∃ d, ev = Event.tabsSendMessage tabId message d) ∨ ∃ ms, ev = Event.setTimeout ms

/-- The host calls made from world `w` on to world `w1`. -/
def eventsSince (w w1 : World) : List Event := w1.trace.drop w.trace.length

/-- The jobs dispatched to the worker in a trace. -/
def dispatched (trace : List Event) : List Job :=
  trace.filterMap (fun ev => match ev with
    | Event.runtimeSendMessage data => some data
    | _ => none)

/-- The commands sent to pages in a trace, one entry per delivery attempt. -/
def commandsSent (trace : List Event) : List Command :=
  trace.filterMap (fun ev => match ev with
    | Event.tabsSendMessage _ message _ => some message
    | _ => none)

/-- The commands that reached a page in a trace. -/
def commandsDelivered (trace : List Event) : List Command :=
  trace.filterMap (fun ev => match ev with
    | Event.tabsSendMessage _ message true => some message
    | _ => none)

/-- The host-level notifications created in a trace. -/
def notifications (trace : List Event) : List Event :=
  trace.filter (fun ev => match ev with
    | Event.notificationsCreate _ _ => true
    | _ => false)

/-- Is the command a `showResult`? -/
def Command.isShowResult : Command → Bool
  | Command.showResult _ _ _ _ _ _ => true
  | _ => false

/-- Is the command a `promptForLanguage`? -/
def Command.isPrompt : Command → Bool
  | Command.promptForLanguage _ _ => true
  | _ => false

/-- Is the text made of ASCII characters only? -/
def isAscii (s : String) : Bool := s.data.all (fun c => decide (c.val < 128))

/-- The source languages of the examples: English and the supported targets. -/
def sampleLanguages : List String := "en" :: SUPPORTED_TRANSLATION_TARGETS

/-- The message of the failure `processRewrite` raises for an unavailable model. -/
def rewriterUnavailable : String := "The Rewriter API is not supported on this device."

/-- The message of the failure `processTranslate` raises for an unavailable language pair. -/
def translatorUnavailable (sourceLanguage targetLanguage : Option String) : String :=
  "The on-device model does not support translating from "
    ++ interpolate sourceLanguage ++ " to " ++ interpolate targetLanguage ++ "."

/-- The outcome of an action that could not reach its page, read off the host calls of the
action: no job went to the worker, no `showResult` and no `promptForLanguage` command was
sent, and one notification was created. -/
def UnreachableOutcome (evs : List Event) : Prop :=
  dispatched evs = []
  ∧ (∀ c ∈ commandsSent evs, c.isShowResult = false ∧ c.isPrompt = false)
  ∧ notifications evs = [unreachableNotification]

/-- The first step of `handleAction` succeeded from world `w` and left world `w0`: the probe
found the page script, or it did not and the injection succeeded. -/
def PageVerified (host : Host) (tabId : Nat) (w w0 : World) : Prop :=
  isContentScriptLoaded host tabId w = (Except.ok true, w0)
  ∨ ∃ w1, isContentScriptLoaded host tabId w = (Except.ok false, w1)
      ∧ injectContentScript host tabId w1 = (Except.ok true, w0)

/-- The host call dispatches a job to the worker or attempts to deliver a `showResult`. -/
def Event.isJobOrResult : Event → Bool
  | Event.runtimeSendMessage _ => true
  | Event.tabsSendMessage _ message _ => message.isShowResult
  | _ => false

/-! ## The page: nodes, timers and the overlay (content.js) -/

/-- The constants of `CONFIG` the model uses, in ms. -/
def AUTO_COPY_DELAY : Nat := 500

/-- The constant `CONFIG.TOAST_DURATION`, in ms. -/
def TOAST_DURATION : Nat := 3000

/-- Is a possibly missing flag truthy? -/
def truthyFlag : Option Bool → Bool
  | some true => true
  | _ => false

/-- Is a possibly missing string truthy? -/
def truthyText : Option String → Bool
  | some s => s ≠ ""
  | none => false

/-- Is the value of a `result` field truthy? -/
def truthyResult : JobResult → Bool
  | JobResult.undefined => false
  | JobResult.text s => s ≠ ""
  | JobResult.grammar _ => true

/-- A possibly missing string as a value. -/
def ofText : Option String → JobResult
  | some s => JobResult.text s
  | none => JobResult.undefined

/-- What `showResultPanel` decides to render. -/
structure ResultView where
  /-- The kind, for the icon and the title. -/
  actionType : String
  /-- Is the body rendered as `aw-error-text` (else `aw-result-text`)? -/
  errorBody : Bool
  /-- The text of the body. -/
  body : JobResult
  /-- The two panes of the diff view, when rendered: original and corrected. -/
  diff : Option (Option String × Option String)
  /-- The text the copy button copies. -/
  textForActions : JobResult
  /-- Is the action bar with the copy button rendered? -/
  showActionButtons : Bool
  /-- The text of the `Show original text` disclosure, when rendered. -/
  original : Option String
deriving DecidableEq, Repr

/-- The message of a toast, before rendering. -/
inductive ToastMessage where
  | errorOccurred
  | autoCopied
  | translatingTo (lang : String)
  | copied
  | copyFailed
deriving DecidableEq, Repr

/-- What a node in the body shows. -/
inductive NodeContent where
  /-- An element of the host page. -/
  | hostPage
  | loading (actionType : String) (text : String)
  | result (view : ResultView)
  | languageSelector (languages : List String) (originalText : String)
  | toast (message : ToastMessage) (type : String)
deriving DecidableEq, Repr

/-- An element of the document: its identity, `id` attribute, class list, content and inline
style. -/
structure Node where
  ident : Nat
  elemId : String
  classes : List String
  content : NodeContent
  style : PanelStyle := {}
deriving DecidableEq, Repr

/-- A callback waiting in a `setTimeout`. -/
inductive Timer where
  /-- The correction of `positionPanel` for the panel. -/
  | position (ident : Nat) (anchor : Anchor)
  /-- The removal of a closed result panel. -/
  | removePanel (ident : Nat)
  /-- The clipboard write of `autoCopyText`. -/
  | autoCopy (text : JobResult)
  /-- The hiding of a toast. -/
  | toastHide (ident : Nat)
  /-- The removal of a hidden toast. -/
  | toastRemove (ident : Nat)
  /-- The first `updateShadow` of `initScrollShadow` for the panel's content element. -/
  | updateShadow (ident : Nat)
deriving DecidableEq, Repr

/-- The state of the page as the content script sees it: the elements in document order, the
source of fresh identities, the pending timers with their delays, the selection (`none` when
`rangeCount` is 0), the window, the `doTranslate` messages sent so far as `(text,
targetLanguage)`, and the texts written to the clipboard. -/
structure Page where
  body : List Node
  nextIdent : Nat
  timers : List (Nat × Timer) := []
  selection : Option SelRange := none
  window : Viewport
  sent : List (String × String) := []
  clipboard : List JobResult := []
deriving Repr

/-- Does the node carry the class? -/
def Node.hasClass (n : Node) (c : String) : Bool := n.classes.contains c

/-- The overlay nodes of the page: `document.querySelectorAll('.textgenius-panel')`. -/
def panels (p : Page) : List Node := p.body.filter (fun n => n.hasClass "textgenius-panel")

/-- The method `node.remove()` for the node of identity `ident`. -/
def removeNode (ident : Nat) (p : Page) : Page :=
  { p with body := p.body.filter (fun n => n.ident ≠ ident) }

/-- The function `removeExistingPanels()`. -/
def removeExistingPanels (p : Page) : Page :=
  { p with body := p.body.filter (fun n => !n.hasClass "textgenius-panel") }

/-- The function `createPanel(className)`, the new element taking the identity `ident`. -/
def createPanel (ident : Nat) (className : String) (content : NodeContent) : Node :=
  { ident := ident, elemId := "textgenius-panel",
    classes := ["textgenius-panel", className], content := content }

/-- The function `showToast(message, type, duration)`. -/
def showToast (message : ToastMessage) (type : String) (duration : Nat) (p : Page) : Page :=
  { p with
    body := p.body.eraseP (fun n => n.hasClass "aw-toast") ++
      [{ ident := p.nextIdent, elemId := "", classes := ["aw-toast", "aw-toast-" ++ type],
         content := NodeContent.toast message type }],
    nextIdent := p.nextIdent + 1,
    timers := p.timers ++ [(duration, Timer.toastHide p.nextIdent)] }

/-- The function `autoCopyText(text, actionType)`, with `CONFIG.AUTO_COPY_ENABLED` true. -/
def autoCopyText (text : JobResult) (actionType : String) (p : Page) : Page :=
  if actionType = "quiz" || !truthyResult text then p
  else { p with timers := p.timers ++ [(AUTO_COPY_DELAY, Timer.autoCopy text)] }

/-- Append the panel to the body and run `positionPanel(panel)` on it. -/
def mountPanel (panel : Node) (p : Page) : Page :=
  let placed := positionPanel p.selection p.window
  { p with
    body := p.body ++ [{ panel with style := placed.1 }],
    timers := p.timers ++
      (match placed.2 with
       | some anchor => [(10, Timer.position panel.ident anchor)]
       | none => []) }

/-- The function `showLoadingPanel(actionType, text)`. -/
def showLoadingPanel (actionType text : String) (p : Page) : Page :=
  let p := removeExistingPanels p
  let panel := createPanel p.nextIdent "textgenius-panel-loading"
    (NodeContent.loading actionType text)
  mountPanel panel { p with nextIdent := p.nextIdent + 1 }

/-- The branches of `showResultPanel` on `isError`, the kind and `showDiff`: what is rendered,
and the page after the toast or the scheduling of the copy that the branch calls for. -/
def renderResult (actionType : String) (result : JobResult)
    (originalText correctedText : Option String) (showDiff isError : Option Bool)
    (p : Page) : ResultView × Page :=
  let original := if truthyText originalText then originalText else none
  if truthyFlag isError then
    ({ actionType := actionType, errorBody := true, body := result, diff := none,
       textForActions := result, showActionButtons := false, original := original },
      showToast ToastMessage.errorOccurred "error" TOAST_DURATION p)
  else if actionType = "grammar" then
    if truthyFlag showDiff then
      ({ actionType := actionType, errorBody := false, body := result,
         diff := some (originalText, correctedText),
         textForActions := ofText correctedText, showActionButtons := true,
         original := none },
        autoCopyText (ofText correctedText) actionType p)
    else
      ({ actionType := actionType, errorBody := false, body := result, diff := none,
         textForActions := result, showActionButtons := false, original := original }, p)
  else
    ({ actionType := actionType, errorBody := false, body := result, diff := none,
       textForActions := result, showActionButtons := true, original := original },
      autoCopyText result actionType p)

/-- The function `showResultPanel(actionType, result, originalText, correctedText, showDiff,
isError)`: remove the panels, create the new one, render by `renderResult`, mount and
position the panel, start the scroll shadow. -/
def showResultPanel (actionType : String) (result : JobResult)
    (originalText correctedText : Option String) (showDiff isError : Option Bool)
    (p : Page) : Page :=
  let p := removeExistingPanels p
  let ident := p.nextIdent
  let rendered := renderResult actionType result originalText correctedText showDiff isError
    { p with nextIdent := p.nextIdent + 1 }
  let panel := createPanel ident "textgenius-panel-result" (NodeContent.result rendered.1)
  let p := mountPanel panel rendered.2
  { p with timers := p.timers ++ [(100, Timer.updateShadow ident)] }

/-- The function `showLanguageSelector(languages, originalText)`. -/
def showLanguageSelector (languages : List String) (originalText : String) (p : Page) : Page :=
  let p := removeExistingPanels p
  let panel := createPanel p.nextIdent "textgenius-panel-language-selector"
    (NodeContent.languageSelector languages originalText)
  mountPanel panel { p with nextIdent := p.nextIdent + 1 }

/-- The `onMessage` listener of the content script: the page after the command and the
acknowledgement sent back. -/
def contentOnMessage (request : Command) (p : Page) : Page × TabResponse :=
  match request with
  | Command.ping => (p, ⟨some "ready"⟩)
  | Command.showLoading type text => (showLoadingPanel type text p, ⟨some "loading shown"⟩)
  | Command.showResult type result originalText correctedText showDiff isError =>
    (showResultPanel type result originalText correctedText showDiff isError p,
      ⟨some "result shown"⟩)
  | Command.promptForLanguage languages originalText =>
    (showLanguageSelector languages originalText p, ⟨some "language prompt shown"⟩)

/-- Where a click lands. -/
inductive ClickTarget where
  /-- The close button of the panel of identity `ident`. -/
  | closeButton (ident : Nat)
  /-- The language button number `index` of the selector of identity `ident`. -/
  | langButton (ident : Nat) (index : Nat)
  /-- The node of identity `ident` itself or another place inside it. -/
  | inside (ident : Nat)
  /-- A place of the page outside every node of the model. -/
  | elsewhere
deriving DecidableEq, Repr

/-- The node a click target belongs to. -/
def ClickTarget.owner : ClickTarget → Option Nat
  | ClickTarget.closeButton ident => some ident
  | ClickTarget.langButton ident _ => some ident
  | ClickTarget.inside ident => some ident
  | ClickTarget.elsewhere => none

/-- The call `document.getElementById('textgenius-panel')`: the first element with that id. -/
def getPanelById (p : Page) : Option Node :=
  p.body.find? (fun n => n.elemId = "textgenius-panel")

/-- The capturing `click` listener of the document. -/
def onDocumentClick (target : ClickTarget) (p : Page) : Page :=
  match getPanelById p with
  | none => p
  | some panel =>
    if target.owner ≠ some panel.ident then
      match p.selection with
      | some range => if range.collapsed then removeNode panel.ident p else p
      | none => removeNode panel.ident p
    else p

/-- The `click` listener of the element the click landed on, if it has one. -/
def onTargetClick (target : ClickTarget) (p : Page) : Page :=
  match target with
  | ClickTarget.closeButton ident =>
    match p.body.find? (fun n => n.ident = ident) with
    | some n =>
      match n.content with
      | NodeContent.result _ =>
        { p with
          body := p.body.map (fun m =>
            if m.ident = ident then { m with classes := m.classes ++ ["aw-panel-closing"] }
            else m),
          timers := p.timers ++ [(200, Timer.removePanel ident)] }
      | NodeContent.languageSelector _ _ => removeNode ident p
      | _ => p
    | none => p
  | ClickTarget.langButton ident index =>
    match p.body.find? (fun n => n.ident = ident) with
    | some n =>
      match n.content with
      | NodeContent.languageSelector languages originalText =>
        match languages.get? index with
        | some targetLang =>
          let p := showToast (ToastMessage.translatingTo targetLang) "info" 2000 p
          let p := showLoadingPanel "translate" originalText p
          { p with sent := p.sent ++ [(originalText, targetLang)] }
        | none => p
      | _ => p
    | none => p
  | _ => p

/-- The `keydown` listener of the document. -/
def onKeydown (key : String) (p : Page) : Page :=
  if key = "Escape" then
    match getPanelById p with
    | some panel => removeNode panel.ident p
    | none => p
  else p

/-- Run a timer's callback. `panelRect` is the measured rectangle of the panel at that
moment and `clipboardOk` tells whether a clipboard write succeeds. -/
def runTimer (timer : Timer) (panelRect : DOMRect) (clipboardOk : Bool) (p : Page) : Page :=
  match timer with
  | Timer.position ident anchor =>
    { p with
      body := p.body.map (fun n =>
        if n.ident = ident then
          { n with style :=
            { n.style with
              left := some (CssLeft.px (positionCallback anchor p.window panelRect).1),
              top := some (positionCallback anchor p.window panelRect).2 } }
        else n) }
  | Timer.removePanel ident => removeNode ident p
  | Timer.autoCopy text =>
    if clipboardOk then
      showToast ToastMessage.autoCopied "success" 2000
        { p with clipboard := p.clipboard ++ [text] }
    else p
  | Timer.toastHide ident =>
    if p.body.any (fun n => n.ident = ident) then
      { p with
        body := p.body.map (fun n =>
          if n.ident = ident then { n with classes := n.classes ++ ["aw-toast-hiding"] }
          else n),
        timers := p.timers ++ [(300, Timer.toastRemove ident)] }
    else p
  | Timer.toastRemove ident => removeNode ident p
  | Timer.updateShadow _ => p

/-- One thing that happens to the page. -/
inductive PageOp where
  /-- A command arrives from the coordinator. -/
  | receive (request : Command)
  /-- The user clicks. -/
  | click (target : ClickTarget)
  /-- The user presses a key. -/
  | keydown (key : String)
  /-- The pending timer number `index` fires. -/
  | timer (index : Nat) (panelRect : DOMRect) (clipboardOk : Bool)
  /-- The user changes the selection. -/
  | select (selection : Option SelRange)
  /-- The user scrolls or resizes the window. -/
  | view (window : Viewport)
deriving Repr

/-- Does the content have a close button? -/
def NodeContent.hasCloseButton : NodeContent → Bool
  | NodeContent.result _ => true
  | NodeContent.languageSelector _ _ => true
  | _ => false

/-- Does the content have a language button number `index`? -/
def NodeContent.hasLangButton (index : Nat) : NodeContent → Bool
  | NodeContent.languageSelector languages _ => index < languages.length
  | _ => false

/-- Can the click land there: is the element in the document? -/
def clickable (target : ClickTarget) (p : Page) : Bool :=
  match target with
  | ClickTarget.closeButton ident =>
    match p.body.find? (fun n => n.ident = ident) with
    | some n => n.content.hasCloseButton
    | none => false
  | ClickTarget.langButton ident index =>
    match p.body.find? (fun n => n.ident = ident) with
    | some n => n.content.hasLangButton index
    | none => false
  | ClickTarget.inside ident => p.body.any (fun n => n.ident = ident)
  | ClickTarget.elsewhere => true

/-- The page after one operation. A click that cannot land and a timer that does not exist
change nothing. -/
def Page.step (p : Page) (op : PageOp) : Page :=
  match op with
  | PageOp.receive request => (contentOnMessage request p).1
  | PageOp.click target =>
    if clickable target p then onTargetClick target (onDocumentClick target p) else p
  | PageOp.keydown key => onKeydown key p
  | PageOp.timer index panelRect clipboardOk =>
    match p.timers.get? index with
    | some (_, timer) =>
      runTimer timer panelRect clipboardOk { p with timers := p.timers.eraseIdx index }
    | none => p
  | PageOp.select selection => { p with selection := selection }
  | PageOp.view window => { p with window := window }

/-- The page after a sequence of operations. -/
def Page.run (p : Page) (ops : List PageOp) : Page := ops.foldl Page.step p

/-- The identities of the nodes in the body are older than the next fresh one. -/
def Fresh (p : Page) : Prop := ∀ n ∈ p.body, n.ident < p.nextIdent

/-! ## Interleaved calls of `setupOffscreenDocument` (background.js)

The service worker runs one piece of code at a time, and a call of the asynchronous function
gives way at each `await`. Several calls in flight are therefore a transition system: one
step runs one call from the `await` where it waits to the next one. -/

/-- The promise of a creation: pending, or settled. -/
inductive Settlement where
  | pending
  | fulfilled
  | rejected (e : JsError)
deriving DecidableEq, Repr

/-- Where a call of `setupOffscreenDocument` stands. -/
inductive CallState where
  /-- It waits at `await chrome.runtime.getContexts(...)`. -/
  | awaitingContexts
  /-- It invoked `createDocument` as creation number `k` and waits at the `await creating` of
  the `else` branch. -/
  | awaitingOwn (k : Nat)
  /-- It found the creation number `k` in `creating` and waits at the `await creating` of the
  `if` branch. -/
  | awaitingOther (k : Nat)
  | returned
  | failed (e : JsError)
deriving DecidableEq, Repr

/-- The coordinator with several calls in flight: the calls, the module variable `creating`
(the number of the creation whose promise it holds, `none` for `undefined` and `null`), and
the promises `createDocument` has returned so far, one per invocation. -/
structure Setup where
  calls : List CallState
  creating : Option Nat
  creations : List Settlement
deriving DecidableEq, Repr

/-- What the event loop delivers next. -/
inductive SetupEvent where
  /-- The host answers the `getContexts` of call `i`: `found` tells whether the list of
  contexts is non-empty. -/
  | contexts (i : Nat) (found : Bool)
  /-- The promise of creation `k` settles. -/
  | settle (k : Nat) (outcome : Except JsError Unit)
deriving Repr

/-- `N` calls made while no worker context exists, each waiting for its `getContexts`. -/
def Setup.start (N : Nat) : Setup := ⟨List.replicate N CallState.awaitingContexts, none, []⟩

/-- May the event loop deliver this answer to a `getContexts` now? The calls were made when
no worker context existed, so a context is reported only if a creation was started and has
not failed. The answer `[]` can be delivered at any time: the host may have looked before a
creation succeeded and the answer reach its call after it. -/
def answerAllowed (s : Setup) (found : Bool) : Bool :=
  if found then s.creations.any (fun c => c = Settlement.pending ∨ c = Settlement.fulfilled)
  else true

/-- The state of a call that waited for creation `k`, after that creation settled. -/
def resume (k : Nat) (outcome : Except JsError Unit) : CallState → CallState
  | CallState.awaitingOwn j =>
    if j = k then
      match outcome with
      | Except.ok _ => CallState.returned
      | Except.error e => CallState.failed e
    else CallState.awaitingOwn j
  | CallState.awaitingOther j =>
    if j = k then
      match outcome with
      | Except.ok _ => CallState.returned
      | Except.error e => CallState.failed e
    else CallState.awaitingOther j
  | st => st

/-- One step of the event loop, `none` when the event cannot happen in this state. -/
def Setup.step (s : Setup) : SetupEvent → Option Setup
  | SetupEvent.contexts i found =>
    if s.calls.get? i = some CallState.awaitingContexts ∧ answerAllowed s found = true then
      if found then
        -- `existingContexts.length > 0`: return
        some { s with calls := s.calls.set i CallState.returned }
      else
        match s.creating with
        | some k =>
          -- `if (creating) await creating`
          match s.creations.get? k with
          | some Settlement.pending =>
            some { s with calls := s.calls.set i (CallState.awaitingOther k) }
          | some Settlement.fulfilled =>
            some { s with calls := s.calls.set i CallState.returned }
          | some (Settlement.rejected e) =>
            some { s with calls := s.calls.set i (CallState.failed e) }
          | none => none
        | none =>
          -- `creating = chrome.offscreen.createDocument(...); await creating`
          some { calls := s.calls.set i (CallState.awaitingOwn s.creations.length),
                 creating := some s.creations.length,
                 creations := s.creations ++ [Settlement.pending] }
    else none
  | SetupEvent.settle k outcome =>
    if s.creations.get? k = some Settlement.pending then
      some { calls := s.calls.map (resume k outcome),
             -- the creator goes on to `creating = null` when its `await` does not throw
             creating :=
               if succeeded outcome ∧ CallState.awaitingOwn k ∈ s.calls then none
               else s.creating,
             creations := s.creations.set k
               (match outcome with
                | Except.ok _ => Settlement.fulfilled
                | Except.error e => Settlement.rejected e) }
    else none

/-- Run a schedule, `none` when one of its events cannot happen. -/
def Setup.run (s : Setup) : List SetupEvent → Option Setup
  | [] => some s
  | ev :: rest =>
    match s.step ev with
    | some s1 => s1.run rest
    | none => none

/-- Is the event an answer `[]` that reaches its call after a creation has succeeded? -/
def Setup.stale (s : Setup) : SetupEvent → Bool
  | SetupEvent.contexts _ false => s.creations.any (fun c => c = Settlement.fulfilled)
  | _ => false

/-- Run a schedule in which no answer `[]` is delivered after a creation has succeeded,
`none` when an event is such an answer or cannot happen. -/
def Setup.runTimely (s : Setup) : List SetupEvent → Option Setup
  | [] => some s
  | ev :: rest =>
    if s.stale ev then none
    else
      match s.step ev with
      | some s1 => s1.runTimely rest
      | none => none

/-- Has the call ended, by returning or by throwing? -/
def CallState.finished : CallState → Bool
  | CallState.returned => true
  | CallState.failed _ => true
  | _ => false

/-- The creation a call waits for, if it waits for one. -/
def CallState.awaited : CallState → Option Nat
  | CallState.awaitingOwn k => some k
  | CallState.awaitingOther k => some k
  | _ => none

/-- The schedule in which the host answers every call in turn that no context exists, and
the one creation then succeeds. -/
def roundRobin (N : Nat) : List SetupEvent :=
  (List.range N).map (fun i => SetupEvent.contexts i false)
    ++ [SetupEvent.settle 0 (Except.ok ())]

/-- What holds of the calls in flight in every state reached from `Setup.start` when no answer
`[]` is delivered after a creation has succeeded: at most one
creation was started; before it all calls wait for their `getContexts`; while it is not
fulfilled `creating` holds it; and no call waits for another creation. -/
def SetupInvariant (s : Setup) : Prop :=
  s.creations.length ≤ 1
  ∧ (s.creations = [] → s.creating = none ∧ ∀ st ∈ s.calls, st = CallState.awaitingContexts)
  ∧ (∀ c, s.creations = [c] → c = Settlement.fulfilled ∨ s.creating = some 0)
  ∧ (∀ st ∈ s.calls, ∀ k, st.awaited = some k → k = 0)

/-! ## The page: what a result panel copies (content.js) -/

/-- The `click` listener `attachEventListeners` puts on the copy button of the result panel of
identity `ident`; the button exists when the panel was rendered with its action bar. It
writes the panel's `textForActions` to the clipboard and shows a toast; `clipboardOk` tells
whether the write succeeds. The button's label, which it also changes, is not in the model. -/
def onCopyClick (ident : Nat) (clipboardOk : Bool) (p : Page) : Page :=
  match p.body.find? (fun n => n.ident = ident) with
  | some n =>
    match n.content with
    | NodeContent.result view =>
      if view.showActionButtons then
        if clipboardOk then
          showToast ToastMessage.copied "success" 2000
            { p with clipboard := p.clipboard ++ [view.textForActions] }
        else showToast ToastMessage.copyFailed "error" TOAST_DURATION p
      else p
    | _ => p
  | none => p

/-- The texts of the pending auto-copies, in the order they were scheduled. -/
def autoCopies (p : Page) : List JobResult :=
  p.timers.filterMap (fun t => match t.2 with
    | Timer.autoCopy text => some text
    | _ => none)

/-- The default copy target of a result as the specification words it, to compare with what
`showResultPanel` schedules: the corrected text for the kind `grammar`, the result text for
every other kind. -/
def defaultCopyTarget (actionType : String) (result : JobResult)
    (correctedText : Option String) : JobResult :=
  if actionType = "grammar" then ofText correctedText else result


/-! ## The page: the overlay's id and class (content.js) -/

/-- The elements with the id `textgenius-panel`, which `getElementById` looks for, are those
with the class `textgenius-panel`, which `removeExistingPanels` looks for. -/
def Tagged (p : Page) : Prop :=
  ∀ n ∈ p.body, (n.elemId = "textgenius-panel" ↔ n.hasClass "textgenius-panel" = true)

/-! ## The page: `replaceSelectedText` (content.js) -/

/-- A JavaScript string as the sequence of its UTF-16 code units. -/
abbrev JsString := List Nat

/-- The method `s.substring(a, b)` for indices that are non-negative integers: both are
clamped to the length and swapped if out of order. -/
def substring (s : JsString) (a b : Nat) : JsString :=
  let a := min a s.length
  let b := min b s.length
  (s.take (max a b)).drop (min a b)

/-- The method `s.substring(a)`. -/
def substringFrom (s : JsString) (a : Nat) : JsString := substring s a s.length

/-- The focused element as `replaceSelectedText` sees it: its tag name, whether it is
content-editable, `selectionStart` and `selectionEnd` (`none` when `selectionStart` is not a
number), its value, and the types of the events dispatched on it so far. What the script
assigns to `value` is taken as the new value. -/
structure ActiveElement where
  tagName : String
  isContentEditable : Bool
  selection : Option (Nat × Nat)
  value : JsString
  events : List String := []
deriving DecidableEq, Repr

/-- A range of the window's selection: the text before it, the text it contains and the text
after it. -/
structure EditRange where
  before : JsString
  selected : JsString
  after : JsString
deriving DecidableEq, Repr

/-- What `replaceSelectedText` reads and writes: `document.activeElement` (`none` for `null`)
and the first range of `window.getSelection()` (`none` when `rangeCount` is 0). -/
structure Editing where
  activeElement : Option ActiveElement
  range : Option EditRange
deriving DecidableEq, Repr

/-- The function `replaceSelectedText(newText)`: the value it returns and the state it leaves.
In a content-editable element the contents of the range are deleted and a text node with
`newText` is inserted, which the range then contains. In another element with a numeric
`selectionStart` the value is rebuilt around the selection, both ends of the selection are set
behind the inserted text (the element clamps them to the length of its value), and `input` and
`change` are dispatched. -/
def replaceSelectedText (newText : JsString) (d : Editing) : Bool × Editing :=
  match d.activeElement with
  | some activeElement =>
    if activeElement.tagName = "TEXTAREA" ∨ activeElement.tagName = "INPUT"
        ∨ activeElement.isContentEditable = true then
      if activeElement.isContentEditable then
        match d.range with
        | some range => (true, { d with range := some { range with selected := newText } })
        | none => (false, d)
      else
        match activeElement.selection with
        | some (start, stop) =>
          let text := activeElement.value
          let value := substring text 0 start ++ newText ++ substringFrom text stop
          let cursor := min (start + newText.length) value.length
          let edited : ActiveElement :=
            { activeElement with
              value := value, selection := some (cursor, cursor),
              events := activeElement.events ++ ["input", "change"] }
          (true, { d with activeElement := some edited })
        | none => (false, d)
    else (false, d)
  | none => (false, d)

/-! ## The coordinator: the `doTranslate` request (background.js) -/

/-- The callback the `doTranslate` branch of the `onMessage` listener passes to
`chrome.i18n.detectLanguage`, for a request `{ text, targetLanguage }` from the tab `tabId`.
`detected` holds the `language` of each entry of `result.languages`. -/
def doTranslate (host : Host) (tabId : Nat) (text : String) (targetLanguage : Option String)
    (detected : List String) : Coord Unit :=
  let sourceLanguage := strOr detected.head? "en"
  tryCatch
    (do
      let translatedResult ← sendToOffscreen host
        { action := "translate", text := text, sourceLanguage := some sourceLanguage,
          targetLanguage := targetLanguage }
      let _ ← sendMessageToTab host tabId
        (Command.showResult "translate" translatedResult (some text) none none none)
      return ())
    (fun aiError => do
      let _ ← sendMessageToTab host tabId
        (Command.showResult "translate" (JobResult.text (aiErrorText host aiError)) (some text)
          none none (some true))
      return ())

/-- A host call of `setupOffscreenDocument`. -/
def ContextEvent (ev : Event) : Prop := ev = Event.getContexts ∨ ev = Event.createDocument

/-- The host call is not the dispatch of a job with the action `translate`. -/
def NoTranslateJob (ev : Event) : Prop :=
  ∀ job, ev = Event.runtimeSendMessage job → job.action ≠ "translate"

/-- The host call is not the dispatch of a job. -/
def NoJob (ev : Event) : Prop := ∀ job, ev ≠ Event.runtimeSendMessage job

/-! ## The coordinator: a request the worker may leave unanswered (background.js) -/

/-- How a promise ends: fulfilled with a value, rejected with an error, or never settled. -/
inductive Fate (α : Type) where
  | fulfilled (value : α)
  | rejected (reason : JsError)
  | pending
deriving Repr

/-- The fate of a promise that settles with `outcome`. -/
def Fate.ofExcept {α : Type} : Except JsError α → Fate α
  | Except.ok a => Fate.fulfilled a
  | Except.error e => Fate.rejected e

/-- The function `sendToOffscreen(data)` when the promise of `chrome.runtime.sendMessage` may
stay pending: `response` gives the fate of that promise, by the number of host calls answered
before it. An `await` of a promise that never settles never resumes, so the promise of
`sendToOffscreen` stays pending with it. -/
def sendToOffscreenFate (host : Host) (response : Nat → Fate (Option WorkerResponse))
    (data : Job) : World → Fate JobResult × World := fun w =>
  match setupOffscreenDocument host w with
  | (Except.error e, w1) => (Fate.rejected e, w1)
  | (Except.ok _, w1) =>
    let w2 : World :=
      { w1 with trace := w1.trace ++ [Event.runtimeSendMessage data], calls := w1.calls + 1 }
    match response w1.calls with
    | Fate.pending => (Fate.pending, w2)
    | Fate.rejected e => (Fate.rejected e, w2)
    | Fate.fulfilled none => (Fate.rejected (typeErrorReading "result"), w2)
    | Fate.fulfilled (some r) =>
      if !r.success then (Fate.rejected (newError (strOr r.error unknownOffscreenError)), w2)
      else (Fate.fulfilled r.result, w2)

/-! ## The page: the preview of the loading panel (content.js) -/

/-- The UTF-16 code units of a character. -/
def utf16Char (c : Char) : JsString :=
  if c.toNat < 65536 then [c.toNat]
  else [55296 + (c.toNat - 65536) / 1024, 56320 + (c.toNat - 65536) % 1024]

/-- A string as JavaScript holds it: the sequence of its UTF-16 code units. -/
def utf16 (s : String) : JsString := s.data.flatMap utf16Char

/-- The function `escapeHtml(text)`: the text is assigned to `textContent` of a new element
and read back through `innerHTML`, which writes `&`, the no-break space, `<` and `>` as
`&amp;`, `&nbsp;`, `&lt;` and `&gt;`. -/
def escapeHtml (text : JsString) : JsString :=
  text.flatMap (fun u =>
    if u = 38 then utf16 "&amp;"
    else if u = 160 then utf16 "&nbsp;"
    else if u = 60 then utf16 "&lt;"
    else if u = 62 then utf16 "&gt;"
    else [u])

/-- The content of the element `aw-original-preview` in the markup of `showLoadingPanel`, the
line breaks and the indentation of the template apart:
`"${escapeHtml(text.substring(0, 100))}${text.length > 100 ? '...' : ''}"`. -/
def loadingPreview (text : String) : JsString :=
  utf16 "\"" ++ escapeHtml (substring (utf16 text) 0 100)
    ++ (if (utf16 text).length > 100 then utf16 "..." else utf16 "") ++ utf16 "\""

/-- The preview a node shows, if it is a loading panel. -/
def NodeContent.preview : NodeContent → Option JsString
  | NodeContent.loading _ text => some (loadingPreview text)
  | _ => none

/-! ## The page: the buttons of the language selector (content.js) -/

/-- The function `getLangName(code)`, with the host's `String.prototype.toUpperCase`: the
value `names[code] || code.toUpperCase()` as the template literals of its callers show it. A
code that is a key the object `names` inherits from `Object.prototype` gives the inherited
value, which is truthy. -/
def getLangName (toUpperCase : String → String) (code : String) : String :=
  if code = "es" then "Spanish"
  else if code = "de" then "German"
  else if code = "fr" then "French"
  else if code = "it" then "Italian"
  else if code = "ja" then "Japanese"
  else if code = "zh" then "Chinese"
  else if code = "ko" then "Korean"
  else if code = "pt" then "Portuguese"
  else if code = "ru" then "Russian"
  else if code = "ar" then "Arabic"
  else
    match inheritedText code with
    | some value => value
    | none => toUpperCase code

/-- The markup `showLanguageSelector` writes for the button of one language. -/
def langButtonHTML (toUpperCase : String → String) (lang : String) : String :=
  "<button class=\"aw-btn aw-lang-btn\" data-lang=\"" ++ lang
    ++ "\" aria-label=\"Translate to " ++ getLangName toUpperCase lang ++ "\">"
    ++ getLangName toUpperCase lang ++ "</button>"

/-- The variable `languageButtonsHTML` of `showLanguageSelector`: the buttons of the languages
in list order, joined without a separator. -/
def languageButtonsHTML (toUpperCase : String → String) (languages : List String) : String :=
  String.join (languages.map (langButtonHTML toUpperCase))

/-- The characters behind the first occurrence of `needle` in a character list. -/
def afterFirst (needle : List Char) : List Char → Option (List Char)
  | [] => if needle = [] then some [] else none
  | c :: s =>
    if startsWith (c :: s) needle then some ((c :: s).drop needle.length)
    else afterFirst needle s

/-- The value of `button.getAttribute('data-lang')` for a button parsed from `markup`: the
characters between the first `data-lang="` and the double quote that follows. This is how a
double-quoted attribute value is read when it holds no character reference (no `&`). -/
def readDataLang (markup : String) : Option String :=
  match afterFirst "data-lang=\"".data markup.data with
  | some rest =>
    if rest.contains '"' then some (String.mk (rest.takeWhile (fun c => c != '"'))) else none
  | none => none

/-- Is the text made of ASCII letters, digits and hyphens only, as a language code is? -/
def isLanguageCode (code : String) : Bool :=
  code.data.all (fun c => c.isAlphanum || c == '-')
/-! ## Hosts used as examples -/

/-- A host whose page never answers. -/
def deafHost : Host where
  toLowerCase := asciiLower
  tabsSendMessage := fun _ _ _ =>
    Except.error (newError "Could not establish connection. Receiving end does not exist.")
  insertCSS := fun _ _ => Except.ok ()
  executeScript := fun _ _ => Except.ok ()
  getContexts := fun _ => true
  createDocument := fun _ => Except.ok ()
  runtimeSendMessage := fun _ _ => Except.ok none


/-- A selection near the right edge of a 1000 px wide window. -/
def edgeRange : SelRange :=
  { collapsed := false, clientRects := 1,
    boundingClientRect := { left := 900, top := 40, bottom := 60, width := 80, height := 20 } }

/-- A window 1000 px wide and 700 px high, not scrolled. -/
def plainWindow : Viewport :=
  { scrollX := 0, scrollY := 0, innerWidth := 1000, innerHeight := 700 }

/-- The measured rectangle of a panel 300 px wide and 200 px high. -/
def panelBox : DOMRect :=
  { left := 900, top := 70, bottom := 270, width := 300, height := 200 }

/-- A browser whose summarizer and language model work, and whose rewriter and translator
report the availability `availability`. -/
def sampleAi (availability : String) : AiHost where
  summarizerCreate := Except.ok ()
  summarize := fun text => Except.ok ("Key points of: " ++ text)
  rewriterAvailability := Except.ok availability
  rewriterCreate := Except.ok ()
  rewrite := fun text _ => Except.ok text
  languageModelCreate := fun _ => Except.ok ()
  prompt := fun _ input => Except.ok input
  translatorAvailability := fun _ _ => Except.ok availability
  translatorCreate := fun _ _ => Except.ok ()
  translate := fun _ _ text => Except.ok text
  toUpperCase := fun s => String.mk (s.data.map Char.toUpper)

/-- A host whose page answers every command at once, whose worker context does not exist yet
and can be created, and whose worker runs `offscreenListener` over `ai`. -/
def workerHost (ai : AiHost) : Host where
  toLowerCase := asciiLower
  tabsSendMessage := fun _ _ message =>
    match message with
    | Command.ping => Except.ok (some ⟨some "ready"⟩)
    | _ => Except.ok (some ⟨some "shown"⟩)
  insertCSS := fun _ _ => Except.ok ()
  executeScript := fun _ _ => Except.ok ()
  getContexts := fun _ => false
  createDocument := fun _ => Except.ok ()
  runtimeSendMessage := fun _ data => Except.ok (some (offscreenListener ai data))

/-- A page with one element of its own and no overlay. -/
def samplePage : Page :=
  { body := [{ ident := 0, elemId := "main", classes := ["article"],
               content := NodeContent.hostPage }],
    nextIdent := 1, window := plainWindow }

/-- An action rendered by `showResultPanel`: a grammar check that found nothing to change. -/
def cleanGrammarPage : Page :=
  showResultPanel "grammar" (JobResult.text "No errors found.") (some "Tea is ready.")
    (some "Tea is ready.") (some false) (some false) samplePage

/-- An action rendered by `showResultPanel`: a failed summary of `Tea is ready.`. -/
def failedSummaryPage : Page :=
  showResultPanel "summarize" (JobResult.text "⚠️ **AI Error:** no model") (some "Tea is ready.")
    none none (some true) samplePage

/-- A selection that lies above the visible part of the page: its bottom edge is 50 px above
the top of the viewport. -/
def aboveRange : SelRange :=
  { collapsed := false, clientRects := 1,
    boundingClientRect := { left := 100, top := -70, bottom := -50, width := 80, height := 20 } }

/-- A focused text area holding `Tea are ready.` with `are` selected. -/
def teaArea : Editing :=
  { activeElement := some
      { tagName := "TEXTAREA", isContentEditable := false, selection := some (4, 7),
        value := [84, 101, 97, 32, 97, 114, 101, 32, 114, 101, 97, 100, 121, 46] },
    range := none }

/-- A structured grammar result for `Tea are ready.`. -/
def teaGrammar : GrammarResult :=
  { message := "Corrections found.", original := "Tea are ready.",
    corrected := "Tea is ready.", hasChanges := true }

/-- A host whose page answers every command at once and whose worker context, created on
demand, answers every job with the structured grammar result `g`. -/
def grammarHost (g : GrammarResult) : Host where
  toLowerCase := asciiLower
  tabsSendMessage := fun _ _ message =>
    match message with
    | Command.ping => Except.ok (some ⟨some "ready"⟩)
    | _ => Except.ok (some ⟨some "shown"⟩)
  insertCSS := fun _ _ => Except.ok ()
  executeScript := fun _ _ => Except.ok ()
  getContexts := fun _ => false
  createDocument := fun _ => Except.ok ()
  runtimeSendMessage := fun _ _ =>
    Except.ok (some { success := true, result := JobResult.grammar g })

/-- A host whose page answers every command at once and whose worker context does not exist
and cannot be created. -/
def noWorkerHost : Host where
  toLowerCase := asciiLower
  tabsSendMessage := fun _ _ message =>
    match message with
    | Command.ping => Except.ok (some ⟨some "ready"⟩)
    | _ => Except.ok (some ⟨some "shown"⟩)
  insertCSS := fun _ _ => Except.ok ()
  executeScript := fun _ _ => Except.ok ()
  getContexts := fun _ => false
  createDocument := fun _ => Except.error (newError "Offscreen documents are not available.")
  runtimeSendMessage := fun _ _ => Except.ok none

/-- A text of 101 characters: a hundred times `a`, then `<`. -/
def longText : String := String.mk (List.replicate 100 'a' ++ ['<'])

/-- A focused content-editable region holding `Tea are ready.`, with `are` selected in the
window's range. -/
def teaRegion : Editing :=
  { activeElement := some
      { tagName := "DIV", isContentEditable := true, selection := none, value := [] },
    range := some
      { before := [84, 101, 97, 32], selected := [97, 114, 101],
        after := [32, 114, 101, 97, 100, 121, 46] } }

/-- The captured variables for a selection whose left edge is at the double written
`600.2000000000002`, in a window that is not scrolled. -/
def gapAnchor : Anchor :=
  { rect := { left := 5279415031929243 / 8796093022208, top := 40, bottom := 60, width := 80,
              height := 20 },
    top := 70, left := 5279415031929243 / 8796093022208 }

/-- The measured rectangle of a panel whose width is the double written `379.7999999999999`
and whose height is 200 px. -/
def gapBox : DOMRect :=
  { left := 5279415031929243 / 8796093022208, top := 70, bottom := 270,
    width := 6681512259669195 / 17592186044416, height := 200 }
/-! ## Facts about strings -/

theorem startsWith_iff (s needle : List Char) :
    startsWith s needle = true ↔ ∃ after, s = needle ++ after := by
  induction needle generalizing s with
  | nil => simp [startsWith]
  | cons d needle ih =>
    cases s with
    | nil => simp [startsWith]
    | cons c s =>
      simp only [startsWith, Bool.and_eq_true, beq_iff_eq, ih, List.cons_append, List.cons.injEq]
      constructor
      · rintro ⟨rfl, a, rfl⟩
        exact ⟨a, rfl, rfl⟩
      · rintro ⟨a, rfl, rfl⟩
        exact ⟨rfl, a, rfl⟩

theorem includesChars_iff (s needle : List Char) :
    includesChars s needle = true ↔ ∃ before after, s = before ++ needle ++ after := by
  induction s with
  | nil =>
    simp only [includesChars, startsWith_iff]
    constructor
    · rintro ⟨a, h⟩
      exact ⟨[], a, by simpa using h⟩
    · rintro ⟨b, a, h⟩
      have h1 : b = [] ∧ needle = [] ∧ a = [] := by
        simpa [List.append_eq_nil, and_assoc] using h.symm
      exact ⟨[], by simp [h1.2.1]⟩
  | cons c s ih =>
    simp only [includesChars, Bool.or_eq_true, startsWith_iff, ih]
    constructor
    · rintro (⟨a, h⟩ | ⟨b, a, h⟩)
      · exact ⟨[], a, by simpa using h⟩
      · exact ⟨c :: b, a, by simp [h]⟩
    · rintro ⟨b, a, h⟩
      cases b with
      | nil => exact Or.inl ⟨a, by simpa using h⟩
      | cons x b =>
        simp only [List.cons_append, List.cons.injEq] at h
        exact Or.inr ⟨b, a, h.2⟩

theorem includes_iff (s needle : String) : includes s needle = true ↔ Occurs needle s := by
  simp [includes, Occurs, includesChars_iff]


/-! ## Facts about the coordinator's computations -/

@[simp] theorem pure_run {α : Type} (a : α) (w : World) :
    (pure a : Coord α) w = (Except.ok a, w) := rfl

@[simp] theorem bind_run {α β : Type} (m : Coord α) (f : α → Coord β) (w : World) :
    (m >>= f) w = match m w with
      | (Except.ok a, w1) => f a w1
      | (Except.error e, w1) => (Except.error e, w1) := rfl

@[simp] theorem throwJs_run {α : Type} (e : JsError) (w : World) :
    (throwJs e : Coord α) w = (Except.error e, w) := rfl

@[simp] theorem tryCatch_run {α : Type} (body : Coord α) (handler : JsError → Coord α)
    (w : World) :
    tryCatch body handler w = match body w with
      | (Except.ok a, w1) => (Except.ok a, w1)
      | (Except.error e, w1) => handler e w1 := rfl

@[simp] theorem emit_run (ev : Event) (w : World) :
    emit ev w = (Except.ok (), { w with trace := w.trace ++ [ev] }) := rfl

@[simp] theorem ask_run {α : Type} (answer : Nat → Except JsError α)
    (ev : Except JsError α → Event) (w : World) :
    ask answer ev w = (answer w.calls,
      { w with trace := w.trace ++ [ev (answer w.calls)], calls := w.calls + 1 }) := rfl

@[simp] theorem succeeded_ok {α : Type} (a : α) :
    succeeded (Except.ok a : Except JsError α) = true := rfl

@[simp] theorem succeeded_error {α : Type} (e : JsError) :
    succeeded (Except.error e : Except JsError α) = false := rfl

/-! ## Facts about `sendMessageToTab` -/

theorem failedRounds_succ_front (tabId : Nat) (message : Command) (i j : Nat) :
    failedRounds tabId message i (j + 1) =
      [Event.tabsSendMessage tabId message false, Event.setTimeout (100 * ((i : Int) + 1))]
        ++ failedRounds tabId message (i + 1) j := by
  unfold failedRounds
  rw [List.range_succ_eq_map, List.flatMap_cons, List.flatMap_map]
  simp [Nat.add_assoc, Nat.add_comm 1, Function.comp_def]

theorem failedRounds_succ_back (tabId : Nat) (message : Command) (i j : Nat) :
    failedRounds tabId message i (j + 1) =
      failedRounds tabId message i j ++
        [Event.tabsSendMessage tabId message false,
          Event.setTimeout (100 * (((i + j : Nat) : Int) + 1))] := by
  unfold failedRounds
  rw [List.range_succ, List.flatMap_append]
  simp

theorem failedDeliveries_split (tabId : Nat) (message : Command) (n : Nat) :
    failedDeliveries tabId message (n + 1) =
      failedRounds tabId message 0 n ++ [Event.tabsSendMessage tabId message false] := by
  unfold failedDeliveries failedRounds
  rw [List.range_succ, List.flatMap_append]
  congr 1
  · apply List.flatMap_congr
    intro k hk
    have : k + 1 < n + 1 := by simpa using List.mem_range.mp hk
    simp [this]
  · simp

/-- One run of the loop with `m + 1` rounds to go: some `j ≤ m` deliveries fail and are waited
for, then one more attempt ends the loop, with a response or, after the last round only, with
its error. -/
theorem sendMessageToTabLoop_run (host : Host) (tabId : Nat) (message : Command) (m : Nat) :
    ∀ (i : Nat) (w : World), ∃ (j : Nat) (r : Except JsError (Option TabResponse)),
      j ≤ m
      ∧ sendMessageToTabLoop host tabId message ((i + m + 1 : Nat) : Int) (m + 1) i w =
        (r, { w with
              trace := w.trace ++ (failedRounds tabId message i j
                ++ [Event.tabsSendMessage tabId message (succeeded r)]),
              calls := w.calls + (j + 1) })
      ∧ (succeeded r = false → j = m)
      ∧ r = host.tabsSendMessage (w.calls + j) tabId message
      ∧ ∀ k, k < j → succeeded (host.tabsSendMessage (w.calls + k) tabId message) = false := by
  induction m with
  | zero =>
    intro i w
    refine ⟨0, host.tabsSendMessage w.calls tabId message, Nat.le_refl 0, ?_, fun _ => rfl,
      rfl, fun k hk => absurd hk (Nat.not_lt_zero k)⟩
    have hlt : (i : Int) < ((i + 0 + 1 : Nat) : Int) := by push_cast; omega
    have heq : (i : Int) = ((i + 0 + 1 : Nat) : Int) - 1 := by push_cast; omega
    simp only [sendMessageToTabLoop, if_pos hlt, tryCatch_run, tabsSendMessage, ask_run,
      if_pos heq, throwJs_run]
    cases h : host.tabsSendMessage w.calls tabId message <;>
      simp [failedRounds]
  | succ m ih =>
    intro i w
    have hlt : (i : Int) < ((i + (m + 1) + 1 : Nat) : Int) := by push_cast; omega
    have hne : ¬ (i : Int) = ((i + (m + 1) + 1 : Nat) : Int) - 1 := by push_cast; omega
    have hretries : ((i + (m + 1) + 1 : Nat) : Int) = ((i + 1 + m + 1 : Nat) : Int) := by
      congr 1; omega
    cases h : host.tabsSendMessage w.calls tabId message with
    | ok resp =>
      refine ⟨0, Except.ok resp, Nat.zero_le _, ?_, fun hf => by simp at hf,
        by simpa using h.symm, fun k hk => absurd hk (Nat.not_lt_zero k)⟩
      rw [sendMessageToTabLoop, if_pos hlt]
      simp [tryCatch_run, tabsSendMessage, ask_run, h, failedRounds]
    | error err =>
      obtain ⟨j, r, hj, hrun, hlast, hr, hprev⟩ := ih (i + 1)
        { w with trace := w.trace ++ [Event.tabsSendMessage tabId message false] ++
                   [Event.setTimeout (100 * ((i : Int) + 1))],
                 calls := w.calls + 1 }
      refine ⟨j + 1, r, Nat.succ_le_succ hj, ?_, fun hf => by rw [hlast hf], ?_, ?_⟩
      · rw [sendMessageToTabLoop, if_pos hlt]
        simp only [tryCatch_run, tabsSendMessage, ask_run, h, succeeded_error, if_neg hne, sleep,
          bind_run, emit_run]
        rw [hretries, hrun, failedRounds_succ_front]
        simp [Nat.add_assoc, Nat.add_comm 1]
      · rw [hr]
        simp [Nat.add_assoc, Nat.add_comm 1]
      · intro k hk
        cases k with
        | zero => simp [h]
        | succ k =>
          have := hprev k (by omega)
          simpa [Nat.add_assoc, Nat.add_comm 1] using this

/-- One call of `sendMessageToTab` with `n ≥ 1` retries. -/
theorem sendMessageToTab_run (host : Host) (tabId : Nat) (message : Command) (n : Nat)
    (hn : 1 ≤ n) (w : World) :
    ∃ (j : Nat) (r : Except JsError (Option TabResponse)),
      j < n
      ∧ sendMessageToTab host tabId message (n : Int) w =
        (r, { w with
              trace := w.trace ++ (failedRounds tabId message 0 j
                ++ [Event.tabsSendMessage tabId message (succeeded r)]),
              calls := w.calls + (j + 1) })
      ∧ (succeeded r = false → j + 1 = n)
      ∧ r = host.tabsSendMessage (w.calls + j) tabId message
      ∧ ∀ k, k < j → succeeded (host.tabsSendMessage (w.calls + k) tabId message) = false := by
  obtain ⟨m, rfl⟩ : ∃ m, n = m + 1 := ⟨n - 1, by omega⟩
  obtain ⟨j, r, hj, hrun, hlast, hr, hprev⟩ := sendMessageToTabLoop_run host tabId message m 0 w
  refine ⟨j, r, by omega, ?_, fun hf => by rw [hlast hf], hr, hprev⟩
  unfold sendMessageToTab
  have h1 : ((m + 1 : Nat) : Int).toNat = m + 1 := by simp
  have h2 : ((m + 1 : Nat) : Int) = ((0 + m + 1 : Nat) : Int) := by simp
  rw [h1, h2, hrun]

theorem deliveryAttempts_append (a b : List Event) :
    deliveryAttempts (a ++ b) = deliveryAttempts a ++ deliveryAttempts b := by
  simp [deliveryAttempts]

theorem waits_append (a b : List Event) : waits (a ++ b) = waits a ++ waits b := by
  simp [waits]

theorem deliveryAttempts_failedRounds (tabId : Nat) (message : Command) (i n : Nat) :
    deliveryAttempts (failedRounds tabId message i n) =
      List.replicate n (Event.tabsSendMessage tabId message false) := by
  induction n with
  | zero => simp [deliveryAttempts, failedRounds]
  | succ n ih =>
    rw [failedRounds_succ_back, deliveryAttempts_append, ih, List.replicate_succ']
    simp [deliveryAttempts]

theorem waits_failedRounds (tabId : Nat) (message : Command) (n : Nat) :
    waits (failedRounds tabId message 0 n) =
      (List.range n).map (fun (k : Nat) => 100 * ((k : Int) + 1)) := by
  induction n with
  | zero => simp [waits, failedRounds]
  | succ n ih =>
    rw [failedRounds_succ_back, waits_append, ih, List.range_succ, List.map_append]
    simp [waits]

/-! ## Facts about traces -/

theorem eventsSince_append (w w1 : World) (evs : List Event) (h : w1.trace = w.trace ++ evs) :
    eventsSince w w1 = evs := by
  simp [eventsSince, h]

theorem Emits.mono {α : Type} {P Q : Event → Prop} {m : Coord α} (h : Emits P m)
    (hPQ : ∀ ev, P ev → Q ev) : Emits Q m := by
  intro w
  obtain ⟨evs, h1, h2⟩ := h w
  exact ⟨evs, h1, fun ev hev => hPQ ev (h2 ev hev)⟩

theorem emits_pure {α : Type} (P : Event → Prop) (a : α) : Emits P (pure a : Coord α) :=
  fun w => ⟨[], by simp, by simp⟩

theorem emits_throwJs {α : Type} (P : Event → Prop) (e : JsError) :
    Emits P (throwJs e : Coord α) :=
  fun w => ⟨[], by simp, by simp⟩

theorem emits_await {α : Type} (P : Event → Prop) (r : Except JsError α) :
    Emits P (await r) :=
  fun w => ⟨[], by simp [await], by simp⟩

theorem emits_getCreating (P : Event → Prop) : Emits P getCreating :=
  fun w => ⟨[], by simp [getCreating], by simp⟩

theorem emits_setCreating (P : Event → Prop) (v : Option (Except JsError Unit)) :
    Emits P (setCreating v) :=
  fun w => ⟨[], by simp [setCreating], by simp⟩

theorem emits_emit (P : Event → Prop) (ev : Event) (h : P ev) : Emits P (emit ev) :=
  fun w => ⟨[ev], by simp, by simpa using h⟩

theorem emits_ask {α : Type} (P : Event → Prop) (answer : Nat → Except JsError α)
    (ev : Except JsError α → Event) (h : ∀ r, P (ev r)) : Emits P (ask answer ev) :=
  fun w => ⟨[ev (answer w.calls)], by simp, by simpa using h _⟩

theorem emits_bind {α β : Type} {P : Event → Prop} {m : Coord α} {f : α → Coord β}
    (hm : Emits P m) (hf : ∀ a, Emits P (f a)) : Emits P (m >>= f) := by
  intro w
  obtain ⟨evs, h1, h2⟩ := hm w
  rw [bind_run]
  rcases hmw : m w with ⟨r, w1⟩
  rw [hmw] at h1
  cases r with
  | error e => exact ⟨evs, h1, h2⟩
  | ok a =>
    obtain ⟨evs2, h3, h4⟩ := hf a w1
    refine ⟨evs ++ evs2, ?_, ?_⟩
    · simp only [h3]
      simp only at h1
      rw [h1, List.append_assoc]
    · intro ev hev
      rcases List.mem_append.mp hev with h | h
      · exact h2 ev h
      · exact h4 ev h

theorem emits_tryCatch {α : Type} {P : Event → Prop} {m : Coord α} {f : JsError → Coord α}
    (hm : Emits P m) (hf : ∀ e, Emits P (f e)) : Emits P (tryCatch m f) := by
  intro w
  obtain ⟨evs, h1, h2⟩ := hm w
  rw [tryCatch_run]
  rcases hmw : m w with ⟨r, w1⟩
  rw [hmw] at h1
  cases r with
  | ok a => exact ⟨evs, h1, h2⟩
  | error e =>
    obtain ⟨evs2, h3, h4⟩ := hf e w1
    refine ⟨evs ++ evs2, ?_, ?_⟩
    · simp only [h3]
      simp only at h1
      rw [h1, List.append_assoc]
    · intro ev hev
      rcases List.mem_append.mp hev with h | h
      · exact h2 ev h
      · exact h4 ev h

theorem emits_sendMessageToTabLoop (host : Host) (tabId : Nat) (message : Command)
    (retries : Int) (fuel : Nat) :
    ∀ i, Emits (DeliveryEvent tabId message)
      (sendMessageToTabLoop host tabId message retries fuel i) := by
  induction fuel with
  | zero => intro i; exact emits_pure _ _
  | succ fuel ih =>
    intro i
    rw [sendMessageToTabLoop]
    by_cases h : (i : Int) < retries
    · rw [if_pos h]
      apply emits_tryCatch
      · exact emits_ask _ _ _ (fun r => Or.inl ⟨_, rfl⟩)
      · intro e
        by_cases h2 : (i : Int) = retries - 1
        · rw [if_pos h2]
          exact emits_throwJs _ _
        · rw [if_neg h2]
          exact emits_bind (emits_emit _ _ (Or.inr ⟨_, rfl⟩)) (fun _ => ih (i + 1))
    · rw [if_neg h]
      exact emits_pure _ _

theorem emits_sendMessageToTab (host : Host) (tabId : Nat) (message : Command) (retries : Int) :
    Emits (DeliveryEvent tabId message) (sendMessageToTab host tabId message retries) :=
  emits_sendMessageToTabLoop host tabId message retries _ 0

theorem emits_setupOffscreenDocument (host : Host) (data : Job) :
    Emits (OffscreenEvent data) (setupOffscreenDocument host) := by
  unfold setupOffscreenDocument
  apply emits_bind (emits_ask _ _ _ (fun _ => Or.inl rfl))
  intro existing
  cases existing with
  | true => exact emits_pure _ _
  | false =>
    apply emits_bind (emits_getCreating _)
    intro c
    cases c with
    | some p => exact emits_await _ _
    | none =>
      apply emits_bind
      · intro w
        exact ⟨[Event.createDocument], rfl, by simp [OffscreenEvent]⟩
      · intro p
        exact emits_bind (emits_setCreating _ _)
          (fun _ => emits_bind (emits_await _ _) (fun _ => emits_setCreating _ _))

theorem emits_sendToOffscreen (host : Host) (data : Job) :
    Emits (OffscreenEvent data) (sendToOffscreen host data) := by
  unfold sendToOffscreen
  apply emits_bind (emits_setupOffscreenDocument host data)
  intro _
  apply emits_bind (emits_ask _ _ _ (fun _ => Or.inr (Or.inr rfl)))
  intro response
  cases response with
  | none => exact emits_throwJs _ _
  | some r =>
    simp only
    split_ifs
    · exact emits_throwJs _ _
    · exact emits_pure _ _

theorem emits_injectContentScript (host : Host) (tabId : Nat) (loading : Command) :
    Emits (AnnounceEvent tabId loading) (injectContentScript host tabId) := by
  unfold injectContentScript
  apply emits_bind (emits_ask _ _ _ (fun _ => Or.inr (Or.inr (Or.inl rfl))))
  intro _
  apply emits_bind (emits_ask _ _ _ (fun _ => Or.inr (Or.inr (Or.inr (Or.inl rfl)))))
  intro _
  exact emits_bind (emits_emit _ _ (Or.inr (Or.inr (Or.inr (Or.inr ⟨_, rfl⟩)))))
    (fun _ => emits_pure _ _)

theorem emits_isContentScriptLoaded (host : Host) (tabId : Nat) (loading : Command) :
    Emits (AnnounceEvent tabId loading) (isContentScriptLoaded host tabId) := by
  unfold isContentScriptLoaded
  apply emits_tryCatch
  · apply emits_bind (emits_ask _ _ _ (fun _ => Or.inl ⟨_, rfl⟩))
    intro response
    cases response <;> exact emits_pure _ _
  · intro _
    exact emits_pure _ _

theorem emits_announceLoading (host : Host) (tabId : Nat) (menuId text : String) :
    Emits (AnnounceEvent tabId (Command.showLoading menuId text))
      (announceLoading host tabId menuId text) := by
  unfold announceLoading
  apply emits_bind (emits_isContentScriptLoaded host tabId _)
  intro isLoaded
  have hsend : Emits (AnnounceEvent tabId (Command.showLoading menuId text))
      (sendMessageToTab host tabId (Command.showLoading menuId text)) :=
    (emits_sendMessageToTab host tabId _ 3).mono (fun ev h => by
      rcases h with h | h
      · exact Or.inr (Or.inl h)
      · exact Or.inr (Or.inr (Or.inr (Or.inr h))))
  cases isLoaded with
  | true => exact emits_bind (emits_pure _ _) (fun _ => hsend)
  | false =>
    exact emits_bind (emits_injectContentScript host tabId _)
      (fun _ => emits_bind (emits_pure _ _) (fun _ => hsend))

/-! ## Facts about the projections of a trace -/

@[simp] theorem dispatched_append (a b : List Event) :
    dispatched (a ++ b) = dispatched a ++ dispatched b := by
  simp [dispatched]

@[simp] theorem commandsSent_append (a b : List Event) :
    commandsSent (a ++ b) = commandsSent a ++ commandsSent b := by
  simp [commandsSent]

@[simp] theorem commandsDelivered_append (a b : List Event) :
    commandsDelivered (a ++ b) = commandsDelivered a ++ commandsDelivered b := by
  simp [commandsDelivered]

@[simp] theorem notifications_append (a b : List Event) :
    notifications (a ++ b) = notifications a ++ notifications b := by
  simp [notifications]

theorem commandsSent_failedRounds (tabId : Nat) (message : Command) (i j : Nat) :
    commandsSent (failedRounds tabId message i j) = List.replicate j message := by
  induction j with
  | zero => simp [commandsSent, failedRounds]
  | succ j ih =>
    rw [failedRounds_succ_back, commandsSent_append, ih, List.replicate_succ']
    simp [commandsSent]

theorem commandsDelivered_failedRounds (tabId : Nat) (message : Command) (i j : Nat) :
    commandsDelivered (failedRounds tabId message i j) = [] := by
  induction j with
  | zero => simp [commandsDelivered, failedRounds]
  | succ j ih =>
    rw [failedRounds_succ_back, commandsDelivered_append, ih]
    simp [commandsDelivered]

theorem dispatched_failedRounds (tabId : Nat) (message : Command) (i j : Nat) :
    dispatched (failedRounds tabId message i j) = [] := by
  induction j with
  | zero => simp [dispatched, failedRounds]
  | succ j ih =>
    rw [failedRounds_succ_back, dispatched_append, ih]
    simp [dispatched]

theorem notifications_failedRounds (tabId : Nat) (message : Command) (i j : Nat) :
    notifications (failedRounds tabId message i j) = [] := by
  induction j with
  | zero => simp [notifications, failedRounds]
  | succ j ih =>
    rw [failedRounds_succ_back, notifications_append, ih]
    simp [notifications]

/-- Facts about a stretch of host calls that only reach for the page. -/
theorem announce_events_quiet (tabId : Nat) (menuId text : String) (evs : List Event)
    (h : ∀ ev ∈ evs, AnnounceEvent tabId (Command.showLoading menuId text) ev) :
    dispatched evs = [] ∧ notifications evs = []
      ∧ (∀ c ∈ commandsSent evs, c.isShowResult = false ∧ c.isPrompt = false)
      ∧ (∀ ev ∈ evs, ev.isJobOrResult = false) := by
  induction evs with
  | nil => simp [dispatched, notifications, commandsSent]
  | cons ev evs ih =>
    obtain ⟨h1, h2, h3, h4⟩ := ih (fun e he => h e (List.mem_cons_of_mem _ he))
    have hev := h ev (List.mem_cons_self _ _)
    have hd : dispatched (ev :: evs) = dispatched [ev] ++ dispatched evs :=
      dispatched_append [ev] evs
    have hn : notifications (ev :: evs) = notifications [ev] ++ notifications evs :=
      notifications_append [ev] evs
    have hc : commandsSent (ev :: evs) = commandsSent [ev] ++ commandsSent evs :=
      commandsSent_append [ev] evs
    rw [hd, hn, hc, h1, h2]
    have hcs : ∀ c ∈ commandsSent [ev], c.isShowResult = false ∧ c.isPrompt = false := by
      rcases hev with ⟨d, rfl⟩ | ⟨d, rfl⟩ | rfl | rfl | ⟨ms, rfl⟩ <;>
        simp [commandsSent, Command.isShowResult, Command.isPrompt]
    have hjr : ev.isJobOrResult = false := by
      rcases hev with ⟨d, rfl⟩ | ⟨d, rfl⟩ | rfl | rfl | ⟨ms, rfl⟩ <;>
        simp [Event.isJobOrResult, Command.isShowResult]
    refine ⟨?_, ?_, ?_, ?_⟩
    · rcases hev with ⟨d, rfl⟩ | ⟨d, rfl⟩ | rfl | rfl | ⟨ms, rfl⟩ <;> simp [dispatched]
    · rcases hev with ⟨d, rfl⟩ | ⟨d, rfl⟩ | rfl | rfl | ⟨ms, rfl⟩ <;> simp [notifications]
    · intro c hc
      rcases List.mem_append.mp hc with hc | hc
      · exact hcs c hc
      · exact h3 c hc
    · intro e he
      rcases List.mem_cons.mp he with rfl | he
      · exact hjr
      · exact h4 e he

/-- Facts about the host calls of a `sendToOffscreen`. -/
theorem offscreen_events_quiet (data : Job) (evs : List Event)
    (h : ∀ ev ∈ evs, OffscreenEvent data ev) :
    commandsSent evs = [] ∧ notifications evs = [] := by
  induction evs with
  | nil => simp [notifications, commandsSent]
  | cons ev evs ih =>
    obtain ⟨h1, h2⟩ := ih (fun e he => h e (List.mem_cons_of_mem _ he))
    have hev := h ev (List.mem_cons_self _ _)
    have hn : notifications (ev :: evs) = notifications [ev] ++ notifications evs :=
      notifications_append [ev] evs
    have hc : commandsSent (ev :: evs) = commandsSent [ev] ++ commandsSent evs :=
      commandsSent_append [ev] evs
    rw [hn, hc, h1, h2]
    rcases hev with rfl | rfl | rfl <;> simp [notifications, commandsSent]

theorem commandsDelivered_nil_of_sent (evs : List Event) (h : commandsSent evs = []) :
    commandsDelivered evs = [] := by
  induction evs with
  | nil => simp [commandsDelivered]
  | cons ev evs ih =>
    have hc : commandsSent (ev :: evs) = commandsSent [ev] ++ commandsSent evs :=
      commandsSent_append [ev] evs
    have hd : commandsDelivered (ev :: evs) = commandsDelivered [ev] ++ commandsDelivered evs :=
      commandsDelivered_append [ev] evs
    rw [hc, List.append_eq_nil] at h
    rw [hd, ih h.2]
    cases ev <;> simp_all [commandsSent, commandsDelivered]

/-! ## Facts about `handleAction` -/

theorem emits_handleActionJob (host : Host) (tabId : Nat) (menuId text : String) :
    Emits (fun ev => notifications [ev] = []) (handleActionJob host tabId menuId text) := by
  have hoff : ∀ data, Emits (fun ev => notifications [ev] = []) (sendToOffscreen host data) :=
    fun data => (emits_sendToOffscreen host data).mono (fun ev h => by
      rcases h with rfl | rfl | rfl <;> simp [notifications])
  have hsend : ∀ c, Emits (fun ev => notifications [ev] = []) (sendMessageToTab host tabId c) :=
    fun c => (emits_sendMessageToTab host tabId c 3).mono (fun ev h => by
      rcases h with ⟨d, rfl⟩ | ⟨ms, rfl⟩ <;> simp [notifications])
  unfold handleActionJob
  by_cases hg : menuId = "grammar"
  · rw [if_pos hg]
    exact emits_bind (hoff _) (fun _ => emits_bind (emits_await _ _)
      (fun _ => emits_bind (hsend _) (fun _ => emits_pure _ _)))
  · rw [if_neg hg]
    by_cases ht : menuId = "translate"
    · rw [if_pos ht]
      exact emits_bind (hsend _) (fun _ => emits_pure _ _)
    · rw [if_neg ht]
      cases offscreenJobFor menuId with
      | none => exact emits_throwJs _ _
      | some p =>
        exact emits_bind (hoff _) (fun _ => emits_bind (hsend _) (fun _ => emits_pure _ _))

/-- The course of `handleAction`, step by step. -/
theorem handleAction_run (host : Host) (tabId : Nat) (menuId text : String) (w : World) :
    handleAction host tabId menuId text w =
      match announceLoading host tabId menuId text w with
      | (Except.error _, w1) =>
        (Except.ok (), { w1 with trace := w1.trace ++ [unreachableNotification] })
      | (Except.ok _, w1) =>
        match handleActionJob host tabId menuId text w1 with
        | (Except.ok _, w2) => (Except.ok (), w2)
        | (Except.error aiError, w2) =>
          match (sendMessageToTab host tabId (aiErrorCommand host menuId text aiError)) w2 with
          | (Except.ok _, w3) => (Except.ok (), w3)
          | (Except.error _, w3) =>
            (Except.ok (), { w3 with trace := w3.trace ++ [unreachableNotification] }) := by
  unfold handleAction announceLoading
  simp only [tryCatch_run, bind_run]
  rcases h0 : isContentScriptLoaded host tabId w with ⟨_ | isLoaded, w0⟩
  · simp
  · cases isLoaded with
    | true =>
      simp only [Bool.not_true, Bool.false_eq_true, if_false, bind_run, pure_run]
      rcases h2 : (sendMessageToTab host tabId (Command.showLoading menuId text)) w0
        with ⟨_ | _, w1⟩
      · simp
      · rcases h3 : handleActionJob host tabId menuId text w1 with ⟨aiError | _, w2⟩
        · rcases h4 : (sendMessageToTab host tabId (aiErrorCommand host menuId text aiError)) w2
            with ⟨_ | _, w3⟩ <;> simp [h3, h4]
        · simp [h3]
    | false =>
      simp only [Bool.not_false, if_true, bind_run, pure_run]
      rcases h1 : injectContentScript host tabId w0 with ⟨_ | _, w0⟩
      · simp
      · rcases h2 : (sendMessageToTab host tabId (Command.showLoading menuId text)) w0
          with ⟨_ | _, w1⟩
        · simp [h2]
        · rcases h3 : handleActionJob host tabId menuId text w1 with ⟨aiError | _, w2⟩
          · rcases h4 :
              (sendMessageToTab host tabId (aiErrorCommand host menuId text aiError)) w2
              with ⟨_ | _, w3⟩ <;> simp [h2, h3, h4]
          · simp [h2, h3]

/-- The course of the steps that reach the page. -/
theorem announceLoading_run (host : Host) (tabId : Nat) (menuId text : String) (w : World) :
    announceLoading host tabId menuId text w =
      match isContentScriptLoaded host tabId w with
      | (Except.error e, w0) => (Except.error e, w0)
      | (Except.ok true, w0) =>
        (sendMessageToTab host tabId (Command.showLoading menuId text)) w0
      | (Except.ok false, w0) =>
        match injectContentScript host tabId w0 with
        | (Except.error e, w1) => (Except.error e, w1)
        | (Except.ok _, w1) =>
          (sendMessageToTab host tabId (Command.showLoading menuId text)) w1 := by
  unfold announceLoading
  simp only [bind_run]
  rcases isContentScriptLoaded host tabId w with ⟨_ | isLoaded, w0⟩
  · simp
  · cases isLoaded with
    | true =>
      simp only [Bool.not_true, Bool.false_eq_true, if_false, bind_run, pure_run]
    | false =>
      simp only [Bool.not_false, if_true, bind_run, pure_run]
      rcases injectContentScript host tabId w0 with ⟨_ | _, w0⟩ <;> simp

theorem mem_before_of_split {α : Type} (xs ys front back : List α) (x y : α)
    (hsplit : xs ++ ys = front ++ y :: back) (hy : y ∉ xs) (hx : x ∈ xs) : x ∈ front := by
  rcases List.append_eq_append_iff.mp hsplit with ⟨a, h1, h2⟩ | ⟨c, h1, h2⟩
  · rw [h1]
    exact List.mem_append_left _ hx
  · cases c with
    | nil =>
      rw [h1] at hx
      simpa using hx
    | cons z c =>
      simp only [List.cons_append, List.cons.injEq] at h2
      exact absurd (by rw [h1, h2.1]; simp) hy

/-- When the page cannot be reached the action ends with the notification and nothing else. -/
theorem handleAction_of_announce_error (host : Host) (tabId : Nat) (menuId text : String)
    (w w1 : World) (e : JsError)
    (h : announceLoading host tabId menuId text w = (Except.error e, w1)) :
    ∃ evs, (∀ ev ∈ evs, AnnounceEvent tabId (Command.showLoading menuId text) ev)
      ∧ eventsSince w (handleAction host tabId menuId text w).2 =
          evs ++ [unreachableNotification] := by
  obtain ⟨evs, h1, h2⟩ := emits_announceLoading host tabId menuId text w
  rw [h] at h1
  simp only at h1
  refine ⟨evs, h2, ?_⟩
  apply eventsSince_append
  rw [handleAction_run, h]
  simp [h1]

theorem unreachableOutcome_of_announce_error (host : Host) (tabId : Nat)
    (menuId text : String) (w w1 : World) (e : JsError)
    (h : announceLoading host tabId menuId text w = (Except.error e, w1)) :
    UnreachableOutcome (eventsSince w (handleAction host tabId menuId text w).2) := by
  obtain ⟨evs, h1, h2⟩ := handleAction_of_announce_error host tabId menuId text w w1 e h
  obtain ⟨q1, q2, q3, _⟩ := announce_events_quiet tabId menuId text evs h1
  rw [h2]
  refine ⟨?_, ?_, ?_⟩
  · rw [dispatched_append, q1]
    simp [dispatched, unreachableNotification]
  · intro c hc
    rw [commandsSent_append] at hc
    rcases List.mem_append.mp hc with hc | hc
    · exact q3 c hc
    · simp [commandsSent, unreachableNotification] at hc
  · rw [notifications_append, q2]
    simp [notifications, unreachableNotification]

/-- After a delivered `showLoading` the host calls so far end with that delivery, and the rest
of the action only adds to them. -/
theorem handleAction_of_announce_ok (host : Host) (tabId : Nat) (menuId text : String)
    (w w1 : World) (resp : Option TabResponse)
    (h : announceLoading host tabId menuId text w = (Except.ok resp, w1)) :
    ∃ evs rest, (∀ ev ∈ evs, AnnounceEvent tabId (Command.showLoading menuId text) ev)
      ∧ Event.tabsSendMessage tabId (Command.showLoading menuId text) true ∈ evs
      ∧ w1.trace = w.trace ++ evs
      ∧ eventsSince w (handleAction host tabId menuId text w).2 = evs ++ rest := by
  obtain ⟨evs, h1, h2⟩ := emits_announceLoading host tabId menuId text w
  rw [h] at h1
  simp only at h1
  have hdelivered : Event.tabsSendMessage tabId (Command.showLoading menuId text) true ∈ evs := by
    rw [announceLoading_run] at h
    -- the delivery is the last call of the stretch
    have hlast : ∃ front, w1.trace = front ++
        [Event.tabsSendMessage tabId (Command.showLoading menuId text) true]
        ∧ w.trace.length ≤ front.length := by
      rcases h0 : isContentScriptLoaded host tabId w with ⟨_ | isLoaded, w0⟩
      · rw [h0] at h
        simp at h
      · obtain ⟨e0, hp0, _⟩ := emits_isContentScriptLoaded host tabId
          (Command.showLoading menuId text) w
        rw [h0] at hp0
        simp only at hp0
        rw [h0] at h
        cases isLoaded with
        | true =>
          simp only at h
          obtain ⟨j, r, _, hrun, _, _, _⟩ :=
            sendMessageToTab_run host tabId (Command.showLoading menuId text) 3 (by decide) w0
          have hrun2 : (sendMessageToTab host tabId (Command.showLoading menuId text)) w0 = _ :=
            hrun
          rw [h] at hrun2
          have hr : r = Except.ok resp := (congrArg Prod.fst hrun2).symm
          have hw : w1 = _ := congrArg Prod.snd hrun2
          refine ⟨w0.trace ++ failedRounds tabId (Command.showLoading menuId text) 0 j, ?_, ?_⟩
          · rw [hw, hr]
            simp
          · rw [hp0]
            simp
        | false =>
          simp only at h
          rcases h1' : injectContentScript host tabId w0 with ⟨_ | _, w0'⟩
          · rw [h1'] at h
            simp at h
          · obtain ⟨e1, hp1, _⟩ := emits_injectContentScript host tabId
              (Command.showLoading menuId text) w0
            rw [h1'] at hp1
            simp only at hp1
            rw [h1'] at h
            simp only at h
            obtain ⟨j, r, _, hrun, _, _, _⟩ :=
              sendMessageToTab_run host tabId (Command.showLoading menuId text) 3 (by decide)
                w0'
            have hrun2 :
                (sendMessageToTab host tabId (Command.showLoading menuId text)) w0' = _ := hrun
            rw [h] at hrun2
            have hr : r = Except.ok resp := (congrArg Prod.fst hrun2).symm
            have hw : w1 = _ := congrArg Prod.snd hrun2
            refine ⟨w0'.trace ++ failedRounds tabId (Command.showLoading menuId text) 0 j,
              ?_, ?_⟩
            · rw [hw, hr]
              simp
            · rw [hp1, hp0]
              simp
    obtain ⟨front, hf, hlen⟩ := hlast
    rw [hf] at h1
    have := List.append_eq_append_iff.mp h1
    rcases this with ⟨a, ha1, ha2⟩ | ⟨c, hc1, hc2⟩
    · have hlen2 : front.length + a.length = w.trace.length := by
        have := congrArg List.length ha1
        simpa using this.symm
      have ha : a = [] := by
        apply List.eq_nil_of_length_eq_zero
        omega
      subst ha
      simp only [List.nil_append] at ha2
      rw [← ha2]
      simp
    · rw [hc2]
      simp
  -- the rest of the action
  have hrest : ∃ rest, (handleAction host tabId menuId text w).2.trace = w1.trace ++ rest := by
    rw [handleAction_run, h]
    simp only
    obtain ⟨j1, hj1, _⟩ := emits_handleActionJob host tabId menuId text w1
    rcases h3 : handleActionJob host tabId menuId text w1 with ⟨aiError | _, w2⟩
    · rw [h3] at hj1
      simp only at hj1
      obtain ⟨j2, hj2, _⟩ := emits_sendMessageToTab host tabId
        (aiErrorCommand host menuId text aiError) 3 w2
      have hj2' : ((sendMessageToTab host tabId (aiErrorCommand host menuId text aiError)) w2
          ).2.trace = w2.trace ++ j2 := hj2
      simp only
      rcases h4 : (sendMessageToTab host tabId (aiErrorCommand host menuId text aiError)) w2
        with ⟨_ | _, w3⟩
      · rw [h4] at hj2'
        simp only at hj2'
        exact ⟨j1 ++ j2 ++ [unreachableNotification], by simp [hj2', hj1]⟩
      · rw [h4] at hj2'
        simp only at hj2'
        exact ⟨j1 ++ j2, by simp [hj2', hj1]⟩
    · rw [h3] at hj1
      simp only at hj1
      exact ⟨j1, by simp [hj1]⟩
  obtain ⟨rest, hr⟩ := hrest
  exact ⟨evs, rest, h2, hdelivered, h1,
    eventsSince_append _ _ _ (by rw [hr, h1, List.append_assoc])⟩

/-! ## Facts about the page -/

theorem panels_removeNode_le (ident : Nat) (p : Page) :
    (panels (removeNode ident p)).length ≤ (panels p).length := by
  unfold panels removeNode
  exact ((List.filter_sublist _).filter _).length_le

theorem fresh_removeNode (ident : Nat) (p : Page) (h : Fresh p) : Fresh (removeNode ident p) :=
  fun n hn => h n (List.mem_of_mem_filter hn)

theorem panels_removeExistingPanels (p : Page) : panels (removeExistingPanels p) = [] := by
  unfold panels removeExistingPanels
  simp only [List.filter_filter]
  rw [List.filter_eq_nil_iff]
  intro n _
  simp

theorem fresh_removeExistingPanels (p : Page) (h : Fresh p) : Fresh (removeExistingPanels p) :=
  fun n hn => h n (List.mem_of_mem_filter hn)

theorem panels_showToast_le (message : ToastMessage) (type : String) (duration : Nat)
    (p : Page) :
    (panels (showToast message type duration p)).length ≤ (panels p).length := by
  unfold panels showToast
  simp only [List.filter_append]
  have h1 : List.filter (fun n => n.hasClass "textgenius-panel")
      [({ ident := p.nextIdent, elemId := "", classes := ["aw-toast", "aw-toast-" ++ type],
          content := NodeContent.toast message type } : Node)] = [] := by
    rw [List.filter_eq_nil_iff]
    intro n hn
    have hn2 : n = _ := List.mem_singleton.mp hn
    subst hn2
    have hne : "aw-toast-" ++ type ≠ "textgenius-panel" := by
      intro h
      have h2 := congrArg (fun s => s.data.head?) h
      have h3 : ("aw-toast-" ++ type).data = "aw-toast-".data ++ type.data :=
        String.data_append _ _
      simp only [h3] at h2
      have h4 : ("aw-toast-".data ++ type.data).head? = some 'a' := rfl
      rw [h4] at h2
      exact absurd h2 (by decide)
    simp [Node.hasClass, hne, hne.symm]
  rw [h1, List.append_nil]
  exact ((List.eraseP_sublist _).filter _).length_le

theorem fresh_showToast (message : ToastMessage) (type : String) (duration : Nat) (p : Page)
    (h : Fresh p) : Fresh (showToast message type duration p) := by
  intro n hn
  simp only [showToast, List.mem_append, List.mem_singleton] at hn ⊢
  rcases hn with hn | rfl
  · exact Nat.lt_succ_of_lt (h n (List.mem_of_mem_eraseP hn))
  · exact Nat.lt_succ_self _

theorem nextIdent_showToast (message : ToastMessage) (type : String) (duration : Nat)
    (p : Page) : (showToast message type duration p).nextIdent = p.nextIdent + 1 := rfl

theorem panels_autoCopyText (text : JobResult) (actionType : String) (p : Page) :
    panels (autoCopyText text actionType p) = panels p := by
  unfold autoCopyText
  split_ifs <;> rfl

theorem body_autoCopyText (text : JobResult) (actionType : String) (p : Page) :
    (autoCopyText text actionType p).body = p.body
      ∧ (autoCopyText text actionType p).nextIdent = p.nextIdent
      ∧ (autoCopyText text actionType p).selection = p.selection
      ∧ (autoCopyText text actionType p).window = p.window := by
  unfold autoCopyText
  split_ifs <;> exact ⟨rfl, rfl, rfl, rfl⟩

theorem panels_mountPanel (ident : Nat) (className : String) (content : NodeContent)
    (p : Page) :
    panels (mountPanel (createPanel ident className content) p) =
      panels p ++ [{ createPanel ident className content with
                     style := (positionPanel p.selection p.window).1 }] := by
  unfold panels mountPanel
  simp [List.filter_append, createPanel, Node.hasClass]

/-- After `showLoadingPanel` the only overlay node is the new loading panel. -/
theorem panels_showLoadingPanel (actionType text : String) (p : Page) :
    panels (showLoadingPanel actionType text p) =
      [{ createPanel p.nextIdent "textgenius-panel-loading"
           (NodeContent.loading actionType text) with
         style := (positionPanel p.selection p.window).1 }] := by
  unfold showLoadingPanel
  simp only [panels_mountPanel]
  have h := panels_removeExistingPanels p
  unfold panels at h ⊢
  simp only [removeExistingPanels] at h ⊢
  rw [h]
  rfl

/-- After `showLanguageSelector` the only overlay node is the new selector. -/
theorem panels_showLanguageSelector (languages : List String) (originalText : String)
    (p : Page) :
    panels (showLanguageSelector languages originalText p) =
      [{ createPanel p.nextIdent "textgenius-panel-language-selector"
           (NodeContent.languageSelector languages originalText) with
         style := (positionPanel p.selection p.window).1 }] := by
  unfold showLanguageSelector
  simp only [panels_mountPanel]
  have h := panels_removeExistingPanels p
  unfold panels at h ⊢
  simp only [removeExistingPanels] at h ⊢
  rw [h]
  rfl

theorem fresh_mountPanel (panel : Node) (p : Page) (h : Fresh p)
    (hp : panel.ident < p.nextIdent) : Fresh (mountPanel panel p) := by
  intro n hn
  simp only [mountPanel, List.mem_append, List.mem_singleton] at hn ⊢
  rcases hn with hn | rfl
  · exact h n hn
  · exact hp

theorem fresh_bump (p : Page) (h : Fresh p) : Fresh { p with nextIdent := p.nextIdent + 1 } :=
  fun n hn => Nat.lt_succ_of_lt (h n hn)

theorem fresh_showLoadingPanel (actionType text : String) (p : Page) (h : Fresh p) :
    Fresh (showLoadingPanel actionType text p) := by
  unfold showLoadingPanel
  apply fresh_mountPanel
  · exact fresh_bump _ (fresh_removeExistingPanels p h)
  · exact Nat.lt_succ_self _

theorem fresh_showLanguageSelector (languages : List String) (originalText : String)
    (p : Page) (h : Fresh p) : Fresh (showLanguageSelector languages originalText p) := by
  unfold showLanguageSelector
  apply fresh_mountPanel
  · exact fresh_bump _ (fresh_removeExistingPanels p h)
  · exact Nat.lt_succ_self _

theorem fresh_autoCopyText (text : JobResult) (actionType : String) (p : Page)
    (h : Fresh p) : Fresh (autoCopyText text actionType p) := by
  unfold autoCopyText
  split_ifs
  · exact h
  · exact h

theorem fresh_timers (p : Page) (timers : List (Nat × Timer)) (h : Fresh p) :
    Fresh { p with timers := timers } := h

theorem renderResult_view (actionType : String) (result : JobResult)
    (originalText correctedText : Option String) (showDiff isError : Option Bool) (p : Page) :
    (renderResult actionType result originalText correctedText showDiff isError p).1.actionType
        = actionType
      ∧ (renderResult actionType result originalText correctedText showDiff isError p).1.body
        = result := by
  unfold renderResult
  simp only []
  by_cases he : truthyFlag isError = true
  · rw [if_pos he]
    exact ⟨rfl, rfl⟩
  · rw [if_neg he]
    by_cases hg : actionType = "grammar"
    · rw [if_pos hg]
      by_cases hd : truthyFlag showDiff = true
      · rw [if_pos hd]
        exact ⟨rfl, rfl⟩
      · rw [if_neg hd]
        exact ⟨rfl, rfl⟩
    · rw [if_neg hg]
      exact ⟨rfl, rfl⟩

theorem renderResult_page (actionType : String) (result : JobResult)
    (originalText correctedText : Option String) (showDiff isError : Option Bool) (p : Page) :
    (panels (renderResult actionType result originalText correctedText showDiff isError p).2
        ).length ≤ (panels p).length
      ∧ (Fresh p →
          Fresh (renderResult actionType result originalText correctedText showDiff isError p).2)
      ∧ p.nextIdent ≤
          (renderResult actionType result originalText correctedText showDiff isError p
            ).2.nextIdent := by
  unfold renderResult
  simp only []
  by_cases he : truthyFlag isError = true
  · rw [if_pos he]
    exact ⟨panels_showToast_le _ _ _ _, fresh_showToast _ _ _ _, Nat.le_succ _⟩
  · rw [if_neg he]
    by_cases hg : actionType = "grammar"
    · rw [if_pos hg]
      by_cases hd : truthyFlag showDiff = true
      · rw [if_pos hd]
        exact ⟨by rw [panels_autoCopyText], fresh_autoCopyText _ _ _,
          by rw [(body_autoCopyText _ _ _).2.1]⟩
      · rw [if_neg hd]
        exact ⟨Nat.le_refl _, id, Nat.le_refl _⟩
    · rw [if_neg hg]
      exact ⟨by rw [panels_autoCopyText], fresh_autoCopyText _ _ _,
        by rw [(body_autoCopyText _ _ _).2.1]⟩

theorem panels_mount_result (ident : Nat) (actionType : String) (result : JobResult)
    (originalText correctedText : Option String) (showDiff isError : Option Bool) (q : Page)
    (t : List (Nat × Timer)) (hq : panels q = []) :
    panels { mountPanel (createPanel ident "textgenius-panel-result"
        (NodeContent.result
          (renderResult actionType result originalText correctedText showDiff isError q).1))
        (renderResult actionType result originalText correctedText showDiff isError q).2 with
        timers := t } =
      [{ createPanel ident "textgenius-panel-result"
          (NodeContent.result
            (renderResult actionType result originalText correctedText showDiff isError q).1)
          with style := (positionPanel
            (renderResult actionType result originalText correctedText showDiff isError
              q).2.selection
            (renderResult actionType result originalText correctedText showDiff isError
              q).2.window).1 }] := by
  obtain ⟨h1, _, _⟩ := renderResult_page actionType result originalText correctedText showDiff
    isError q
  rw [hq] at h1
  have h2 := List.eq_nil_of_length_eq_zero (Nat.le_zero.mp h1)
  have : ∀ (r : Page) (t : List (Nat × Timer)), panels { r with timers := t } = panels r :=
    fun _ _ => rfl
  rw [this, panels_mountPanel, h2]
  rfl

/-- After `showResultPanel` the only overlay node is the new result panel. -/
theorem panels_showResultPanel (actionType : String) (result : JobResult)
    (originalText correctedText : Option String) (showDiff isError : Option Bool) (p : Page) :
    ∃ (n : Node) (view : ResultView),
      panels (showResultPanel actionType result originalText correctedText showDiff isError p)
        = [n]
      ∧ n.ident = p.nextIdent ∧ n.content = NodeContent.result view
      ∧ view.actionType = actionType ∧ view.body = result := by
  obtain ⟨h3, h4⟩ := renderResult_view actionType result originalText correctedText showDiff
    isError { removeExistingPanels p with nextIdent := p.nextIdent + 1 }
  exact ⟨_, _, panels_mount_result p.nextIdent actionType result originalText correctedText
    showDiff isError { removeExistingPanels p with nextIdent := p.nextIdent + 1 } _
    (panels_removeExistingPanels p), rfl, rfl, h3, h4⟩

theorem fresh_showResultPanel (actionType : String) (result : JobResult)
    (originalText correctedText : Option String) (showDiff isError : Option Bool) (p : Page)
    (h : Fresh p) :
    Fresh (showResultPanel actionType result originalText correctedText showDiff isError p) := by
  obtain ⟨_, h2, h3⟩ := renderResult_page actionType result originalText correctedText showDiff
    isError { removeExistingPanels p with nextIdent := p.nextIdent + 1 }
  unfold showResultPanel
  apply fresh_timers
  apply fresh_mountPanel
  · exact h2 (fresh_bump _ (fresh_removeExistingPanels p h))
  · exact Nat.lt_of_lt_of_le (Nat.lt_succ_self _) h3

theorem length_panels_map (f : Node → Node) (body : List Node)
    (hf : ∀ n, (f n).hasClass "textgenius-panel" = n.hasClass "textgenius-panel") :
    ((body.map f).filter (fun n => n.hasClass "textgenius-panel")).length =
      (body.filter (fun n => n.hasClass "textgenius-panel")).length := by
  induction body with
  | nil => rfl
  | cons n body ih =>
    simp only [List.map_cons, List.filter_cons, hf n]
    split_ifs <;> simp [ih]

theorem hasClass_append (n : Node) (c d : String) (style : PanelStyle) (hne : d ≠ c) :
    ({ n with classes := n.classes ++ [d], style := style } : Node).hasClass c = n.hasClass c := by
  simp only [Node.hasClass, List.contains_eq_any_beq, List.any_append, List.any_cons,
    List.any_nil, Bool.or_false]
  have h : (c == d) = false := by
    rw [beq_eq_false_iff_ne]
    exact fun h => hne h.symm
  rw [h, Bool.or_false]

theorem panels_onDocumentClick_le (target : ClickTarget) (p : Page) :
    (panels (onDocumentClick target p)).length ≤ (panels p).length := by
  unfold onDocumentClick
  cases getPanelById p with
  | none => exact Nat.le_refl _
  | some panel =>
    simp only
    split_ifs
    · cases p.selection with
      | none => exact panels_removeNode_le _ _
      | some range =>
        simp only
        split_ifs
        · exact panels_removeNode_le _ _
        · exact Nat.le_refl _
    · exact Nat.le_refl _

theorem fresh_onDocumentClick (target : ClickTarget) (p : Page) (h : Fresh p) :
    Fresh (onDocumentClick target p) := by
  unfold onDocumentClick
  cases getPanelById p with
  | none => exact h
  | some panel =>
    simp only
    split_ifs
    · cases p.selection with
      | none => exact fresh_removeNode _ _ h
      | some range =>
        simp only
        split_ifs
        · exact fresh_removeNode _ _ h
        · exact h
    · exact h

theorem nextIdent_onDocumentClick (target : ClickTarget) (p : Page) :
    (onDocumentClick target p).nextIdent = p.nextIdent := by
  unfold onDocumentClick
  cases getPanelById p with
  | none => rfl
  | some panel =>
    simp only
    split_ifs
    · cases p.selection with
      | none => rfl
      | some range =>
        simp only
        split_ifs <;> rfl
    · rfl

theorem fresh_map (f : Node → Node) (p : Page) (hf : ∀ n, (f n).ident = n.ident)
    (timers : List (Nat × Timer)) (h : Fresh p) :
    Fresh { p with body := p.body.map f, timers := timers } := by
  intro n hn
  simp only [List.mem_map] at hn
  obtain ⟨m, hm, rfl⟩ := hn
  rw [hf m]
  exact h m hm

theorem panels_onTargetClick_le (target : ClickTarget) (p : Page) :
    (panels (onTargetClick target p)).length ≤ max (panels p).length 1 := by
  unfold onTargetClick
  cases target with
  | closeButton ident =>
    simp only
    cases p.body.find? (fun n => n.ident = ident) with
    | none => exact Nat.le_max_left _ _
    | some n =>
      simp only
      cases n.content with
      | result view =>
        simp only
        refine Nat.le_trans (Nat.le_of_eq ?_) (Nat.le_max_left _ _)
        unfold panels
        apply length_panels_map
        intro m
        split_ifs
        · exact hasClass_append m _ _ _ (by decide)
        · rfl
      | languageSelector languages originalText =>
        exact Nat.le_trans (panels_removeNode_le _ _) (Nat.le_max_left _ _)
      | hostPage => exact Nat.le_max_left _ _
      | loading a t => exact Nat.le_max_left _ _
      | toast m t => exact Nat.le_max_left _ _
  | langButton ident index =>
    simp only
    cases p.body.find? (fun n => n.ident = ident) with
    | none => exact Nat.le_max_left _ _
    | some n =>
      simp only
      cases n.content with
      | languageSelector languages originalText =>
        simp only
        cases languages.get? index with
        | none => exact Nat.le_max_left _ _
        | some targetLang =>
          simp only
          have : ∀ (q : Page) (s : List (String × String)), panels { q with sent := s } = panels q :=
            fun _ _ => rfl
          rw [this, panels_showLoadingPanel]
          exact Nat.le_max_right _ _
      | result view => exact Nat.le_max_left _ _
      | hostPage => exact Nat.le_max_left _ _
      | loading a t => exact Nat.le_max_left _ _
      | toast m t => exact Nat.le_max_left _ _
  | inside ident => exact Nat.le_max_left _ _
  | elsewhere => exact Nat.le_max_left _ _

theorem fresh_onTargetClick (target : ClickTarget) (p : Page) (h : Fresh p) :
    Fresh (onTargetClick target p) := by
  unfold onTargetClick
  cases target with
  | closeButton ident =>
    simp only
    cases p.body.find? (fun n => n.ident = ident) with
    | none => exact h
    | some n =>
      simp only
      cases n.content with
      | result view =>
        simp only
        apply fresh_map _ _ _ _ h
        intro m
        split_ifs <;> rfl
      | languageSelector languages originalText => exact fresh_removeNode _ _ h
      | hostPage => exact h
      | loading a t => exact h
      | toast m t => exact h
  | langButton ident index =>
    simp only
    cases p.body.find? (fun n => n.ident = ident) with
    | none => exact h
    | some n =>
      simp only
      cases n.content with
      | languageSelector languages originalText =>
        simp only
        cases languages.get? index with
        | none => exact h
        | some targetLang =>
          exact fresh_showLoadingPanel _ _ _ (fresh_showToast _ _ _ _ h)
      | result view => exact h
      | hostPage => exact h
      | loading a t => exact h
      | toast m t => exact h
  | inside ident => exact h
  | elsewhere => exact h

theorem panels_onKeydown_le (key : String) (p : Page) :
    (panels (onKeydown key p)).length ≤ (panels p).length := by
  unfold onKeydown
  split_ifs
  · cases getPanelById p with
    | none => exact Nat.le_refl _
    | some panel => exact panels_removeNode_le _ _
  · exact Nat.le_refl _

theorem fresh_onKeydown (key : String) (p : Page) (h : Fresh p) : Fresh (onKeydown key p) := by
  unfold onKeydown
  split_ifs
  · cases getPanelById p with
    | none => exact h
    | some panel => exact fresh_removeNode _ _ h
  · exact h

theorem panels_runTimer_le (timer : Timer) (panelRect : DOMRect) (clipboardOk : Bool)
    (p : Page) :
    (panels (runTimer timer panelRect clipboardOk p)).length ≤ (panels p).length := by
  unfold runTimer
  cases timer with
  | position ident anchor =>
    simp only
    apply Nat.le_of_eq
    unfold panels
    apply length_panels_map
    intro m
    split_ifs <;> rfl
  | removePanel ident => exact panels_removeNode_le _ _
  | autoCopy text =>
    simp only
    split_ifs
    · exact panels_showToast_le _ _ _ _
    · exact Nat.le_refl _
  | toastHide ident =>
    simp only
    split_ifs
    · apply Nat.le_of_eq
      unfold panels
      apply length_panels_map
      intro m
      split_ifs
      · exact hasClass_append m _ _ _ (by decide)
      · rfl
    · exact Nat.le_refl _
  | toastRemove ident => exact panels_removeNode_le _ _
  | updateShadow ident => exact Nat.le_refl _

theorem fresh_runTimer (timer : Timer) (panelRect : DOMRect) (clipboardOk : Bool) (p : Page)
    (h : Fresh p) : Fresh (runTimer timer panelRect clipboardOk p) := by
  unfold runTimer
  cases timer with
  | position ident anchor =>
    simp only
    apply fresh_map _ _ _ _ h
    intro m
    split_ifs <;> rfl
  | removePanel ident => exact fresh_removeNode _ _ h
  | autoCopy text =>
    simp only
    split_ifs
    · exact fresh_showToast _ _ _ _ h
    · exact h
  | toastHide ident =>
    simp only
    split_ifs
    · apply fresh_map _ _ _ _ h
      intro m
      split_ifs <;> rfl
    · exact h
  | toastRemove ident => exact fresh_removeNode _ _ h
  | updateShadow ident => exact h

/-- One operation leaves at most one overlay node, or no more than there were. -/
theorem panels_step_le (p : Page) (op : PageOp) :
    (panels (p.step op)).length ≤ max (panels p).length 1 := by
  unfold Page.step
  cases op with
  | receive request =>
    cases request with
    | ping => exact Nat.le_max_left _ _
    | showLoading type text =>
      simp only [contentOnMessage, panels_showLoadingPanel]
      exact Nat.le_max_right _ _
    | showResult type result o c d e =>
      obtain ⟨n, view, h, _⟩ := panels_showResultPanel type result o c d e p
      simp only [contentOnMessage, h]
      exact Nat.le_max_right _ _
    | promptForLanguage languages originalText =>
      simp only [contentOnMessage, panels_showLanguageSelector]
      exact Nat.le_max_right _ _
  | click target =>
    simp only
    split_ifs
    · refine Nat.le_trans (panels_onTargetClick_le _ _) ?_
      exact max_le_max (panels_onDocumentClick_le _ _) (Nat.le_refl 1)
    · exact Nat.le_max_left _ _
  | keydown key => exact Nat.le_trans (panels_onKeydown_le _ _) (Nat.le_max_left _ _)
  | timer index panelRect clipboardOk =>
    simp only
    cases p.timers.get? index with
    | none => exact Nat.le_max_left _ _
    | some t =>
      exact Nat.le_trans (panels_runTimer_le _ _ _ _) (Nat.le_max_left _ _)
  | select selection => exact Nat.le_max_left _ _
  | view window => exact Nat.le_max_left _ _

theorem fresh_step (p : Page) (op : PageOp) (h : Fresh p) : Fresh (p.step op) := by
  unfold Page.step
  cases op with
  | receive request =>
    cases request with
    | ping => exact h
    | showLoading type text => exact fresh_showLoadingPanel _ _ _ h
    | showResult type result o c d e => exact fresh_showResultPanel _ _ _ _ _ _ _ h
    | promptForLanguage languages originalText => exact fresh_showLanguageSelector _ _ _ h
  | click target =>
    simp only
    split_ifs
    · exact fresh_onTargetClick _ _ (fresh_onDocumentClick _ _ h)
    · exact h
  | keydown key => exact fresh_onKeydown _ _ h
  | timer index panelRect clipboardOk =>
    simp only
    cases p.timers.get? index with
    | none => exact h
    | some t => exact fresh_runTimer _ _ _ _ h
  | select selection => exact h
  | view window => exact h

theorem run_invariant (p0 : Page) (ops : List PageOp) (hnone : (panels p0).length ≤ 1)
    (hfresh : Fresh p0) :
    (panels (p0.run ops)).length ≤ 1 ∧ Fresh (p0.run ops) := by
  induction ops generalizing p0 with
  | nil => exact ⟨hnone, hfresh⟩
  | cons op ops ih =>
    unfold Page.run
    rw [List.foldl_cons]
    apply ih
    · exact Nat.le_trans (panels_step_le p0 op) (max_le hnone (Nat.le_refl 1))
    · exact fresh_step p0 op hfresh

theorem find_removeNode (ident other : Nat) (p : Page) (h : other ≠ ident) :
    (removeNode other p).body.find? (fun n => n.ident = ident) =
      p.body.find? (fun n => n.ident = ident) := by
  unfold removeNode
  simp only
  induction p.body with
  | nil => rfl
  | cons n body ih =>
    by_cases hn : n.ident = other
    · have h1 : ¬ n.ident = ident := fun h2 => h (hn.symm.trans h2)
      have e1 : decide (n.ident ≠ other) = false := by
        rw [decide_eq_false_iff_not]
        exact fun h3 => h3 hn
      have e2 : decide (n.ident = ident) = false := decide_eq_false h1
      rw [List.filter_cons_of_neg (by rw [e1]; decide), List.find?_cons_of_neg _ (by rw [e2]; decide)]
      exact ih
    · rw [List.filter_cons_of_pos (by simpa using hn)]
      by_cases h2 : n.ident = ident
      · rw [List.find?_cons_of_pos _ (by simpa using h2),
          List.find?_cons_of_pos _ (by simpa using h2)]
      · have e2 : decide (n.ident = ident) = false := decide_eq_false h2
        rw [List.find?_cons_of_neg _ (by rw [e2]; decide),
          List.find?_cons_of_neg _ (by rw [e2]; decide)]
        exact ih

theorem find_onDocumentClick (ident : Nat) (target : ClickTarget) (p : Page)
    (h : target.owner = some ident) :
    (onDocumentClick target p).body.find? (fun n => n.ident = ident) =
      p.body.find? (fun n => n.ident = ident) := by
  unfold onDocumentClick
  cases getPanelById p with
  | none => rfl
  | some panel =>
    simp only
    by_cases hp : target.owner ≠ some panel.ident
    · rw [if_pos hp]
      have hne : panel.ident ≠ ident := by
        intro h2
        apply hp
        rw [h, h2]
      cases p.selection with
      | none => exact find_removeNode _ _ _ hne
      | some range =>
        simp only
        split_ifs
        · exact find_removeNode _ _ _ hne
        · rfl
    · rw [if_neg hp]

/-! ## Facts about interleaved calls of `setupOffscreenDocument` -/

theorem setupInvariant_start (N : Nat) : SetupInvariant (Setup.start N) := by
  refine ⟨Nat.zero_le 1, fun _ => ⟨rfl, ?_⟩, ?_, ?_⟩
  · intro st hst
    exact List.eq_of_mem_replicate hst
  · intro c hc
    exact absurd hc (by simp [Setup.start])
  · intro st hst k hk
    rw [List.eq_of_mem_replicate hst] at hk
    exact absurd hk (by simp [CallState.awaited])

theorem awaited_resume (k : Nat) (outcome : Except JsError Unit) (st : CallState) (j : Nat)
    (h : (resume k outcome st).awaited = some j) : st.awaited = some j := by
  cases st with
  | awaitingOwn i =>
    simp only [resume] at h
    split_ifs at h
    · cases outcome <;> simp [CallState.awaited] at h
    · exact h
  | awaitingOther i =>
    simp only [resume] at h
    split_ifs at h
    · cases outcome <;> simp [CallState.awaited] at h
    · exact h
  | awaitingContexts => exact h
  | returned => exact h
  | failed e => exact h

theorem creations_cases (l : List Settlement) (h : l.length ≤ 1) : l = [] ∨ ∃ c, l = [c] := by
  cases l with
  | nil => exact Or.inl rfl
  | cons c l =>
    cases l with
    | nil => exact Or.inr ⟨c, rfl⟩
    | cons d l => simp at h

theorem setupInvariant_step (s s1 : Setup) (ev : SetupEvent) (h : SetupInvariant s)
    (htimely : s.stale ev = false) (hstep : s.step ev = some s1) : SetupInvariant s1 := by
  obtain ⟨h1, h2, h3, h4⟩ := h
  cases ev with
  | contexts i found =>
    unfold Setup.step at hstep
    simp only at hstep
    by_cases hg : s.calls.get? i = some CallState.awaitingContexts ∧ answerAllowed s found = true
    on_goal 2 =>
      rw [if_neg hg] at hstep
      exact absurd hstep (by simp)
    rw [if_pos hg] at hstep
    by_cases hf : found = true
    · -- a context was found
      rw [if_pos hf] at hstep
      have hs1 : s1 = { s with calls := s.calls.set i CallState.returned } :=
        (Option.some.inj hstep).symm
      subst hs1
      have hne : s.creations ≠ [] := by
        intro hnil
        have := hg.2
        rw [hf] at this
        simp [answerAllowed, hnil] at this
      refine ⟨h1, fun hnil => absurd hnil hne, h3, ?_⟩
      intro st hst k hk
      rcases List.mem_or_eq_of_mem_set hst with hm | rfl
      · exact h4 st hm k hk
      · simp [CallState.awaited] at hk
    · -- no context was found
      rw [if_neg hf] at hstep
      have hall : ∀ c ∈ s.creations, c ≠ Settlement.fulfilled := by
        have hf2 : found = false := by simpa using hf
        rw [hf2] at htimely
        simpa [Setup.stale] using htimely
      cases hc : s.creating with
      | some k =>
        rw [hc] at hstep
        simp only at hstep
        have hmem : ∀ st ∈ s.calls, ∀ j, st.awaited = some j → j = 0 := h4
        have hk0 : k = 0 := by
          rcases creations_cases s.creations h1 with hnil | ⟨c, hcs⟩
          · have := (h2 hnil).1
            rw [hc] at this
            exact absurd this (by simp)
          · rcases h3 c hcs with hful | hcr
            · exact absurd hful (hall c (by rw [hcs]; exact List.mem_singleton_self c))
            · rw [hc] at hcr
              exact Option.some.inj hcr
        cases hget : s.creations.get? k with
        | none =>
          rw [hget] at hstep
          exact absurd hstep (by simp)
        | some c =>
          rw [hget] at hstep
          have hne : s.creations ≠ [] := by
            intro hnil
            rw [hnil] at hget
            simp at hget
          have key : ∀ st0 : CallState, st0.awaited = none ∨ st0.awaited = some k →
              SetupInvariant { s with calls := s.calls.set i st0 } := by
            intro st0 hst0
            refine ⟨h1, fun hnil => absurd hnil hne, h3, ?_⟩
            intro st hst j hj
            rcases List.mem_or_eq_of_mem_set hst with hm | rfl
            · exact h4 st hm j hj
            · rcases hst0 with h0 | h0
              · rw [h0] at hj
                exact absurd hj (by simp)
              · rw [h0] at hj
                rw [← Option.some.inj hj, hk0]
          cases c with
          | pending =>
            simp only at hstep
            rw [← Option.some.inj hstep]
            have hkey := key (CallState.awaitingOther k) (Or.inr rfl)
            rw [hc] at hkey
            exact hkey
          | fulfilled =>
            simp only at hstep
            rw [← Option.some.inj hstep]
            have hkey := key CallState.returned (Or.inl rfl)
            rw [hc] at hkey
            exact hkey
          | rejected e =>
            simp only at hstep
            rw [← Option.some.inj hstep]
            have hkey := key (CallState.failed e) (Or.inl rfl)
            rw [hc] at hkey
            exact hkey
      | none =>
        rw [hc] at hstep
        simp only at hstep
        have hs1 := (Option.some.inj hstep).symm
        subst hs1
        have hnil : s.creations = [] := by
          rcases creations_cases s.creations h1 with hnil | ⟨c, hcs⟩
          · exact hnil
          · rcases h3 c hcs with hful | hcr
            · exact absurd hful (hall c (by rw [hcs]; exact List.mem_singleton_self c))
            · rw [hc] at hcr
              exact absurd hcr (by simp)
        refine ⟨?_, ?_, ?_, ?_⟩
        · simp [hnil]
        · intro h0
          simp [hnil] at h0
        · intro c _
          exact Or.inr (by simp [hnil])
        · intro st hst j hj
          rcases List.mem_or_eq_of_mem_set hst with hm | rfl
          · exact h4 st hm j hj
          · simp only [CallState.awaited, hnil, List.length_nil] at hj
            exact (Option.some.inj hj).symm
  | settle k outcome =>
    unfold Setup.step at hstep
    simp only at hstep
    by_cases hg : s.creations.get? k = some Settlement.pending
    on_goal 2 =>
      rw [if_neg hg] at hstep
      exact absurd hstep (by simp)
    rw [if_pos hg] at hstep
    have hs1 := (Option.some.inj hstep).symm
    subst hs1
    have hcs : s.creations = [Settlement.pending] ∧ k = 0 := by
      rcases creations_cases s.creations h1 with hnil | ⟨c, hcs⟩
      · rw [hnil] at hg
        simp at hg
      · rw [hcs] at hg
        cases k with
        | zero =>
          simp at hg
          exact ⟨by rw [hcs, hg], rfl⟩
        | succ k => simp at hg
    obtain ⟨hcs, rfl⟩ := hcs
    refine ⟨?_, ?_, ?_, ?_⟩
    · simp [hcs]
    · intro h0
      simp [hcs] at h0
    · intro c hc
      cases outcome with
      | ok u =>
        left
        simp [hcs] at hc
        exact hc.symm
      | error e =>
        right
        have := h3 _ hcs
        have h5 : s.creating = some 0 := by simpa using this
        simp [h5]
    · intro st hst j hj
      simp only [List.mem_map] at hst
      obtain ⟨st0, hst0, rfl⟩ := hst
      exact h4 st0 hst0 j (awaited_resume 0 outcome st0 j hj)

theorem setupInvariant_run (schedule : List SetupEvent) :
    ∀ (s s1 : Setup), SetupInvariant s → s.runTimely schedule = some s1 →
      SetupInvariant s1 := by
  induction schedule with
  | nil =>
    intro s s1 h hrun
    simp only [Setup.runTimely] at hrun
    rw [← Option.some.inj hrun]
    exact h
  | cons ev rest ih =>
    intro s s1 h hrun
    simp only [Setup.runTimely] at hrun
    cases hstale : s.stale ev with
    | true =>
      rw [hstale] at hrun
      exact absurd hrun (by simp)
    | false =>
      rw [hstale] at hrun
      simp only [Bool.false_eq_true, if_false] at hrun
      cases hstep : s.step ev with
      | none =>
        rw [hstep] at hrun
        exact absurd hrun (by simp)
      | some s2 =>
        rw [hstep] at hrun
        exact ih s2 s1 (setupInvariant_step s s2 ev h hstale hstep) hrun

theorem run_append (a b : List SetupEvent) :
    ∀ s : Setup, s.run (a ++ b) = (s.run a).bind (fun s1 => s1.run b) := by
  induction a with
  | nil => intro s; rfl
  | cons ev a ih =>
    intro s
    simp only [List.cons_append, Setup.run]
    cases s.step ev with
    | none => rfl
    | some s1 => exact ih s1

/-- After the host has told the first `j + 1` of `M + 1` calls that no context exists, the
first waits for its own creation and the next `j` wait for the same one. -/
theorem run_answers (M : Nat) :
    ∀ j, j ≤ M →
      (Setup.start (M + 1)).run ((List.range (j + 1)).map (fun i => SetupEvent.contexts i false))
        = some ⟨CallState.awaitingOwn 0 ::
            (List.replicate j (CallState.awaitingOther 0)
              ++ List.replicate (M - j) CallState.awaitingContexts),
          some 0, [Settlement.pending]⟩ := by
  intro j
  induction j with
  | zero =>
    intro _
    simp [Setup.run, Setup.step, Setup.start, answerAllowed, List.replicate_succ]
  | succ j ih =>
    intro hj
    rw [List.range_succ, List.map_append, run_append, ih (by omega)]
    simp only [Option.bind, List.map_cons, List.map_nil, Setup.run]
    have hget : (CallState.awaitingOwn 0 ::
        (List.replicate j (CallState.awaitingOther 0)
          ++ List.replicate (M - j) CallState.awaitingContexts)).get? (j + 1)
        = some CallState.awaitingContexts := by
      rw [List.get?_cons_succ, List.get?_eq_getElem?, List.getElem?_append_right (by simp)]
      simp only [List.length_replicate, Nat.sub_self]
      rw [List.getElem?_replicate_of_lt (by omega)]
    have hset : (CallState.awaitingOwn 0 ::
        (List.replicate j (CallState.awaitingOther 0)
          ++ List.replicate (M - j) CallState.awaitingContexts)).set (j + 1)
          (CallState.awaitingOther 0)
        = CallState.awaitingOwn 0 ::
          (List.replicate (j + 1) (CallState.awaitingOther 0)
            ++ List.replicate (M - (j + 1)) CallState.awaitingContexts) := by
      rw [List.set_cons_succ, List.set_append_right _ _ (by simp)]
      simp only [List.length_replicate, Nat.sub_self]
      obtain ⟨r, hr⟩ : ∃ r, M - j = r + 1 := ⟨M - j - 1, by omega⟩
      have hr2 : M - (j + 1) = r := by omega
      rw [hr, hr2, List.replicate_succ, List.set_cons_zero, List.replicate_succ',
        List.append_assoc]
      rfl
    simp only [Setup.step, hget, answerAllowed, hset]
    simp

/-- Under the round-robin schedule every call returns and one creation was made. -/
theorem run_roundRobin (N : Nat) (hN : 1 ≤ N) :
    (Setup.start N).run (roundRobin N) =
      some ⟨List.replicate N CallState.returned, none, [Settlement.fulfilled]⟩ := by
  obtain ⟨M, rfl⟩ : ∃ M, N = M + 1 := ⟨N - 1, by omega⟩
  unfold roundRobin
  rw [run_append, run_answers M M (Nat.le_refl M)]
  simp only [Option.bind, Setup.run, Setup.step, Nat.sub_self, List.replicate_zero,
    List.append_nil]
  simp [resume, List.replicate_succ]

/-- When no answer `[]` reaches its call after a creation has succeeded: `N ≥ 1` calls of
`setupOffscreenDocument` are made while no worker context exists, and the event loop
interleaves them in any such order. In every state reached, `createDocument` was invoked at
most once, and exactly once as soon as one call has ended; every call that waits for a
creation waits for that one; a call that finds the creation in flight waits for it and starts
no other; and the calls can all return, as they do under the round-robin schedule. -/
theorem setup_creates_once (N : Nat) (hN : 1 ≤ N) (schedule : List SetupEvent) (s : Setup)
    (hrun : (Setup.start N).runTimely schedule = some s) :
    s.creations.length ≤ 1
    ∧ ((∃ st ∈ s.calls, st.finished = true) → s.creations.length = 1)
    ∧ (∀ st ∈ s.calls, ∀ k, st.awaited = some k → k = 0)
    ∧ (∀ i k s1, s.creating = some k → s.creations.get? k = some Settlement.pending →
        s.step (SetupEvent.contexts i false) = some s1 →
        s1.creations = s.creations ∧ s1.creating = s.creating
          ∧ s1.calls.get? i = some (CallState.awaitingOther k))
    ∧ (Setup.start N).run (roundRobin N) =
        some ⟨List.replicate N CallState.returned, none, [Settlement.fulfilled]⟩ := by
  obtain ⟨h1, h2, h3, h4⟩ := setupInvariant_run schedule _ s (setupInvariant_start N) hrun
  refine ⟨h1, ?_, h4, ?_, run_roundRobin N hN⟩
  · rintro ⟨st, hst, hfin⟩
    rcases creations_cases s.creations h1 with hnil | ⟨c, hc⟩
    · rw [(h2 hnil).2 st hst] at hfin
      exact absurd hfin (by decide)
    · rw [hc]
      rfl
  · intro i k s1 hcr hget hstep
    unfold Setup.step at hstep
    simp only [hcr, hget] at hstep
    by_cases hg : s.calls.get? i = some CallState.awaitingContexts
        ∧ answerAllowed s false = true
    · rw [if_pos hg] at hstep
      simp only [Bool.false_eq_true, if_false] at hstep
      rw [← Option.some.inj hstep]
      refine ⟨rfl, hcr.symm, ?_⟩
      have hlt : i < s.calls.length := by
        rcases Nat.lt_or_ge i s.calls.length with h | h
        · exact h
        · rw [List.get?_eq_none.mpr h] at hg
          exact absurd hg.1 (by simp)
      simp [List.getElem?_set, hlt]
    · rw [if_neg hg] at hstep
      exact absurd hstep (by simp)

/-! ## Facts about what `showResultPanel` renders -/

/-- What `renderResult` renders does not depend on the page. -/
theorem renderResult_view_eq (actionType : String) (result : JobResult)
    (originalText correctedText : Option String) (showDiff isError : Option Bool)
    (p q : Page) :
    (renderResult actionType result originalText correctedText showDiff isError p).1 =
      (renderResult actionType result originalText correctedText showDiff isError q).1 := by
  unfold renderResult
  simp only []
  by_cases he : truthyFlag isError = true
  · rw [if_pos he, if_pos he]
  · rw [if_neg he, if_neg he]
    by_cases hg : actionType = "grammar"
    · rw [if_pos hg, if_pos hg]
      by_cases hd : truthyFlag showDiff = true
      · rw [if_pos hd, if_pos hd]
      · rw [if_neg hd, if_neg hd]
    · rw [if_neg hg, if_neg hg]

/-- The view of an error result. -/
theorem renderResult_error (actionType : String) (result : JobResult)
    (originalText correctedText : Option String) (showDiff isError : Option Bool) (p : Page)
    (he : truthyFlag isError = true) :
    renderResult actionType result originalText correctedText showDiff isError p =
      ({ actionType := actionType, errorBody := true, body := result, diff := none,
         textForActions := result, showActionButtons := false,
         original := if truthyText originalText then originalText else none },
        showToast ToastMessage.errorOccurred "error" TOAST_DURATION p) := by
  unfold renderResult
  simp only []
  rw [if_pos he]

/-- The view of a grammar result with differences. -/
theorem renderResult_diff (result : JobResult)
    (originalText correctedText : Option String) (showDiff isError : Option Bool) (p : Page)
    (he : truthyFlag isError = false) (hd : truthyFlag showDiff = true) :
    renderResult "grammar" result originalText correctedText showDiff isError p =
      ({ actionType := "grammar", errorBody := false, body := result,
         diff := some (originalText, correctedText),
         textForActions := ofText correctedText, showActionButtons := true,
         original := none },
        autoCopyText (ofText correctedText) "grammar" p) := by
  unfold renderResult
  simp only []
  rw [if_neg (by rw [he]; decide), if_pos trivial, if_pos hd]

/-- The view of a grammar result without differences. -/
theorem renderResult_same (result : JobResult)
    (originalText correctedText : Option String) (showDiff isError : Option Bool) (p : Page)
    (he : truthyFlag isError = false) (hd : truthyFlag showDiff = false) :
    renderResult "grammar" result originalText correctedText showDiff isError p =
      ({ actionType := "grammar", errorBody := false, body := result, diff := none,
         textForActions := result, showActionButtons := false,
         original := if truthyText originalText then originalText else none }, p) := by
  unfold renderResult
  simp only []
  rw [if_neg (by rw [he]; decide), if_pos trivial, if_neg (by rw [hd]; decide)]

/-- The view of a result of another kind. -/
theorem renderResult_other (actionType : String) (result : JobResult)
    (originalText correctedText : Option String) (showDiff isError : Option Bool) (p : Page)
    (he : truthyFlag isError = false) (hg : actionType ≠ "grammar") :
    renderResult actionType result originalText correctedText showDiff isError p =
      ({ actionType := actionType, errorBody := false, body := result, diff := none,
         textForActions := result, showActionButtons := true,
         original := if truthyText originalText then originalText else none },
        autoCopyText result actionType p) := by
  unfold renderResult
  simp only []
  rw [if_neg (by rw [he]; decide), if_neg hg]

/-- The panel `showResultPanel` leaves shows what `renderResult` renders. -/
theorem showResultPanel_view (actionType : String) (result : JobResult)
    (originalText correctedText : Option String) (showDiff isError : Option Bool) (p : Page) :
    ∃ n : Node,
      panels (showResultPanel actionType result originalText correctedText showDiff isError p)
        = [n]
      ∧ n.ident = p.nextIdent
      ∧ n.content = NodeContent.result
          (renderResult actionType result originalText correctedText showDiff isError p).1 := by
  refine ⟨_, panels_mount_result p.nextIdent actionType result originalText correctedText
    showDiff isError { removeExistingPanels p with nextIdent := p.nextIdent + 1 } _
    (panels_removeExistingPanels p), rfl, ?_⟩
  simp only [createPanel]
  rw [renderResult_view_eq actionType result originalText correctedText showDiff isError _ p]

theorem truthyFlag_cases (b : Option Bool) : truthyFlag b = true ∨ truthyFlag b = false := by
  cases truthyFlag b
  · exact Or.inr rfl
  · exact Or.inl rfl

theorem autoCopies_timers_append (p : Page) (extra : List (Nat × Timer)) :
    autoCopies { p with timers := p.timers ++ extra } =
      autoCopies p ++ autoCopies { p with timers := extra } := by
  simp [autoCopies]

theorem autoCopies_showToast (message : ToastMessage) (type : String) (duration : Nat)
    (p : Page) : autoCopies (showToast message type duration p) = autoCopies p := by
  simp [autoCopies, showToast]

theorem autoCopies_autoCopyText (text : JobResult) (actionType : String) (p : Page) :
    autoCopies (autoCopyText text actionType p) =
      autoCopies p ++
        (if actionType = "quiz" ∨ truthyResult text = false then [] else [text]) := by
  unfold autoCopyText
  by_cases hq : actionType = "quiz"
  · simp [hq]
  · cases ht : truthyResult text
    · simp [hq]
    · simp [hq, autoCopies, AUTO_COPY_DELAY]

theorem autoCopies_mountPanel (panel : Node) (p : Page) :
    autoCopies (mountPanel panel p) = autoCopies p := by
  unfold mountPanel autoCopies
  simp only [List.filterMap_append]
  cases (positionPanel p.selection p.window).2 <;> simp

/-- The auto-copies pending after `showResultPanel` are those that were pending and those
`renderResult` schedules. -/
theorem autoCopies_showResultPanel (actionType : String) (result : JobResult)
    (originalText correctedText : Option String) (showDiff isError : Option Bool) (p : Page) :
    autoCopies (showResultPanel actionType result originalText correctedText showDiff isError p)
      = autoCopies (renderResult actionType result originalText correctedText showDiff isError
          { removeExistingPanels p with nextIdent := p.nextIdent + 1 }).2 := by
  unfold showResultPanel
  simp only []
  rw [autoCopies_timers_append, autoCopies_mountPanel]
  exact List.append_nil _

theorem mem_timers_showResultPanel (actionType : String) (result : JobResult)
    (originalText correctedText : Option String) (showDiff isError : Option Bool) (p : Page)
    (t : Nat × Timer)
    (h : t ∈ (renderResult actionType result originalText correctedText showDiff isError
          { removeExistingPanels p with nextIdent := p.nextIdent + 1 }).2.timers) :
    t ∈ (showResultPanel actionType result originalText correctedText showDiff isError
          p).timers := by
  unfold showResultPanel
  simp only [mountPanel, List.mem_append]
  exact Or.inl (Or.inl h)

theorem mem_timers_autoCopyText (text : JobResult) (actionType : String) (p : Page)
    (hq : actionType ≠ "quiz") (ht : truthyResult text = true) :
    (AUTO_COPY_DELAY, Timer.autoCopy text) ∈ (autoCopyText text actionType p).timers := by
  unfold autoCopyText
  simp [hq, ht]

theorem autoCopies_removed (p : Page) :
    autoCopies { removeExistingPanels p with nextIdent := p.nextIdent + 1 } = autoCopies p := rfl

theorem renderResult_body (actionType : String) (result : JobResult)
    (originalText correctedText : Option String) (showDiff isError : Option Bool) (q : Page) :
    (∀ m ∈ (renderResult actionType result originalText correctedText showDiff isError q).2.body,
        m ∈ q.body ∨ m.ident = q.nextIdent)
      ∧ (renderResult actionType result originalText correctedText showDiff isError q
          ).2.clipboard = q.clipboard := by
  unfold renderResult
  simp only []
  by_cases he : truthyFlag isError = true
  · rw [if_pos he]
    refine ⟨?_, rfl⟩
    intro m hm
    simp only [showToast, List.mem_append, List.mem_singleton] at hm
    rcases hm with hm | rfl
    · exact Or.inl (List.mem_of_mem_eraseP hm)
    · exact Or.inr rfl
  · rw [if_neg he]
    have hauto : ∀ (t : JobResult) (a : String),
        (∀ m ∈ (autoCopyText t a q).body, m ∈ q.body ∨ m.ident = q.nextIdent)
          ∧ (autoCopyText t a q).clipboard = q.clipboard := by
      intro t a
      unfold autoCopyText
      split_ifs
      · exact ⟨fun m hm => Or.inl hm, rfl⟩
      · exact ⟨fun m hm => Or.inl hm, rfl⟩
    by_cases hg : actionType = "grammar"
    · rw [if_pos hg]
      by_cases hd : truthyFlag showDiff = true
      · rw [if_pos hd]
        exact hauto _ _
      · rw [if_neg hd]
        exact ⟨fun m hm => Or.inl hm, rfl⟩
    · rw [if_neg hg]
      exact hauto _ _

theorem find_mount (body : List Node) (panel : Node)
    (h : ∀ m ∈ body, m.ident ≠ panel.ident) :
    (body ++ [panel]).find? (fun m => m.ident = panel.ident) = some panel := by
  rw [List.find?_append]
  have hnone : body.find? (fun m => decide (m.ident = panel.ident)) = none := by
    rw [List.find?_eq_none]
    intro m hm
    simpa using h m hm
  rw [hnone]
  simp

/-- In the page `showResultPanel` leaves, the new panel is the node of the fresh identity, and
the clipboard is untouched. -/
theorem showResultPanel_find (actionType : String) (result : JobResult)
    (originalText correctedText : Option String) (showDiff isError : Option Bool) (p : Page)
    (hfresh : Fresh p) :
    ∃ n : Node,
      panels (showResultPanel actionType result originalText correctedText showDiff isError p)
        = [n]
      ∧ (showResultPanel actionType result originalText correctedText showDiff isError p
          ).body.find? (fun m => m.ident = n.ident) = some n
      ∧ n.content = NodeContent.result
          (renderResult actionType result originalText correctedText showDiff isError p).1
      ∧ (showResultPanel actionType result originalText correctedText showDiff isError p
          ).clipboard = p.clipboard := by
  obtain ⟨hbody, hclip⟩ := renderResult_body actionType result originalText correctedText
    showDiff isError { removeExistingPanels p with nextIdent := p.nextIdent + 1 }
  refine ⟨_, panels_mount_result p.nextIdent actionType result originalText correctedText
    showDiff isError { removeExistingPanels p with nextIdent := p.nextIdent + 1 } _
    (panels_removeExistingPanels p), ?_, ?_, ?_⟩
  · refine find_mount _ _ ?_
    intro m hm
    rcases hbody m hm with h | h
    · have := hfresh m (List.mem_of_mem_filter h)
      have h3 : m.ident < p.nextIdent := this
      exact Nat.ne_of_lt h3
    · have h2 : m.ident = p.nextIdent + 1 := h
      have h3 : p.nextIdent < m.ident := by omega
      exact Nat.ne_of_gt h3
  · simp only [createPanel]
    rw [renderResult_view_eq actionType result originalText correctedText showDiff isError _ p]
  · exact hclip

theorem clipboard_onCopyClick (n : Node) (view : ResultView) (p : Page)
    (hfind : p.body.find? (fun m => m.ident = n.ident) = some n)
    (hcontent : n.content = NodeContent.result view)
    (hbuttons : view.showActionButtons = true) :
    (onCopyClick n.ident true p).clipboard = p.clipboard ++ [view.textForActions] := by
  unfold onCopyClick
  rw [hfind]
  simp only [hcontent, hbuttons, if_true]
  rfl


/-- When `renderResult` renders the action bar. -/
theorem renderResult_buttons (actionType : String) (result : JobResult)
    (originalText correctedText : Option String) (showDiff isError : Option Bool) (p : Page) :
    (renderResult actionType result originalText correctedText showDiff isError p
        ).1.showActionButtons = true ↔
      truthyFlag isError = false ∧ ¬ (actionType = "grammar" ∧ truthyFlag showDiff = false) := by
  rcases truthyFlag_cases isError with he | he
  · rw [renderResult_error _ _ _ _ _ _ _ he, he]
    simp
  · by_cases hg : actionType = "grammar"
    · subst hg
      rcases truthyFlag_cases showDiff with hd | hd
      · rw [renderResult_diff _ _ _ _ _ _ he hd, he, hd]
        simp
      · rw [renderResult_same _ _ _ _ _ _ he hd, he, hd]
        simp
    · rw [renderResult_other _ _ _ _ _ _ _ he hg, he]
      simp [hg]

/-- When `renderResult` renders the disclosure of the original text, and with what. -/
theorem renderResult_original (actionType : String) (result : JobResult)
    (originalText correctedText : Option String) (showDiff isError : Option Bool) (p : Page) :
    (renderResult actionType result originalText correctedText showDiff isError p).1.original =
      if truthyText originalText = true
          ∧ ¬ (truthyFlag isError = false ∧ actionType = "grammar" ∧ truthyFlag showDiff = true)
      then originalText else none := by
  rcases truthyFlag_cases isError with he | he
  · rw [renderResult_error _ _ _ _ _ _ _ he, he]
    simp
  · by_cases hg : actionType = "grammar"
    · subst hg
      rcases truthyFlag_cases showDiff with hd | hd
      · rw [renderResult_diff _ _ _ _ _ _ he hd, he, hd]
        simp
      · rw [renderResult_same _ _ _ _ _ _ he hd, he, hd]
        simp
    · rw [renderResult_other _ _ _ _ _ _ _ he hg, he]
      simp [hg]

/-! ## Facts about the overlay's id and class -/

theorem toast_class_ne (type : String) : "aw-toast-" ++ type ≠ "textgenius-panel" := by
  intro h
  have h2 := congrArg (fun s => s.data.head?) h
  have h3 : ("aw-toast-" ++ type).data = "aw-toast-".data ++ type.data :=
    String.data_append _ _
  simp only [h3] at h2
  have h4 : ("aw-toast-".data ++ type.data).head? = some 'a' := rfl
  rw [h4] at h2
  exact absurd h2 (by decide)

theorem tagged_removeNode (ident : Nat) (p : Page) (h : Tagged p) :
    Tagged (removeNode ident p) :=
  fun n hn => h n (List.mem_of_mem_filter hn)

theorem tagged_removeExistingPanels (p : Page) (h : Tagged p) :
    Tagged (removeExistingPanels p) :=
  fun n hn => h n (List.mem_of_mem_filter hn)

theorem tagged_showToast (message : ToastMessage) (type : String) (duration : Nat) (p : Page)
    (h : Tagged p) : Tagged (showToast message type duration p) := by
  intro n hn
  simp only [showToast, List.mem_append, List.mem_singleton] at hn
  rcases hn with hn | rfl
  · exact h n (List.mem_of_mem_eraseP hn)
  · have hne := toast_class_ne type
    simp [Node.hasClass, hne, hne.symm]

theorem tagged_mountPanel (ident : Nat) (className : String) (content : NodeContent)
    (p : Page) (h : Tagged p) : Tagged (mountPanel (createPanel ident className content) p) := by
  intro n hn
  simp only [mountPanel, List.mem_append, List.mem_singleton] at hn
  rcases hn with hn | rfl
  · exact h n hn
  · simp [createPanel, Node.hasClass]

theorem tagged_bump (p : Page) (k : Nat) (h : Tagged p) : Tagged { p with nextIdent := k } := h

theorem tagged_timers (p : Page) (timers : List (Nat × Timer)) (h : Tagged p) :
    Tagged { p with timers := timers } := h

theorem tagged_showLoadingPanel (actionType text : String) (p : Page) (h : Tagged p) :
    Tagged (showLoadingPanel actionType text p) := by
  unfold showLoadingPanel
  exact tagged_mountPanel _ _ _ _ (tagged_bump _ _ (tagged_removeExistingPanels p h))

theorem tagged_showLanguageSelector (languages : List String) (originalText : String)
    (p : Page) (h : Tagged p) : Tagged (showLanguageSelector languages originalText p) := by
  unfold showLanguageSelector
  exact tagged_mountPanel _ _ _ _ (tagged_bump _ _ (tagged_removeExistingPanels p h))

theorem tagged_autoCopyText (text : JobResult) (actionType : String) (p : Page)
    (h : Tagged p) : Tagged (autoCopyText text actionType p) := by
  unfold autoCopyText
  split_ifs
  · exact h
  · exact h

theorem tagged_renderResult (actionType : String) (result : JobResult)
    (originalText correctedText : Option String) (showDiff isError : Option Bool) (p : Page)
    (h : Tagged p) :
    Tagged (renderResult actionType result originalText correctedText showDiff isError p).2 := by
  unfold renderResult
  simp only []
  by_cases he : truthyFlag isError = true
  · rw [if_pos he]
    exact tagged_showToast _ _ _ _ h
  · rw [if_neg he]
    by_cases hg : actionType = "grammar"
    · rw [if_pos hg]
      by_cases hd : truthyFlag showDiff = true
      · rw [if_pos hd]
        exact tagged_autoCopyText _ _ _ h
      · rw [if_neg hd]
        exact h
    · rw [if_neg hg]
      exact tagged_autoCopyText _ _ _ h

theorem tagged_showResultPanel (actionType : String) (result : JobResult)
    (originalText correctedText : Option String) (showDiff isError : Option Bool) (p : Page)
    (h : Tagged p) :
    Tagged (showResultPanel actionType result originalText correctedText showDiff isError p) := by
  unfold showResultPanel
  apply tagged_timers
  apply tagged_mountPanel
  exact tagged_renderResult _ _ _ _ _ _ _ (tagged_bump _ _ (tagged_removeExistingPanels p h))

theorem tagged_map (f : Node → Node) (p : Page) (hid : ∀ n, (f n).elemId = n.elemId)
    (hclass : ∀ n, (f n).hasClass "textgenius-panel" = n.hasClass "textgenius-panel")
    (timers : List (Nat × Timer)) (h : Tagged p) :
    Tagged { p with body := p.body.map f, timers := timers } := by
  intro n hn
  simp only [List.mem_map] at hn
  obtain ⟨m, hm, rfl⟩ := hn
  rw [hid m, hclass m]
  exact h m hm

theorem tagged_onDocumentClick (target : ClickTarget) (p : Page) (h : Tagged p) :
    Tagged (onDocumentClick target p) := by
  unfold onDocumentClick
  cases getPanelById p with
  | none => exact h
  | some panel =>
    simp only
    split_ifs
    · cases p.selection with
      | none => exact tagged_removeNode _ _ h
      | some range =>
        simp only
        split_ifs
        · exact tagged_removeNode _ _ h
        · exact h
    · exact h

theorem tagged_sent (p : Page) (sent : List (String × String)) (h : Tagged p) :
    Tagged { p with sent := sent } := h

theorem tagged_onTargetClick (target : ClickTarget) (p : Page) (h : Tagged p) :
    Tagged (onTargetClick target p) := by
  unfold onTargetClick
  cases target with
  | closeButton ident =>
    simp only
    cases p.body.find? (fun n => n.ident = ident) with
    | none => exact h
    | some n =>
      simp only
      cases n.content with
      | result view =>
        simp only
        apply tagged_map _ _ _ _ _ h
        · intro m
          split_ifs <;> rfl
        · intro m
          split_ifs
          · exact hasClass_append m _ _ _ (by decide)
          · rfl
      | languageSelector languages originalText => exact tagged_removeNode _ _ h
      | hostPage => exact h
      | loading a t => exact h
      | toast m t => exact h
  | langButton ident index =>
    simp only
    cases p.body.find? (fun n => n.ident = ident) with
    | none => exact h
    | some n =>
      simp only
      cases n.content with
      | languageSelector languages originalText =>
        simp only
        cases languages.get? index with
        | none => exact h
        | some targetLang =>
          exact tagged_sent _ _ (tagged_showLoadingPanel _ _ _ (tagged_showToast _ _ _ _ h))
      | result view => exact h
      | hostPage => exact h
      | loading a t => exact h
      | toast m t => exact h
  | inside ident => exact h
  | elsewhere => exact h

theorem tagged_onKeydown (key : String) (p : Page) (h : Tagged p) :
    Tagged (onKeydown key p) := by
  unfold onKeydown
  split_ifs
  · cases getPanelById p with
    | none => exact h
    | some panel => exact tagged_removeNode _ _ h
  · exact h

theorem tagged_clipboard (p : Page) (clipboard : List JobResult) (h : Tagged p) :
    Tagged { p with clipboard := clipboard } := h

theorem tagged_runTimer (timer : Timer) (panelRect : DOMRect) (clipboardOk : Bool) (p : Page)
    (h : Tagged p) : Tagged (runTimer timer panelRect clipboardOk p) := by
  unfold runTimer
  cases timer with
  | position ident anchor =>
    simp only
    apply tagged_map _ _ _ _ _ h
    · intro m
      split_ifs <;> rfl
    · intro m
      split_ifs <;> rfl
  | removePanel ident => exact tagged_removeNode _ _ h
  | autoCopy text =>
    simp only
    split_ifs
    · exact tagged_showToast _ _ _ _ (tagged_clipboard _ _ h)
    · exact h
  | toastHide ident =>
    simp only
    split_ifs
    · apply tagged_map _ _ _ _ _ h
      · intro m
        split_ifs <;> rfl
      · intro m
        split_ifs
        · exact hasClass_append m _ _ _ (by decide)
        · rfl
    · exact h
  | toastRemove ident => exact tagged_removeNode _ _ h
  | updateShadow ident => exact h

theorem tagged_step (p : Page) (op : PageOp) (h : Tagged p) : Tagged (p.step op) := by
  unfold Page.step
  cases op with
  | receive request =>
    cases request with
    | ping => exact h
    | showLoading type text => exact tagged_showLoadingPanel _ _ _ h
    | showResult type result o c d e => exact tagged_showResultPanel _ _ _ _ _ _ _ h
    | promptForLanguage languages originalText => exact tagged_showLanguageSelector _ _ _ h
  | click target =>
    simp only
    split_ifs
    · exact tagged_onTargetClick _ _ (tagged_onDocumentClick _ _ h)
    · exact h
  | keydown key => exact tagged_onKeydown _ _ h
  | timer index panelRect clipboardOk =>
    simp only
    cases p.timers.get? index with
    | none => exact h
    | some t => exact tagged_runTimer _ _ _ _ h
  | select selection => exact h
  | view window => exact h

theorem tagged_run (p0 : Page) (ops : List PageOp) (h : Tagged p0) : Tagged (p0.run ops) := by
  induction ops generalizing p0 with
  | nil => exact h
  | cons op ops ih =>
    unfold Page.run
    rw [List.foldl_cons]
    exact ih _ (tagged_step p0 op h)

/-- On a page where id and class agree, `getElementById` finds the first overlay node. -/
theorem getPanelById_eq (p : Page) (h : Tagged p) : getPanelById p = (panels p).head? := by
  unfold getPanelById panels
  unfold Tagged at h
  generalize p.body = body at h
  induction body with
  | nil => rfl
  | cons n body ih =>
    have hn := h n (List.mem_cons_self _ _)
    have ih2 := ih (fun m hm => h m (List.mem_cons_of_mem _ hm))
    by_cases hc : n.hasClass "textgenius-panel" = true
    · have hid : n.elemId = "textgenius-panel" := hn.mpr hc
      rw [List.find?_cons_of_pos _ (by simpa using hid)]
      simp only [List.filter_cons, hc, if_true, List.head?_cons]
    · have hid : ¬ n.elemId = "textgenius-panel" := fun h2 => hc (hn.mp h2)
      have hc2 : n.hasClass "textgenius-panel" = false := by simpa using hc
      rw [List.find?_cons_of_neg _ (by simpa using hid)]
      simp only [List.filter_cons, hc2]
      exact ih2

/-- Removing the only overlay node leaves none. -/
theorem panels_removeNode_only (p : Page) (panel : Node) (h : panels p = [panel]) :
    panels (removeNode panel.ident p) = [] := by
  have h2 : panels (removeNode panel.ident p) =
      (panels p).filter (fun n => n.ident ≠ panel.ident) := by
    unfold panels removeNode
    simp only [List.filter_filter]
    congr 1
    funext n
    exact Bool.and_comm _ _
  rw [h2, h]
  simp

/-! ## Facts about `replaceSelectedText` -/

theorem substring_zero (s : JsString) (a : Nat) : substring s 0 a = s.take a := by
  unfold substring
  simp only [Nat.zero_min, Nat.zero_le, max_eq_right, min_eq_left, List.drop_zero]
  rcases Nat.le_total a s.length with h | h
  · rw [Nat.min_eq_left h]
  · rw [Nat.min_eq_right h, List.take_of_length_le h, List.take_of_length_le (Nat.le_refl _)]

theorem substringFrom_eq (s : JsString) (a : Nat) : substringFrom s a = s.drop a := by
  unfold substringFrom substring
  simp only [Nat.min_self]
  have h1 : max (min a s.length) s.length = s.length := max_eq_right (Nat.min_le_right _ _)
  have h2 : min (min a s.length) s.length = min a s.length := min_eq_left (Nat.min_le_right _ _)
  rw [h1, h2, List.take_of_length_le (Nat.le_refl _)]
  rcases Nat.le_total a s.length with h | h
  · rw [Nat.min_eq_left h]
  · rw [Nat.min_eq_right h, List.drop_of_length_le h, List.drop_of_length_le (Nat.le_refl _)]

/-- The two kinds of call of `replaceSelectedText` that return true. In a `TEXTAREA` or
`INPUT` that is not content-editable, with a numeric `selectionStart`, the call dispatches
`input` and then `change` on the element and sets both ends of the selection to
`start + length(newText)`, clamped to the length of the new value (no clamping is needed when
`start` lies within the old value). In a content-editable element it replaces the contents of
the window's range by the new text, which the range then holds, and leaves the element and
its events as they were. -/
theorem replaceSelectedText_success (newText : JsString) (d : Editing)
    (hsuccess : (replaceSelectedText newText d).1 = true) :
    ∃ el : ActiveElement, d.activeElement = some el
      ∧ ((el.isContentEditable = false
            ∧ (el.tagName = "TEXTAREA" ∨ el.tagName = "INPUT")
            ∧ ∃ (start stop : Nat) (edited : ActiveElement),
                el.selection = some (start, stop)
                ∧ (replaceSelectedText newText d).2 = { d with activeElement := some edited }
                ∧ edited.events = el.events ++ ["input", "change"]
                ∧ edited.selection =
                    some (min (start + newText.length) edited.value.length,
                          min (start + newText.length) edited.value.length)
                ∧ (start ≤ el.value.length →
                    edited.selection =
                      some (start + newText.length, start + newText.length)))
          ∨ (el.isContentEditable = true
            ∧ ∃ range : EditRange, d.range = some range
                ∧ (replaceSelectedText newText d).2 =
                    { d with range := some { range with selected := newText } }
                ∧ (replaceSelectedText newText d).2.activeElement = some el)) := by
  obtain hactive | ⟨el, hactive⟩ : d.activeElement = none ∨ ∃ el, d.activeElement = some el := by
    cases d.activeElement <;> simp
  · have hrun : replaceSelectedText newText d = (false, d) := by
      unfold replaceSelectedText
      rw [hactive]
    rw [hrun] at hsuccess
    cases hsuccess
  · refine ⟨el, hactive, ?_⟩
    by_cases htag : el.tagName = "TEXTAREA" ∨ el.tagName = "INPUT"
        ∨ el.isContentEditable = true
    · rcases Bool.eq_false_or_eq_true el.isContentEditable with hce | hce
      · right
        obtain hrange | ⟨range, hrange⟩ : d.range = none ∨ ∃ range, d.range = some range := by
          cases d.range <;> simp
        · have hrun : replaceSelectedText newText d = (false, d) := by
            unfold replaceSelectedText
            rw [hactive]
            simp only
            rw [if_pos htag, hce, hrange]
            rfl
          rw [hrun] at hsuccess
          cases hsuccess
        · have hrun : replaceSelectedText newText d =
              (true, { d with range := some { range with selected := newText } }) := by
            unfold replaceSelectedText
            rw [hactive]
            simp only
            rw [if_pos htag, hce, hrange]
            rfl
          rw [hrun]
          exact ⟨hce, range, hrange, rfl, hactive⟩
      · left
        have htag2 : el.tagName = "TEXTAREA" ∨ el.tagName = "INPUT" := by
          rcases htag with h | h | h
          · exact Or.inl h
          · exact Or.inr h
          · rw [hce] at h
            cases h
        refine ⟨hce, htag2, ?_⟩
        obtain hsel | ⟨⟨start, stop⟩, hsel⟩ :
            el.selection = none ∨ ∃ s, el.selection = some s := by
          cases el.selection <;> simp
        · have hrun : replaceSelectedText newText d = (false, d) := by
            unfold replaceSelectedText
            rw [hactive]
            simp only
            rw [if_pos htag, hce, hsel]
            rfl
          rw [hrun] at hsuccess
          cases hsuccess
        · have hrun : replaceSelectedText newText d =
              (true, { d with activeElement := some { el with
                  value := substring el.value 0 start ++ newText ++ substringFrom el.value stop,
                  selection := some
                    (min (start + newText.length)
                      (substring el.value 0 start ++ newText
                        ++ substringFrom el.value stop).length,
                     min (start + newText.length)
                      (substring el.value 0 start ++ newText
                        ++ substringFrom el.value stop).length),
                  events := el.events ++ ["input", "change"] } }) := by
            unfold replaceSelectedText
            rw [hactive]
            simp only
            rw [if_pos htag, hce, hsel]
            rfl
          rw [hrun]
          refine ⟨start, stop, _, hsel, rfl, rfl, rfl, ?_⟩
          intro hstart
          simp only [substring_zero, substringFrom_eq]
          have hlen : start + newText.length ≤
              (List.take start el.value ++ newText ++ List.drop stop el.value).length := by
            simp only [List.length_append, List.length_take, List.length_drop]
            rw [Nat.min_eq_left hstart]
            omega
          rw [Nat.min_eq_left hlen]
    · have hrun : replaceSelectedText newText d = (false, d) := by
        unfold replaceSelectedText
        rw [hactive]
        simp only
        rw [if_neg htag]
      rw [hrun] at hsuccess
      cases hsuccess

/-! ## Facts about actions whose job succeeds -/

theorem emits_setup_only (host : Host) : Emits ContextEvent (setupOffscreenDocument host) := by
  unfold setupOffscreenDocument
  apply emits_bind (emits_ask _ _ _ (fun _ => Or.inl rfl))
  intro existing
  cases existing with
  | true => exact emits_pure _ _
  | false =>
    apply emits_bind (emits_getCreating _)
    intro c
    cases c with
    | some p => exact emits_await _ _
    | none =>
      apply emits_bind
      · intro w
        exact ⟨[Event.createDocument], rfl, by simp [ContextEvent]⟩
      · intro p
        exact emits_bind (emits_setCreating _ _)
          (fun _ => emits_bind (emits_await _ _) (fun _ => emits_setCreating _ _))

theorem context_events_quiet (evs : List Event) (h : ∀ ev ∈ evs, ContextEvent ev) :
    dispatched evs = [] ∧ commandsSent evs = [] ∧ commandsDelivered evs = []
      ∧ notifications evs = [] := by
  induction evs with
  | nil => simp [dispatched, notifications, commandsSent, commandsDelivered]
  | cons ev evs ih =>
    obtain ⟨h1, h2, h3, h4⟩ := ih (fun e he => h e (List.mem_cons_of_mem _ he))
    have hev := h ev (List.mem_cons_self _ _)
    have hd : dispatched (ev :: evs) = dispatched [ev] ++ dispatched evs :=
      dispatched_append [ev] evs
    have hn : notifications (ev :: evs) = notifications [ev] ++ notifications evs :=
      notifications_append [ev] evs
    have hc : commandsSent (ev :: evs) = commandsSent [ev] ++ commandsSent evs :=
      commandsSent_append [ev] evs
    have hcd : commandsDelivered (ev :: evs) = commandsDelivered [ev] ++ commandsDelivered evs :=
      commandsDelivered_append [ev] evs
    rw [hd, hn, hc, hcd, h1, h2, h3, h4]
    rcases hev with rfl | rfl <;>
      simp [dispatched, notifications, commandsSent, commandsDelivered]

/-- The host calls of a `sendToOffscreen` that returns: those of the setup, then the job. -/
theorem sendToOffscreen_ok_events (host : Host) (data : Job) (w w2 : World)
    (result : JobResult) (h : sendToOffscreen host data w = (Except.ok result, w2)) :
    ∃ evs, (∀ ev ∈ evs, ContextEvent ev)
      ∧ w2.trace = w.trace ++ evs ++ [Event.runtimeSendMessage data] := by
  obtain ⟨evs, h1, h2⟩ := emits_setup_only host w
  refine ⟨evs, h2, ?_⟩
  unfold sendToOffscreen at h
  simp only [bind_run] at h
  rcases hs : setupOffscreenDocument host w with ⟨_ | _, w1⟩
  · rw [hs] at h
    simp at h
  · rw [hs] at h h1
    simp only [ask_run] at h h1
    have hw : w2.trace = w1.trace ++ [Event.runtimeSendMessage data] := by
      rcases hr : host.runtimeSendMessage w1.calls data with _ | resp
      · rw [hr] at h
        simp at h
      · rw [hr] at h
        cases resp with
        | none =>
          simp only [throwJs_run] at h
          cases h
        | some r =>
          simp only at h
          by_cases hsucc : (!r.success) = true
          · rw [if_pos hsucc] at h
            simp only [throwJs_run] at h
            cases h
          · rw [if_neg hsucc] at h
            simp only [pure_run, Prod.mk.injEq] at h
            rw [← h.2]
    rw [hw, h1]

/-- The host calls of a `sendMessageToTab` that returns: failed attempts with their waits,
then the delivery. -/
theorem sendMessageToTab_ok_events (host : Host) (tabId : Nat) (message : Command)
    (w w2 : World) (r : Option TabResponse)
    (h : (sendMessageToTab host tabId message) w = (Except.ok r, w2)) :
    ∃ j, j < 3
      ∧ w2.trace = w.trace ++ failedRounds tabId message 0 j
          ++ [Event.tabsSendMessage tabId message true] := by
  obtain ⟨j, r2, hj, hrun, _, _, _⟩ := sendMessageToTab_run host tabId message 3 (by decide) w
  have hrun2 : (sendMessageToTab host tabId message) w = _ := hrun
  rw [h] at hrun2
  have hr : r2 = Except.ok r := (congrArg Prod.fst hrun2).symm
  have hw : w2 = _ := congrArg Prod.snd hrun2
  refine ⟨j, hj, ?_⟩
  rw [hw, hr]
  simp

theorem commandsDelivered_sub (evs : List Event) :
    ∀ c ∈ commandsDelivered evs, c ∈ commandsSent evs := by
  intro c hc
  simp only [commandsDelivered, commandsSent, List.mem_filterMap] at hc ⊢
  obtain ⟨ev, hev, hm⟩ := hc
  refine ⟨ev, hev, ?_⟩
  cases ev with
  | tabsSendMessage t m d => cases d <;> simp_all
  | _ => simp at hm

/-- The steps that reach the page send no `showResult` and no `promptForLanguage`. -/
theorem announce_no_result (tabId : Nat) (menuId text : String) (evs : List Event)
    (h : ∀ ev ∈ evs, AnnounceEvent tabId (Command.showLoading menuId text) ev) :
    (commandsSent evs).filter Command.isShowResult = []
      ∧ (commandsDelivered evs).filter Command.isShowResult = []
      ∧ (commandsSent evs).filter Command.isPrompt = []
      ∧ (commandsDelivered evs).filter Command.isPrompt = [] := by
  obtain ⟨_, _, q3, _⟩ := announce_events_quiet tabId menuId text evs h
  refine ⟨?_, ?_, ?_, ?_⟩
  · rw [List.filter_eq_nil_iff]
    intro c hc
    simp [(q3 c hc).1]
  · rw [List.filter_eq_nil_iff]
    intro c hc
    simp [(q3 c (commandsDelivered_sub evs c hc)).1]
  · rw [List.filter_eq_nil_iff]
    intro c hc
    simp [(q3 c hc).2]
  · rw [List.filter_eq_nil_iff]
    intro c hc
    simp [(q3 c (commandsDelivered_sub evs c hc)).2]

/-- An action whose job part returns ends there: its host calls are those of the steps that
reach the page, which end with the delivery of `showLoading`, and those of the job part. -/
theorem handleAction_job_ok (host : Host) (tabId : Nat) (menuId text : String)
    (w w1 w2 : World) (resp : Option TabResponse)
    (hloading : announceLoading host tabId menuId text w = (Except.ok resp, w1))
    (hjob : handleActionJob host tabId menuId text w1 = (Except.ok (), w2)) :
    handleAction host tabId menuId text w = (Except.ok (), w2)
      ∧ ∃ evsA evsJ,
          (∀ ev ∈ evsA, AnnounceEvent tabId (Command.showLoading menuId text) ev)
          ∧ Event.tabsSendMessage tabId (Command.showLoading menuId text) true ∈ evsA
          ∧ w1.trace = w.trace ++ evsA
          ∧ w2.trace = w1.trace ++ evsJ
          ∧ eventsSince w w2 = evsA ++ evsJ := by
  have hrun : handleAction host tabId menuId text w = (Except.ok (), w2) := by
    rw [handleAction_run, hloading]
    simp only
    rw [hjob]
  obtain ⟨evsA, _, h1, h2, h3, _⟩ :=
    handleAction_of_announce_ok host tabId menuId text w w1 resp hloading
  obtain ⟨evsJ, hJ, _⟩ := emits_handleActionJob host tabId menuId text w1
  rw [hjob] at hJ
  simp only at hJ
  refine ⟨hrun, evsA, evsJ, h1, h2, h3, hJ, ?_⟩
  apply eventsSince_append
  rw [hJ, h3, List.append_assoc]

/-- The kinds of the table of `handleAction`. -/
theorem offscreenJobFor_some (menuId action : String) (mode : Option String)
    (h : offscreenJobFor menuId = some (action, mode)) :
    menuId ≠ "grammar" ∧ menuId ≠ "translate" ∧ action ≠ "translate" := by
  unfold offscreenJobFor at h
  split_ifs at h with h1 h2 h3 h4
  · simp only [Option.some.injEq, Prod.mk.injEq] at h
    rcases h1 with h1 | h1 | h1 <;> subst h1 <;> rw [← h.1] <;> decide
  · simp only [Option.some.injEq, Prod.mk.injEq] at h
    subst h2
    rw [← h.1]
    decide
  · simp only [Option.some.injEq, Prod.mk.injEq] at h
    subst h3
    rw [← h.1]
    decide
  · simp only [Option.some.injEq, Prod.mk.injEq] at h
    subst h4
    rw [← h.1]
    decide

theorem handleActionJob_translate (host : Host) (tabId : Nat) (text : String)
    (w1 w2 : World) (r : Option TabResponse)
    (hprompt : (sendMessageToTab host tabId
        (Command.promptForLanguage SUPPORTED_TRANSLATION_TARGETS text)) w1 = (Except.ok r, w2)) :
    handleActionJob host tabId "translate" text w1 = (Except.ok (), w2) := by
  unfold handleActionJob
  rw [if_neg (by decide), if_pos rfl]
  simp only [bind_run]
  rw [hprompt]
  rfl

theorem handleActionJob_table (host : Host) (tabId : Nat) (menuId text action : String)
    (mode : Option String) (w1 w2 w3 : World) (result : JobResult) (r : Option TabResponse)
    (htable : offscreenJobFor menuId = some (action, mode))
    (hjob : sendToOffscreen host { action := action, mode := mode, text := text } w1 =
      (Except.ok result, w2))
    (hsend : (sendMessageToTab host tabId
        (Command.showResult menuId result (some text) none none none)) w2 = (Except.ok r, w3)) :
    handleActionJob host tabId menuId text w1 = (Except.ok (), w3) := by
  obtain ⟨hg, ht, _⟩ := offscreenJobFor_some menuId action mode htable
  unfold handleActionJob
  rw [if_neg hg, if_neg ht, htable]
  simp only [bind_run]
  rw [hjob]
  simp only
  rw [hsend]
  rfl

theorem handleActionJob_grammar (host : Host) (tabId : Nat) (text : String)
    (w1 w2 w3 : World) (g : GrammarResult) (r : Option TabResponse)
    (hjob : sendToOffscreen host { action := "grammar", text := text } w1 =
      (Except.ok (JobResult.grammar g), w2))
    (hsend : (sendMessageToTab host tabId
        (Command.showResult "grammar" (JobResult.text g.message) (some g.original)
          (some g.corrected) (some g.hasChanges) (some false))) w2 = (Except.ok r, w3)) :
    handleActionJob host tabId "grammar" text w1 = (Except.ok (), w3) := by
  unfold handleActionJob
  rw [if_pos rfl]
  simp only [bind_run]
  rw [hjob]
  simp only [await, grammarCommand]
  rw [hsend]
  rfl

/-- An action whose job returns and whose `showResult` command `cmd` reaches the page: the job
is the only one dispatched, `cmd` is the only `showResult` sent, attempted `j + 1 ≤ 3` times and
delivered once, and no notification is created. -/
theorem handleAction_result_delivered (host : Host) (tabId : Nat) (menuId text : String)
    (w w1 w2 w3 : World) (resp r : Option TabResponse) (data : Job) (result : JobResult)
    (cmd : Command)
    (hloading : announceLoading host tabId menuId text w = (Except.ok resp, w1))
    (hjob : sendToOffscreen host data w1 = (Except.ok result, w2))
    (hsend : (sendMessageToTab host tabId cmd) w2 = (Except.ok r, w3))
    (hrun : handleActionJob host tabId menuId text w1 = (Except.ok (), w3))
    (hcmd : cmd.isShowResult = true) :
    handleAction host tabId menuId text w = (Except.ok (), w3)
      ∧ dispatched (eventsSince w w3) = [data]
      ∧ (∃ j, j < 3 ∧ (commandsSent (eventsSince w w3)).filter Command.isShowResult =
          List.replicate (j + 1) cmd)
      ∧ (commandsDelivered (eventsSince w w3)).filter Command.isShowResult = [cmd]
      ∧ notifications (eventsSince w w3) = [] := by
  obtain ⟨hdone, evsA, evsJ, hA, _, hw1, hw3, hev⟩ :=
    handleAction_job_ok host tabId menuId text w w1 w3 resp hloading hrun
  obtain ⟨qA1, qA2, _, _⟩ := announce_events_quiet tabId menuId text evsA hA
  obtain ⟨fA1, fA2, _, _⟩ := announce_no_result tabId menuId text evsA hA
  obtain ⟨evsS, hS, hw2⟩ := sendToOffscreen_ok_events host data w1 w2 result hjob
  obtain ⟨qS1, qS2, qS3, qS4⟩ := context_events_quiet evsS hS
  obtain ⟨j, hj, hw3'⟩ := sendMessageToTab_ok_events host tabId cmd w2 w3 r hsend
  have hJ : evsJ = evsS ++ [Event.runtimeSendMessage data] ++ failedRounds tabId cmd 0 j
      ++ [Event.tabsSendMessage tabId cmd true] := by
    apply @List.append_cancel_left _ w1.trace
    rw [← hw3, hw3', hw2]
    simp only [List.append_assoc]
  rw [hev, hJ]
  refine ⟨hdone, ?_, ⟨j, hj, ?_⟩, ?_, ?_⟩
  · simp only [dispatched_append, qA1, qS1, dispatched_failedRounds, List.nil_append]
    simp [dispatched]
  · simp only [commandsSent_append, List.filter_append, fA1, qS2, commandsSent_failedRounds,
      List.nil_append, List.filter_nil]
    have h1 : commandsSent [Event.runtimeSendMessage data] = [] := rfl
    have h2 : commandsSent [Event.tabsSendMessage tabId cmd true] = [cmd] := rfl
    rw [h1, h2, List.replicate_succ']
    simp [hcmd]
  · simp only [commandsDelivered_append, List.filter_append, fA2, qS3,
      commandsDelivered_failedRounds, List.nil_append, List.filter_nil]
    have h1 : commandsDelivered [Event.runtimeSendMessage data] = [] := rfl
    have h2 : commandsDelivered [Event.tabsSendMessage tabId cmd true] = [cmd] := rfl
    rw [h1, h2]
    simp [hcmd]
  · simp only [notifications_append, qA2, qS4, notifications_failedRounds, List.nil_append]
    simp [notifications]

theorem noTranslateJob_announce (tabId : Nat) (loading : Command) (ev : Event)
    (h : AnnounceEvent tabId loading ev) : NoTranslateJob ev := by
  intro job hjob
  rcases h with ⟨d, rfl⟩ | ⟨d, rfl⟩ | rfl | rfl | ⟨ms, rfl⟩ <;> cases hjob

theorem noTranslateJob_delivery (tabId : Nat) (message : Command) (ev : Event)
    (h : DeliveryEvent tabId message ev) : NoTranslateJob ev := by
  intro job hjob
  rcases h with ⟨d, rfl⟩ | ⟨ms, rfl⟩ <;> cases hjob

theorem noTranslateJob_offscreen (data : Job) (ev : Event) (hdata : data.action ≠ "translate")
    (h : OffscreenEvent data ev) : NoTranslateJob ev := by
  intro job hjob
  rcases h with rfl | rfl | rfl
  · cases hjob
  · cases hjob
  · cases hjob
    exact hdata

theorem emits_handleActionJob_noTranslate (host : Host) (tabId : Nat) (menuId text : String) :
    Emits NoTranslateJob (handleActionJob host tabId menuId text) := by
  have hoff : ∀ data : Job, data.action ≠ "translate" →
      Emits NoTranslateJob (sendToOffscreen host data) :=
    fun data hd => (emits_sendToOffscreen host data).mono
      (fun ev h => noTranslateJob_offscreen data ev hd h)
  have hsend : ∀ c, Emits NoTranslateJob (sendMessageToTab host tabId c) :=
    fun c => (emits_sendMessageToTab host tabId c 3).mono
      (fun ev h => noTranslateJob_delivery tabId c ev h)
  unfold handleActionJob
  by_cases hg : menuId = "grammar"
  · rw [if_pos hg]
    exact emits_bind (hoff _ (show "grammar" ≠ "translate" by decide))
      (fun _ => emits_bind (emits_await _ _)
      (fun _ => emits_bind (hsend _) (fun _ => emits_pure _ _)))
  · rw [if_neg hg]
    by_cases ht : menuId = "translate"
    · rw [if_pos ht]
      exact emits_bind (hsend _) (fun _ => emits_pure _ _)
    · rw [if_neg ht]
      rcases htable : offscreenJobFor menuId with _ | ⟨action, mode⟩
      · exact emits_throwJs _ _
      · have ha := (offscreenJobFor_some menuId action mode htable).2.2
        exact emits_bind (hoff _ ha) (fun _ => emits_bind (hsend _) (fun _ => emits_pure _ _))

/-- Every host call of `handleAction` satisfies what the calls of its parts satisfy. -/
theorem emits_handleAction (P : Event → Prop) (host : Host) (tabId : Nat)
    (menuId text : String)
    (hA : ∀ ev, AnnounceEvent tabId Command.ping ev → P ev)
    (hD : ∀ c ev, DeliveryEvent tabId c ev → P ev)
    (hN : P unreachableNotification)
    (hJ : Emits P (handleActionJob host tabId menuId text)) :
    Emits P (handleAction host tabId menuId text) := by
  have hsend : ∀ c, Emits P (sendMessageToTab host tabId c) :=
    fun c => (emits_sendMessageToTab host tabId c 3).mono (fun ev h => hD c ev h)
  have hinner : Emits P
      (tryCatch (handleActionJob host tabId menuId text)
        (fun aiError => do
          let _ ← sendMessageToTab host tabId (aiErrorCommand host menuId text aiError)
          return ())) :=
    emits_tryCatch hJ (fun _ => emits_bind (hsend _) (fun _ => emits_pure _ _))
  unfold handleAction
  apply emits_tryCatch
  · apply emits_bind ((emits_isContentScriptLoaded host tabId Command.ping).mono hA)
    intro isLoaded
    cases isLoaded with
    | true =>
      exact emits_bind (emits_pure _ _) (fun _ => emits_bind (hsend _) (fun _ => hinner))
    | false =>
      exact emits_bind ((emits_injectContentScript host tabId Command.ping).mono hA)
        (fun _ => emits_bind (emits_pure _ _)
          (fun _ => emits_bind (hsend _) (fun _ => hinner)))
  · intro _
    exact emits_emit _ _ hN

/-- No run of `handleAction` dispatches a job with the action `translate`. -/
theorem emits_handleAction_noTranslate (host : Host) (tabId : Nat) (menuId text : String) :
    Emits NoTranslateJob (handleAction host tabId menuId text) :=
  emits_handleAction NoTranslateJob host tabId menuId text
    (fun ev h => noTranslateJob_announce tabId _ ev h)
    (fun c ev h => noTranslateJob_delivery tabId c ev h)
    (by intro job hjob; cases hjob)
    (emits_handleActionJob_noTranslate host tabId menuId text)

theorem noJob_announce (tabId : Nat) (loading : Command) (ev : Event)
    (h : AnnounceEvent tabId loading ev) : NoJob ev := by
  intro job hjob
  rcases h with ⟨d, rfl⟩ | ⟨d, rfl⟩ | rfl | rfl | ⟨ms, rfl⟩ <;> cases hjob

theorem noJob_delivery (tabId : Nat) (message : Command) (ev : Event)
    (h : DeliveryEvent tabId message ev) : NoJob ev := by
  intro job hjob
  rcases h with ⟨d, rfl⟩ | ⟨ms, rfl⟩ <;> cases hjob

theorem dispatched_nil_of_noJob (evs : List Event) (h : ∀ ev ∈ evs, NoJob ev) :
    dispatched evs = [] := by
  induction evs with
  | nil => rfl
  | cons ev evs ih =>
    have hd : dispatched (ev :: evs) = dispatched [ev] ++ dispatched evs :=
      dispatched_append [ev] evs
    rw [hd, ih (fun e he => h e (List.mem_cons_of_mem _ he)), List.append_nil]
    have hev := h ev (List.mem_cons_self _ _)
    cases ev with
    | runtimeSendMessage data => exact absurd rfl (hev data)
    | _ => rfl

/-- The table of `handleAction` has no entry for a kind outside it. -/
theorem offscreenJobFor_none (menuId : String)
    (h1 : menuId ≠ "summarize") (h2 : menuId ≠ "eli5") (h3 : menuId ≠ "quiz")
    (h4 : menuId ≠ "rewrite-simpler") (h5 : menuId ≠ "rewrite-formal")
    (h6 : menuId ≠ "rewrite-casual") : offscreenJobFor menuId = none := by
  unfold offscreenJobFor
  rw [if_neg (by rintro (h | h | h) <;> contradiction), if_neg h4, if_neg h5, if_neg h6]

/-- A kind without a job dispatches nothing: the job part throws at once. -/
theorem handleAction_unknown_kind (host : Host) (tabId : Nat) (menuId text : String)
    (hg : menuId ≠ "grammar") (ht : menuId ≠ "translate")
    (hnone : offscreenJobFor menuId = none) (w : World) :
    handleActionJob host tabId menuId text w =
        (Except.error (newError "Unknown action for AI processing"), w)
      ∧ dispatched (eventsSince w (handleAction host tabId menuId text w).2) = [] := by
  have hjob : handleActionJob host tabId menuId text =
      throwJs (newError "Unknown action for AI processing") := by
    unfold handleActionJob
    rw [if_neg hg, if_neg ht, hnone]
  refine ⟨by rw [hjob]; rfl, ?_⟩
  obtain ⟨evs, h1, h2⟩ := emits_handleAction NoJob host tabId menuId text
    (fun ev h => noJob_announce tabId _ ev h)
    (fun c ev h => noJob_delivery tabId c ev h)
    (by intro job hjob; cases hjob)
    (by rw [hjob]; exact emits_throwJs _ _) w
  rw [eventsSince_append _ _ _ h1]
  exact dispatched_nil_of_noJob evs h2

/-! ## Facts about the `doTranslate` request -/

theorem sendToOffscreen_trace (host : Host) (data : Job) (w w1 : World)
    (hs : setupOffscreenDocument host w = (Except.ok (), w1)) :
    (sendToOffscreen host data w).2.trace = w1.trace ++ [Event.runtimeSendMessage data] := by
  simp only [sendToOffscreen, bind_run, hs, ask_run]
  rcases host.runtimeSendMessage w1.calls data with _ | resp
  · rfl
  · cases resp with
    | none => rfl
    | some r =>
      simp only
      split_ifs <;> rfl

/-- After the first step of a `try` block, the rest of the block and the handler only add host
calls of their own. -/
theorem tryCatch_bind_trace {α β : Type} (P : Event → Prop) (m : Coord α) (f : α → Coord β)
    (h : JsError → Coord β) (hf : ∀ a, Emits P (f a)) (hh : ∀ e, Emits P (h e)) (w : World) :
    ∃ evs, (∀ ev ∈ evs, P ev) ∧ (tryCatch (m >>= f) h w).2.trace = (m w).2.trace ++ evs := by
  rw [tryCatch_run, bind_run]
  rcases m w with ⟨e | a, w1⟩
  · obtain ⟨evs, h1, h2⟩ := hh e w1
    exact ⟨evs, h2, h1⟩
  · obtain ⟨evs1, h1, h2⟩ := hf a w1
    simp only
    rcases hfa : f a w1 with ⟨e | b, w2⟩
    · rw [hfa] at h1
      simp only at h1
      obtain ⟨evs2, h3, h4⟩ := hh e w2
      refine ⟨evs1 ++ evs2, ?_, ?_⟩
      · intro ev hev
        rcases List.mem_append.mp hev with hev | hev
        · exact h2 ev hev
        · exact h4 ev hev
      · simp only
        rw [h3, h1, List.append_assoc]
    · rw [hfa] at h1
      exact ⟨evs1, h2, h1⟩

/-- Every job the `doTranslate` request dispatches is its translate job. -/
theorem emits_doTranslate (host : Host) (tabId : Nat) (text : String)
    (targetLanguage : Option String) (detected : List String) :
    Emits (fun ev => ∀ job, ev = Event.runtimeSendMessage job →
        job = { action := "translate", text := text,
                sourceLanguage := some (strOr detected.head? "en"),
                targetLanguage := targetLanguage })
      (doTranslate host tabId text targetLanguage detected) := by
  have hsend : ∀ c, Emits (fun ev => ∀ job, ev = Event.runtimeSendMessage job →
        job = { action := "translate", text := text,
                sourceLanguage := some (strOr detected.head? "en"),
                targetLanguage := targetLanguage })
      (sendMessageToTab host tabId c) :=
    fun c => (emits_sendMessageToTab host tabId c 3).mono (fun ev h => by
      intro job hjob
      rcases h with ⟨d, rfl⟩ | ⟨ms, rfl⟩ <;> cases hjob)
  unfold doTranslate
  apply emits_tryCatch
  · apply emits_bind
    · exact (emits_sendToOffscreen host _).mono (fun ev h => by
        intro job hjob
        rcases h with rfl | rfl | rfl
        · cases hjob
        · cases hjob
        · cases hjob
          rfl)
    · intro _
      exact emits_bind (hsend _) (fun _ => emits_pure _ _)
  · intro _
    exact emits_bind (hsend _) (fun _ => emits_pure _ _)

/-- Once the worker context is set up, the `doTranslate` request dispatches one job. -/
theorem doTranslate_dispatches (host : Host) (tabId : Nat) (text : String)
    (targetLanguage : Option String) (detected : List String) (w w1 : World)
    (hs : setupOffscreenDocument host w = (Except.ok (), w1)) :
    dispatched (eventsSince w (doTranslate host tabId text targetLanguage detected w).2) =
      [{ action := "translate", text := text,
         sourceLanguage := some (strOr detected.head? "en"),
         targetLanguage := targetLanguage }] := by
  have hsend : ∀ c, Emits NoJob (sendMessageToTab host tabId c) :=
    fun c => (emits_sendMessageToTab host tabId c 3).mono
      (fun ev h => noJob_delivery tabId c ev h)
  obtain ⟨evsS, hS1, hS2⟩ := emits_setup_only host w
  rw [hs] at hS1
  simp only at hS1
  obtain ⟨qS, _, _, _⟩ := context_events_quiet evsS hS2
  obtain ⟨evsD, hD1, hD2⟩ := tryCatch_bind_trace NoJob
    (sendToOffscreen host
      { action := "translate", text := text,
        sourceLanguage := some (strOr detected.head? "en"),
        targetLanguage := targetLanguage })
    (fun translatedResult => do
      let _ ← sendMessageToTab host tabId
        (Command.showResult "translate" translatedResult (some text) none none none)
      return ())
    (fun aiError => do
      let _ ← sendMessageToTab host tabId
        (Command.showResult "translate" (JobResult.text (aiErrorText host aiError)) (some text)
          none none (some true))
      return ())
    (fun _ => emits_bind (hsend _) (fun _ => emits_pure _ _))
    (fun _ => emits_bind (hsend _) (fun _ => emits_pure _ _)) w
  rw [sendToOffscreen_trace host _ w w1 hs, hS1] at hD2
  have htrace : (doTranslate host tabId text targetLanguage detected w).2.trace =
      w.trace ++ (evsS ++ [Event.runtimeSendMessage
        { action := "translate", text := text,
          sourceLanguage := some (strOr detected.head? "en"),
          targetLanguage := targetLanguage }] ++ evsD) := by
    have h : (doTranslate host tabId text targetLanguage detected w).2.trace = _ := hD2
    rw [h]
    simp only [List.append_assoc]
  rw [eventsSince_append _ _ _ htrace]
  simp only [dispatched_append, qS, dispatched_nil_of_noJob evsD hD1, List.nil_append,
    List.append_nil]
  rfl

/-! ## Facts about `setupOffscreenDocument`, one call at a time -/

/-- The course of one call of `setupOffscreenDocument`. -/
theorem setupOffscreenDocument_run (host : Host) (w : World) :
    setupOffscreenDocument host w =
      if host.getContexts w.calls = true then
        (Except.ok (), { w with trace := w.trace ++ [Event.getContexts], calls := w.calls + 1 })
      else
        match w.creating with
        | some promise =>
          (promise, { w with trace := w.trace ++ [Event.getContexts], calls := w.calls + 1 })
        | none =>
          match host.createDocument (w.calls + 1) with
          | Except.ok _ =>
            (Except.ok (), { creating := none,
                             trace := w.trace ++ [Event.getContexts, Event.createDocument],
                             calls := w.calls + 2 })
          | Except.error e =>
            (Except.error e, { creating := some (Except.error e),
                               trace := w.trace ++ [Event.getContexts, Event.createDocument],
                               calls := w.calls + 2 }) := by
  unfold setupOffscreenDocument
  simp only [bind_run, ask_run]
  cases hc : host.getContexts w.calls with
  | true => simp
  | false =>
    simp only [Bool.false_eq_true, if_false, getCreating, bind_run]
    cases hcr : w.creating with
    | some promise =>
      simp only [await]
    | none =>
      simp only [createDocument, setCreating, await, bind_run]
      cases hd : host.createDocument (w.calls + 1) with
      | ok u => simp
      | error e => simp

/-! ## Facts about a request the worker may leave unanswered -/

/-- When the worker's promise settles as the host says, `sendToOffscreenFate` ends as
`sendToOffscreen` does. -/
theorem sendToOffscreenFate_settled (host : Host) (data : Job) (w : World) :
    sendToOffscreenFate host (fun k => Fate.ofExcept (host.runtimeSendMessage k data)) data w =
      (Fate.ofExcept (sendToOffscreen host data w).1, (sendToOffscreen host data w).2) := by
  unfold sendToOffscreenFate sendToOffscreen
  simp only [bind_run, ask_run]
  rcases setupOffscreenDocument host w with ⟨e | u, w1⟩
  · rfl
  · simp only
    rcases host.runtimeSendMessage w1.calls data with e | resp
    · rfl
    · cases resp with
      | none => rfl
      | some r =>
        simp only [Fate.ofExcept]
        cases r.success <;> rfl

/-- The host calls of `sendToOffscreenFate`: those of the setup and at most the one request to
the worker; no timer is started. -/
theorem sendToOffscreenFate_trace (host : Host) (response : Nat → Fate (Option WorkerResponse))
    (data : Job) (w : World) :
    ∃ evs, (sendToOffscreenFate host response data w).2.trace = w.trace ++ evs
      ∧ waits evs = [] := by
  obtain ⟨evsS, hS1, hS2⟩ := emits_setup_only host w
  have hwS : waits evsS = [] := by
    clear hS1
    induction evsS with
    | nil => rfl
    | cons ev evs ih =>
      have h1 : waits (ev :: evs) = waits [ev] ++ waits evs := waits_append [ev] evs
      rw [h1, ih (fun e he => hS2 e (List.mem_cons_of_mem _ he)), List.append_nil]
      rcases hS2 ev (List.mem_cons_self _ _) with rfl | rfl <;> rfl
  unfold sendToOffscreenFate
  rcases hs : setupOffscreenDocument host w with ⟨e | u, w1⟩
  · rw [hs] at hS1
    exact ⟨evsS, hS1, hwS⟩
  · rw [hs] at hS1
    simp only at hS1
    refine ⟨evsS ++ [Event.runtimeSendMessage data], ?_, ?_⟩
    · simp only
      rcases response w1.calls with resp | e | _
      · cases resp with
        | none => simp only [hS1, List.append_assoc]
        | some r =>
          simp only
          split_ifs <;> simp only [hS1, List.append_assoc]
      · simp only [hS1, List.append_assoc]
      · simp only [hS1, List.append_assoc]
    · rw [waits_append, hwS]
      rfl

/-! ## Facts about the preview of the loading panel -/

/-- An escaped text holds no `<` and no `>`. -/
theorem escapeHtml_no_markup (text : JsString) :
    ∀ u ∈ escapeHtml text, u ≠ 60 ∧ u ≠ 62 := by
  intro u hu
  simp only [escapeHtml, List.mem_flatMap] at hu
  obtain ⟨v, _, hv⟩ := hu
  by_cases h1 : v = 38
  · rw [if_pos h1] at hv
    have hv2 : u ∈ [38, 97, 109, 112, 59] := hv
    simp only [List.mem_cons, List.mem_singleton, List.mem_nil_iff, or_false] at hv2
    rcases hv2 with h | h | h | h | h <;> subst h <;> decide
  · rw [if_neg h1] at hv
    by_cases h2 : v = 160
    · rw [if_pos h2] at hv
      have hv2 : u ∈ [38, 110, 98, 115, 112, 59] := hv
      simp only [List.mem_cons, List.mem_singleton, List.mem_nil_iff, or_false] at hv2
      rcases hv2 with h | h | h | h | h | h <;> subst h <;> decide
    · rw [if_neg h2] at hv
      by_cases h3 : v = 60
      · rw [if_pos h3] at hv
        have hv2 : u ∈ [38, 108, 116, 59] := hv
        simp only [List.mem_cons, List.mem_singleton, List.mem_nil_iff, or_false] at hv2
        rcases hv2 with h | h | h | h <;> subst h <;> decide
      · rw [if_neg h3] at hv
        by_cases h4 : v = 62
        · rw [if_pos h4] at hv
          have hv2 : u ∈ [38, 103, 116, 59] := hv
          simp only [List.mem_cons, List.mem_singleton, List.mem_nil_iff, or_false] at hv2
          rcases hv2 with h | h | h | h <;> subst h <;> decide
        · rw [if_neg h4] at hv
          have hv2 : u = v := List.mem_singleton.mp hv
          rw [hv2]
          exact ⟨h3, h4⟩

/-- A string of characters of the Basic Multilingual Plane has one code unit per character. -/
theorem utf16_length (s : String) (h : ∀ c ∈ s.data, c.toNat < 65536) :
    (utf16 s).length = s.length := by
  have hl : s.length = s.data.length := by cases s; rfl
  rw [hl]
  unfold utf16
  generalize s.data = cs at h
  induction cs with
  | nil => rfl
  | cons c cs ih =>
    rw [List.flatMap_cons, List.length_append, ih (fun d hd => h d (List.mem_cons_of_mem _ hd))]
    have hc : utf16Char c = [c.toNat] := by
      unfold utf16Char
      rw [if_pos (h c (List.mem_cons_self _ _))]
    rw [hc]
    simp only [List.length_cons, List.length_nil]
    omega

/-! ## Facts about the language selector -/

theorem afterFirst_button (rest : List Char) :
    afterFirst "data-lang=\"".data
        ("<button class=\"aw-btn aw-lang-btn\" data-lang=\"".data ++ rest) = some rest := by
  have h1 : "data-lang=\"".data = ['d', 'a', 't', 'a', '-', 'l', 'a', 'n', 'g', '=', '"'] := by
    decide
  have h2 : "<button class=\"aw-btn aw-lang-btn\" data-lang=\"".data =
      ['<', 'b', 'u', 't', 't', 'o', 'n', ' ', 'c', 'l', 'a', 's', 's', '=', '"', 'a', 'w', '-',
        'b', 't', 'n', ' ', 'a', 'w', '-', 'l', 'a', 'n', 'g', '-', 'b', 't', 'n', '"', ' ',
        'd', 'a', 't', 'a', '-', 'l', 'a', 'n', 'g', '=', '"'] := by
    decide
  rw [h1, h2]
  simp [afterFirst, startsWith]

/-- The attribute `data-lang` of a button reads back as the language code it was written
from. -/
theorem readDataLang_button (toUpperCase : String → String) (lang : String)
    (hcode : isLanguageCode lang = true) :
    readDataLang (langButtonHTML toUpperCase lang) = some lang := by
  have hquote : ∀ c ∈ lang.data, (c != '"') = true := by
    intro c hc
    have h := List.all_eq_true.mp hcode c hc
    rw [bne_iff_ne]
    intro heq
    rw [heq] at h
    exact absurd h (by decide)
  have hdata : (langButtonHTML toUpperCase lang).data =
      "<button class=\"aw-btn aw-lang-btn\" data-lang=\"".data ++
        (lang.data ++ '"' ::
          (" aria-label=\"Translate to ".data ++ (getLangName toUpperCase lang).data
            ++ "\">".data ++ (getLangName toUpperCase lang).data ++ "</button>".data)) := by
    unfold langButtonHTML
    simp only [String.data_append, List.append_assoc]
    rfl
  unfold readDataLang
  rw [hdata, afterFirst_button]
  simp only
  have hcontains : (lang.data ++ '"' ::
      (" aria-label=\"Translate to ".data ++ (getLangName toUpperCase lang).data
        ++ "\">".data ++ (getLangName toUpperCase lang).data ++ "</button>".data)).contains '"'
      = true := by
    simp
  rw [if_pos hcontains, List.takeWhile_append_of_pos hquote]
  simp

/-- In the page `showLanguageSelector` leaves, the selector is the node of the fresh identity,
and nothing was sent. -/
theorem showLanguageSelector_find (languages : List String) (originalText : String) (p : Page)
    (hfresh : Fresh p) :
    ∃ n : Node,
      panels (showLanguageSelector languages originalText p) = [n]
      ∧ (showLanguageSelector languages originalText p).body.find?
          (fun m => m.ident = n.ident) = some n
      ∧ n.content = NodeContent.languageSelector languages originalText
      ∧ (showLanguageSelector languages originalText p).sent = p.sent := by
  refine ⟨_, panels_showLanguageSelector languages originalText p, ?_, rfl, rfl⟩
  refine find_mount _ _ ?_
  intro m hm
  have h3 : m.ident < p.nextIdent := hfresh m (List.mem_of_mem_filter hm)
  exact Nat.ne_of_lt h3

theorem sent_onDocumentClick (target : ClickTarget) (p : Page) :
    (onDocumentClick target p).sent = p.sent := by
  unfold onDocumentClick
  cases getPanelById p with
  | none => rfl
  | some panel =>
    simp only
    split_ifs
    · cases p.selection with
      | none => rfl
      | some range =>
        simp only
        split_ifs <;> rfl
    · rfl

/-- The `click` listener of a language button: the toast, the loading panel and the message. -/
theorem onTargetClick_langButton (q : Page) (n : Node) (index : Nat)
    (languages : List String) (originalText code : String)
    (hfind : q.body.find? (fun m => m.ident = n.ident) = some n)
    (hcontent : n.content = NodeContent.languageSelector languages originalText)
    (hget : languages.get? index = some code) :
    onTargetClick (ClickTarget.langButton n.ident index) q =
      { showLoadingPanel "translate" originalText
          (showToast (ToastMessage.translatingTo code) "info" 2000 q) with
        sent := q.sent ++ [(originalText, code)] } := by
  unfold onTargetClick
  simp only
  rw [hfind]
  simp only
  rw [hcontent]
  simp only
  rw [hget]
  rfl
/-! ## Facts about rounding to doubles -/

theorem floor_le_roundHalfEven (x : ℚ) : ⌊x⌋ ≤ roundHalfEven x := by
  unfold roundHalfEven
  split_ifs <;> omega

theorem roundHalfEven_le_floor_add_one (x : ℚ) : roundHalfEven x ≤ ⌊x⌋ + 1 := by
  unfold roundHalfEven
  split_ifs <;> omega

theorem roundHalfEven_intCast (n : ℤ) : roundHalfEven (n : ℚ) = n := by
  unfold roundHalfEven
  simp

theorem roundHalfEven_mono {x y : ℚ} (h : x ≤ y) : roundHalfEven x ≤ roundHalfEven y := by
  rcases (Int.floor_mono h).lt_or_eq with hlt | heq
  · have h1 : roundHalfEven x ≤ ⌊x⌋ + 1 := roundHalfEven_le_floor_add_one x
    have h2 : ⌊y⌋ ≤ roundHalfEven y := floor_le_roundHalfEven y
    omega
  · have hxy : x - ⌊x⌋ ≤ y - ⌊x⌋ := by linarith
    unfold roundHalfEven
    rw [← heq]
    split_ifs <;> first | omega | (exfalso; linarith)

theorem quantum_pos (x : ℚ) : 0 < quantum x := by
  unfold quantum
  positivity


theorem quantum_eq (x : ℚ) (e : ℤ) (he : max (Int.log 2 x) (-1022) = e) :
    quantum x = 2 ^ (e - 52) := by
  unfold quantum
  rw [he]


theorem lt_two_zpow_log (x : ℚ) : x < 2 ^ (Int.log 2 x + 1) := by
  have h := @Int.lt_zpow_succ_log_self ℚ _ _ 2 (by norm_num) x
  simpa using h

theorem two_zpow_log_le (x : ℚ) (hx : 0 < x) : (2 : ℚ) ^ Int.log 2 x ≤ x := by
  have h := @Int.zpow_log_le_self ℚ _ _ 2 x (by norm_num) hx
  simpa using h

theorem two_zpow_shift (e : ℤ) (n : ℕ) (m : ℤ) (h : (n : ℤ) + (e - 52) = m) :
    (((2 : ℤ) ^ n : ℤ) : ℚ) * 2 ^ (e - 52) = 2 ^ m := by
  push_cast
  rw [← zpow_natCast, ← zpow_add₀ (by norm_num : (2 : ℚ) ≠ 0), h]

theorem roundMagnitude_le_zpow (x : ℚ) :
    roundMagnitude x ≤ 2 ^ (max (Int.log 2 x) (-1022) + 1) := by
  have hle : Int.log 2 x ≤ max (Int.log 2 x) (-1022) := le_max_left _ _
  have hq : quantum x = 2 ^ (max (Int.log 2 x) (-1022) - 52) := rfl
  generalize max (Int.log 2 x) (-1022) = e at hle hq
  have hx : x < 2 ^ (e + 1) :=
    lt_of_lt_of_le (lt_two_zpow_log x) (zpow_le_zpow_right₀ (by norm_num) (by omega))
  have hqpos : (0 : ℚ) < 2 ^ (e - 52) := by positivity
  have hshift := two_zpow_shift e 53 (e + 1) (by omega)
  have hdiv : x / 2 ^ (e - 52) ≤ (((2 : ℤ) ^ 53 : ℤ) : ℚ) := by
    rw [div_le_iff₀ hqpos, hshift]
    exact hx.le
  have hr := roundHalfEven_mono hdiv
  rw [roundHalfEven_intCast] at hr
  unfold roundMagnitude
  rw [hq, ← hshift]
  exact mul_le_mul_of_nonneg_right (by exact_mod_cast hr) hqpos.le

theorem zpow_le_roundMagnitude (x : ℚ) (hx : 0 < x) (hlog : -1022 ≤ Int.log 2 x) :
    (2 : ℚ) ^ Int.log 2 x ≤ roundMagnitude x := by
  have hq : quantum x = 2 ^ (Int.log 2 x - 52) := by
    unfold quantum
    rw [max_eq_left hlog]
  have hlo := two_zpow_log_le x hx
  generalize Int.log 2 x = e at hq hlo
  have hqpos : (0 : ℚ) < 2 ^ (e - 52) := by positivity
  have hshift := two_zpow_shift e 52 e (by omega)
  have hdiv : (((2 : ℤ) ^ 52 : ℤ) : ℚ) ≤ x / 2 ^ (e - 52) := by
    rw [le_div_iff₀ hqpos, hshift]
    exact hlo
  have hr := roundHalfEven_mono hdiv
  rw [roundHalfEven_intCast] at hr
  unfold roundMagnitude
  rw [hq, ← hshift]
  exact mul_le_mul_of_nonneg_right (by exact_mod_cast hr) hqpos.le

theorem roundMagnitude_nonneg (x : ℚ) (hx : 0 ≤ x) : 0 ≤ roundMagnitude x := by
  unfold roundMagnitude
  have hq := quantum_pos x
  have h0 : (0 : ℤ) ≤ roundHalfEven (x / quantum x) :=
    le_trans (Int.floor_nonneg.mpr (div_nonneg hx hq.le)) (floor_le_roundHalfEven _)
  exact mul_nonneg (by exact_mod_cast h0) hq.le

theorem roundMagnitude_mono {x y : ℚ} (hx : 0 < x) (h : x ≤ y) :
    roundMagnitude x ≤ roundMagnitude y := by
  have hlog : Int.log 2 x ≤ Int.log 2 y := Int.log_mono_right hx h
  rcases (max_le_max hlog (le_refl (-1022 : ℤ))).lt_or_eq with hlt | heq
  · have hy : -1022 ≤ Int.log 2 y := by
      rcases le_total (Int.log 2 y) (-1022) with h1 | h1
      · rw [max_eq_right h1] at hlt
        exact absurd hlt (not_lt.mpr (le_max_right _ _))
      · exact h1
    rw [max_eq_left hy] at hlt
    calc roundMagnitude x ≤ 2 ^ (max (Int.log 2 x) (-1022) + 1) := roundMagnitude_le_zpow x
      _ ≤ 2 ^ Int.log 2 y := zpow_le_zpow_right₀ (by norm_num) (by omega)
      _ ≤ roundMagnitude y := zpow_le_roundMagnitude y (lt_of_lt_of_le hx h) hy
  · have hq : quantum x = quantum y := by
      unfold quantum
      rw [heq]
    unfold roundMagnitude
    rw [hq]
    have hqpos := quantum_pos y
    have hdiv : x / quantum y ≤ y / quantum y := div_le_div_of_nonneg_right h hqpos.le
    exact mul_le_mul_of_nonneg_right (by exact_mod_cast roundHalfEven_mono hdiv) hqpos.le

theorem roundDouble_mono {x y : ℚ} (h : x ≤ y) : roundDouble x ≤ roundDouble y := by
  unfold roundDouble
  rcases lt_trichotomy x 0 with hx | hx | hx
  · rw [if_neg hx.ne, if_pos hx]
    rcases lt_trichotomy y 0 with hy | hy | hy
    · rw [if_neg hy.ne, if_pos hy]
      exact neg_le_neg (roundMagnitude_mono (by linarith) (by linarith))
    · rw [if_pos hy]
      have := roundMagnitude_nonneg (-x) (by linarith)
      linarith
    · rw [if_neg hy.ne', if_neg (not_lt.mpr hy.le)]
      have h1 := roundMagnitude_nonneg (-x) (by linarith)
      have h2 := roundMagnitude_nonneg y hy.le
      linarith
  · rw [if_pos hx]
    rcases h.lt_or_eq with hy | hy
    · have hy0 : 0 < y := by linarith
      rw [if_neg hy0.ne', if_neg (not_lt.mpr hy0.le)]
      exact roundMagnitude_nonneg y hy0.le
    · rw [if_pos (by linarith)]
  · have hy : 0 < y := lt_of_lt_of_le hx h
    rw [if_neg hx.ne', if_neg (not_lt.mpr hx.le), if_neg hy.ne', if_neg (not_lt.mpr hy.le)]
    exact roundMagnitude_mono hx h


theorem log_two_eq (x : ℚ) (e : ℤ) (hlo : (2 : ℚ) ^ e ≤ x) (hhi : x < 2 ^ (e + 1)) :
    Int.log 2 x = e := by
  have hx : 0 < x := lt_of_lt_of_le (by positivity) hlo
  have h1 : e ≤ Int.log 2 x :=
    (@Int.zpow_le_iff_le_log ℚ _ _ 2 (by norm_num) e x hx).mp (by simpa using hlo)
  have h2 : Int.log 2 x < e + 1 :=
    (@Int.lt_zpow_iff_log_lt ℚ _ _ 2 (by norm_num) (e + 1) x hx).mp (by simpa using hhi)
  omega

/-- Rounding a positive number of binary exponent `e ≥ -1022`. -/
theorem roundDouble_eval (x : ℚ) (e n : ℤ) (he : -1022 ≤ e) (hlo : (2 : ℚ) ^ e ≤ x)
    (hhi : x < 2 ^ (e + 1)) (hn : roundHalfEven (x / 2 ^ (e - 52)) = n) :
    roundDouble x = n * 2 ^ (e - 52) := by
  have hx : 0 < x := lt_of_lt_of_le (by positivity) hlo
  unfold roundDouble
  rw [if_neg hx.ne', if_neg (not_lt.mpr hx.le)]
  unfold roundMagnitude quantum
  rw [log_two_eq x e hlo hhi, max_eq_left he, hn]

theorem roundDouble_ten : roundDouble 10 = 10 := by
  have h := roundDouble_eval 10 3 (10 * 2 ^ 49) (by norm_num) (by norm_num) (by norm_num)
    (by
      have : (10 : ℚ) / 2 ^ ((3 : ℤ) - 52) = ((10 * 2 ^ 49 : ℤ) : ℚ) := by norm_num
      rw [this, roundHalfEven_intCast])
  rw [h]
  norm_num

theorem roundDouble_thirty : roundDouble 30 = 30 := by
  have h := roundDouble_eval 30 4 (30 * 2 ^ 48) (by norm_num) (by norm_num) (by norm_num)
    (by
      have : (30 : ℚ) / 2 ^ ((4 : ℤ) - 52) = ((30 * 2 ^ 48 : ℤ) : ℚ) := by norm_num
      rw [this, roundHalfEven_intCast])
  rw [h]
  norm_num

theorem roundHalfEven_tie_even (x : ℚ) (f : ℤ) (hx : x = f + 1 / 2) (hf : f % 2 = 0) :
    roundHalfEven x = f := by
  have hfl : ⌊x⌋ = f := by
    rw [Int.floor_eq_iff, hx]
    constructor <;> linarith
  unfold roundHalfEven
  rw [hfl, hx]
  norm_num [hf]

theorem abs_roundHalfEven_sub (x : ℚ) : |(roundHalfEven x : ℚ) - x| ≤ 1 / 2 := by
  have h1 := Int.floor_le x
  have h2 := Int.lt_floor_add_one x
  unfold roundHalfEven
  rw [abs_le]
  split_ifs <;> push_cast <;> constructor <;> linarith

/-- Rounding a number from 1 on changes it by at most the fraction `2 ^ (-53)` of it. -/
theorem roundDouble_near (x : ℚ) (hx : 1 ≤ x) : |roundDouble x - x| ≤ x / 2 ^ 53 := by
  have hpos : 0 < x := by linarith
  have hlog : 0 ≤ Int.log 2 x :=
    (@Int.zpow_le_iff_le_log ℚ _ _ 2 (by norm_num) 0 x hpos).mp (by simpa using hx)
  have hlo := two_zpow_log_le x hpos
  unfold roundDouble
  rw [if_neg hpos.ne', if_neg (not_lt.mpr hpos.le)]
  unfold roundMagnitude quantum
  rw [max_eq_left (by omega)]
  generalize Int.log 2 x = e at hlo
  have hq : (0 : ℚ) < 2 ^ (e - 52) := by positivity
  have hqx : (2 : ℚ) ^ (e - 52) ≤ x / 2 ^ 52 := by
    have h52 : (2 : ℚ) ^ (52 : ℤ) = 2 ^ (52 : ℕ) := zpow_natCast 2 52
    rw [zpow_sub₀ (by norm_num : (2 : ℚ) ≠ 0), h52]
    exact div_le_div_of_nonneg_right hlo (by positivity)
  have hr := abs_roundHalfEven_sub (x / 2 ^ (e - 52))
  have hsplit : (roundHalfEven (x / 2 ^ (e - 52)) : ℚ) * 2 ^ (e - 52) - x
      = ((roundHalfEven (x / 2 ^ (e - 52)) : ℚ) - x / 2 ^ (e - 52)) * 2 ^ (e - 52) := by
    field_simp
  rw [hsplit, abs_mul, abs_of_pos hq]
  calc |(roundHalfEven (x / 2 ^ (e - 52)) : ℚ) - x / 2 ^ (e - 52)| * 2 ^ (e - 52)
      ≤ 1 / 2 * 2 ^ (e - 52) := mul_le_mul_of_nonneg_right hr hq.le
    _ ≤ 1 / 2 * (x / 2 ^ 52) := by linarith
    _ = x / 2 ^ 53 := by ring

/-- The double written `600.2000000000002` is a double. -/
theorem roundDouble_gapLeft :
    roundDouble (5279415031929243 / 8796093022208) = 5279415031929243 / 8796093022208 := by
  have h := roundDouble_eval (5279415031929243 / 8796093022208) 9 5279415031929243
    (by norm_num) (by norm_num) (by norm_num)
    (by
      have h1 : (5279415031929243 / 8796093022208 : ℚ) / 2 ^ ((9 : ℤ) - 52)
          = ((5279415031929243 : ℤ) : ℚ) := by norm_num
      rw [h1, roundHalfEven_intCast])
  rw [h]
  norm_num

/-- The double written `379.7999999999999` is a double. -/
theorem roundDouble_gapWidth :
    roundDouble (6681512259669195 / 17592186044416) = 6681512259669195 / 17592186044416 := by
  have h := roundDouble_eval (6681512259669195 / 17592186044416) 8 6681512259669195
    (by norm_num) (by norm_num) (by norm_num)
    (by
      have h1 : (6681512259669195 / 17592186044416 : ℚ) / 2 ^ ((8 : ℤ) - 52)
          = ((6681512259669195 : ℤ) : ℚ) := by norm_num
      rw [h1, roundHalfEven_intCast])
  rw [h]
  norm_num

/-- The sum of the doubles written `600.2000000000002` and `379.7999999999999` lies halfway
between 980 and the double above it, and is rounded to 980. -/
theorem addDouble_gap :
    addDouble (5279415031929243 / 8796093022208) (6681512259669195 / 17592186044416) = 980 := by
  have h := roundDouble_eval
    (5279415031929243 / 8796093022208 + 6681512259669195 / 17592186044416) 9 8620171161763840
    (by norm_num) (by norm_num) (by norm_num)
    (roundHalfEven_tie_even _ 8620171161763840 (by norm_num) (by norm_num))
  unfold addDouble
  rw [h]
  norm_num

theorem subDouble_gap : subDouble 1000 20 = 980 := by
  have h := roundDouble_eval (1000 - 20) 9 8620171161763840
    (by norm_num) (by norm_num) (by norm_num)
    (by
      have h1 : ((1000 : ℚ) - 20) / 2 ^ ((9 : ℤ) - 52) = ((8620171161763840 : ℤ) : ℚ) := by
        norm_num
      rw [h1, roundHalfEven_intCast])
  unfold subDouble
  rw [h]
  norm_num
/-! ## The claims -/

/-- C1: when every one of the `n ≥ 1` delivery attempts of `sendMessageToTab` fails, it makes
exactly `n` attempts, waits `100 * k` ms after the `k`-th failed attempt for `k < n` and not
after the `n`-th, and throws the error of the `n`-th attempt; the default of `retries` is 3. -/
theorem sendMessageToTab_all_fail (host : Host) (tabId : Nat) (message : Command) (n : Nat)
    (e : Nat → JsError) (w : World) (hn : 1 ≤ n)
    (hfail : ∀ k, k < n →
      host.tabsSendMessage (w.calls + k) tabId message = Except.error (e k)) :
    sendMessageToTab host tabId message (n : Int) w =
        (Except.error (e (n - 1)),
          { w with trace := w.trace ++ failedDeliveries tabId message n, calls := w.calls + n })
      ∧ deliveryAttempts (failedDeliveries tabId message n) =
          List.replicate n (Event.tabsSendMessage tabId message false)
      ∧ waits (failedDeliveries tabId message n) =
          (List.range (n - 1)).map (fun (k : Nat) => 100 * ((k : Int) + 1))
      ∧ (failedDeliveries tabId message n).getLast? =
          some (Event.tabsSendMessage tabId message false)
      ∧ sendMessageToTab host tabId message = sendMessageToTab host tabId message 3 := by
  obtain ⟨m, rfl⟩ : ∃ m, n = m + 1 := ⟨n - 1, by omega⟩
  obtain ⟨j, r, _, hrun, hlast, hr, hprev⟩ :=
    sendMessageToTab_run host tabId message (m + 1) hn w
  have hj : j = m := by
    by_contra hne
    have hlt : j < m + 1 := by omega
    have hrfail := hfail j hlt
    rw [← hr] at hrfail
    have := hlast (by rw [hrfail]; rfl)
    omega
  subst hj
  have hr2 : r = Except.error (e j) := by rw [hr]; exact hfail j (by omega)
  refine ⟨?_, ?_, ?_, ?_, rfl⟩
  · rw [hrun, failedDeliveries_split, hr2]
    simp
  · rw [failedDeliveries_split, deliveryAttempts_append, deliveryAttempts_failedRounds,
      List.replicate_succ']
    simp [deliveryAttempts]
  · rw [failedDeliveries_split, waits_append, waits_failedRounds]
    simp [waits]
  · rw [failedDeliveries_split]
    simp

/-- C1 at the default three retries against a page that never answers: three attempts, waits
of 100 and 200 ms, and the third error is thrown. -/
theorem sendMessageToTab_all_fail_witness :
    ((sendMessageToTab deafHost 7 Command.ping) World.initial).1 =
        Except.error (newError "Could not establish connection. Receiving end does not exist.")
      ∧ ((sendMessageToTab deafHost 7 Command.ping) World.initial).2.trace =
        [Event.tabsSendMessage 7 Command.ping false, Event.setTimeout 100,
          Event.tabsSendMessage 7 Command.ping false, Event.setTimeout 200,
          Event.tabsSendMessage 7 Command.ping false] := by
  have h := (sendMessageToTab_all_fail deafHost 7 Command.ping 3
    (fun _ => newError "Could not establish connection. Receiving end does not exist.")
    World.initial (by decide) (fun _ _ => rfl)).1
  have h3 : (sendMessageToTab deafHost 7 Command.ping) World.initial =
      sendMessageToTab deafHost 7 Command.ping ((3 : Nat) : Int) World.initial := rfl
  rw [h3, h]
  exact ⟨rfl, by decide⟩

/-- C2, as stated, fails: the selection's left edge is at the double written
`600.2000000000002`, the window is 1000 px wide and not scrolled, and the overlay's measured
width is the double written `379.7999999999999`, which is less than `V - 30`. The sum
`left + W` lies halfway between 980 and the next double and is rounded to 980, which is not
greater than `V - 20 = 980`: the callback keeps `left`, and `L = left` exceeds `V - W - 20`,
by `2 ^ (-44)`. -/
theorem positionPanel_left_exceeds :
    addDouble gapAnchor.rect.left plainWindow.scrollX = gapAnchor.left
    ∧ roundDouble gapBox.width = gapBox.width
    ∧ gapBox.width < plainWindow.innerWidth - 30
    ∧ (positionCallbackDouble gapAnchor plainWindow gapBox).1 = gapAnchor.left
    ∧ plainWindow.innerWidth - gapBox.width - 20
        < (positionCallbackDouble gapAnchor plainWindow gapBox).1
    ∧ (positionCallbackDouble gapAnchor plainWindow gapBox).1
        - (plainWindow.innerWidth - gapBox.width - 20) = 1 / 2 ^ 44 := by
  have hL : (positionCallbackDouble gapAnchor plainWindow gapBox).1 = gapAnchor.left := by
    simp only [positionCallbackDouble, gapAnchor, gapBox, plainWindow]
    rw [addDouble_gap, subDouble_gap, if_neg (lt_irrefl _), if_neg (by norm_num)]
  refine ⟨?_, roundDouble_gapWidth, ?_, hL, ?_, ?_⟩
  · simp only [addDouble, gapAnchor, plainWindow, add_zero]
    exact roundDouble_gapLeft
  · norm_num [gapBox, plainWindow]
  · rw [hL]
    norm_num [gapAnchor, gapBox, plainWindow]
  · rw [hL]
    norm_num [gapAnchor, gapBox, plainWindow]

/-- C2, amended: for a selection-anchored overlay of measured width `W` in a viewport of width
`V` with `W < V - 30`, whatever `left` the selection and the scroll offset gave, the left
offset `L` assigned by the delayed correction of `positionPanel` satisfies `10 ≤ L`, and
`L ≤ V - W - 20` up to the rounding of the doubles the code computes with: `L` is the double
the code gets for `V - W - 20`, or the double it gets for `L + W` is at most the double it
gets for `V - 20`. For `W ≥ 0` this gives `L ≤ V - W - 20 + V / 2 ^ 51`. -/
theorem positionPanel_left_rounded (a : Anchor) (now : Viewport) (panelRect : DOMRect)
    (hW : panelRect.width < now.innerWidth - 30) :
    10 ≤ (positionCallbackDouble a now panelRect).1
    ∧ ((positionCallbackDouble a now panelRect).1
          = subDouble (subDouble now.innerWidth panelRect.width) 20
        ∨ addDouble (positionCallbackDouble a now panelRect).1 panelRect.width
          ≤ subDouble now.innerWidth 20)
    ∧ (0 ≤ panelRect.width →
        (positionCallbackDouble a now panelRect).1
          ≤ now.innerWidth - panelRect.width - 20 + now.innerWidth / 2 ^ 51) := by
  have h30 : (30 : ℚ) ≤ subDouble now.innerWidth panelRect.width := by
    have h := @roundDouble_mono 30 (now.innerWidth - panelRect.width) (by linarith)
    rw [roundDouble_thirty] at h
    exact h
  have h10 : (10 : ℚ) ≤ subDouble (subDouble now.innerWidth panelRect.width) 20 := by
    have h := @roundDouble_mono 10 (subDouble now.innerWidth panelRect.width - 20)
      (by linarith)
    rw [roundDouble_ten] at h
    exact h
  by_cases hover : addDouble a.left panelRect.width > subDouble now.innerWidth 20
  · have hL : (positionCallbackDouble a now panelRect).1
        = subDouble (subDouble now.innerWidth panelRect.width) 20 := by
      simp only [positionCallbackDouble]
      rw [if_pos hover, if_neg (not_lt.mpr h10)]
    rw [hL]
    refine ⟨h10, Or.inl rfl, ?_⟩
    intro hwidth
    have e1 := abs_le.mp (roundDouble_near (now.innerWidth - panelRect.width) (by linarith))
    have e2 := abs_le.mp
      (roundDouble_near (subDouble now.innerWidth panelRect.width - 20) (by linarith))
    have e1u : subDouble now.innerWidth panelRect.width
        ≤ (now.innerWidth - panelRect.width) + (now.innerWidth - panelRect.width) / 2 ^ 53 := by
      unfold subDouble
      linarith [e1.2]
    have e2u : subDouble (subDouble now.innerWidth panelRect.width) 20
        ≤ (subDouble now.innerWidth panelRect.width - 20)
          + (subDouble now.innerWidth panelRect.width - 20) / 2 ^ 53 := by
      have h := e2.2
      unfold subDouble at h ⊢
      linarith
    linarith
  · by_cases hlow : a.left < 10
    · have hL : (positionCallbackDouble a now panelRect).1 = 10 := by
        simp only [positionCallbackDouble]
        rw [if_neg hover, if_pos hlow]
      rw [hL]
      refine ⟨le_refl _, Or.inr ?_, ?_⟩
      · exact roundDouble_mono (by linarith)
      · intro _
        linarith
    · have hL : (positionCallbackDouble a now panelRect).1 = a.left := by
        simp only [positionCallbackDouble]
        rw [if_neg hover, if_neg hlow]
      rw [hL]
      refine ⟨not_lt.mp hlow, Or.inr (not_lt.mp hover), ?_⟩
      intro hwidth
      have e1 := abs_le.mp (roundDouble_near (a.left + panelRect.width)
        (by linarith [not_lt.mp hlow]))
      have e2 := abs_le.mp (roundDouble_near (now.innerWidth - 20) (by linarith))
      have hle : roundDouble (a.left + panelRect.width) ≤ roundDouble (now.innerWidth - 20) :=
        not_lt.mp hover
      linarith [e1.1, e2.2]

/-- C2, amended, for a selection at 900 px in a 1000 px window and a 300 px overlay: the
overlay is moved left, to the double the code gets for `1000 - 300 - 20`. -/
theorem positionPanel_left_rounded_witness :
    panelBox.width < plainWindow.innerWidth - 30
    ∧ 10 ≤ (positionCallbackDouble ⟨edgeRange.boundingClientRect, 70, 900⟩ plainWindow
        panelBox).1
    ∧ ((positionCallbackDouble ⟨edgeRange.boundingClientRect, 70, 900⟩ plainWindow panelBox).1
          = subDouble (subDouble plainWindow.innerWidth panelBox.width) 20
        ∨ addDouble
            (positionCallbackDouble ⟨edgeRange.boundingClientRect, 70, 900⟩ plainWindow
              panelBox).1 panelBox.width
          ≤ subDouble plainWindow.innerWidth 20)
    ∧ (0 ≤ panelBox.width →
        (positionCallbackDouble ⟨edgeRange.boundingClientRect, 70, 900⟩ plainWindow panelBox).1
          ≤ plainWindow.innerWidth - panelBox.width - 20 + plainWindow.innerWidth / 2 ^ 51) :=
  ⟨by norm_num [panelBox, plainWindow],
    positionPanel_left_rounded ⟨edgeRange.boundingClientRect, 70, 900⟩ plainWindow panelBox
      (by norm_num [panelBox, plainWindow])⟩

/-- C3: `getAIErrorHelp` looks at the lower-cased message, a missing message counting as the
empty string: the setup instructions when it contains `not available` or `is not defined`
(also when the other group matches too); otherwise the wait-and-retry instructions when it
contains `downloading` or `after-download`; otherwise the generic hint. -/
theorem getAIErrorHelp_selects (toLowerCase : String → String) (error : JsError) :
    (Occurs "not available" (toLowerCase (strOr error.message ""))
        ∨ Occurs "is not defined" (toLowerCase (strOr error.message "")) →
      getAIErrorHelp toLowerCase error = setupInstructions)
    ∧ (¬ Occurs "not available" (toLowerCase (strOr error.message "")) →
        ¬ Occurs "is not defined" (toLowerCase (strOr error.message "")) →
        Occurs "downloading" (toLowerCase (strOr error.message ""))
          ∨ Occurs "after-download" (toLowerCase (strOr error.message "")) →
      getAIErrorHelp toLowerCase error = downloadInstructions)
    ∧ (¬ Occurs "not available" (toLowerCase (strOr error.message "")) →
        ¬ Occurs "is not defined" (toLowerCase (strOr error.message "")) →
        ¬ Occurs "downloading" (toLowerCase (strOr error.message "")) →
        ¬ Occurs "after-download" (toLowerCase (strOr error.message "")) →
      getAIErrorHelp toLowerCase error = genericHint)
    ∧ strOr none "" = "" ∧ strOr (some "") "" = ""
    ∧ getAIErrorHelp toLowerCase ⟨none⟩ = getAIErrorHelp toLowerCase ⟨some ""⟩ := by
  refine ⟨?_, ?_, ?_, rfl, rfl, rfl⟩
  · intro h
    have h1 : (includes (toLowerCase (strOr error.message "")) "not available"
        || includes (toLowerCase (strOr error.message "")) "is not defined") = true := by
      rw [Bool.or_eq_true, includes_iff, includes_iff]
      exact h
    simp only [getAIErrorHelp, h1, if_true]
  · intro h1 h2 h3
    have hs : (includes (toLowerCase (strOr error.message "")) "not available"
        || includes (toLowerCase (strOr error.message "")) "is not defined") = false := by
      rw [Bool.or_eq_false_iff, ← Bool.not_eq_true, ← Bool.not_eq_true, includes_iff,
        includes_iff]
      exact ⟨h1, h2⟩
    have hd : (includes (toLowerCase (strOr error.message "")) "downloading"
        || includes (toLowerCase (strOr error.message "")) "after-download") = true := by
      rw [Bool.or_eq_true, includes_iff, includes_iff]
      exact h3
    simp [getAIErrorHelp, hs, hd]
  · intro h1 h2 h3 h4
    have hs : (includes (toLowerCase (strOr error.message "")) "not available"
        || includes (toLowerCase (strOr error.message "")) "is not defined") = false := by
      rw [Bool.or_eq_false_iff, ← Bool.not_eq_true, ← Bool.not_eq_true, includes_iff,
        includes_iff]
      exact ⟨h1, h2⟩
    have hd : (includes (toLowerCase (strOr error.message "")) "downloading"
        || includes (toLowerCase (strOr error.message "")) "after-download") = false := by
      rw [Bool.or_eq_false_iff, ← Bool.not_eq_true, ← Bool.not_eq_true, includes_iff,
        includes_iff]
      exact ⟨h3, h4⟩
    simp [getAIErrorHelp, hs, hd]

/-- C3 on a message that matches both groups: `Model not available, downloading` gets the
setup instructions. -/
theorem getAIErrorHelp_selects_witness :
    getAIErrorHelp asciiLower (newError "Model not available, downloading") =
      setupInstructions :=
  (getAIErrorHelp_selects asciiLower (newError "Model not available, downloading")).1
    (Or.inl ((includes_iff _ _).mp (by decide)))

/-- C4, as stated, fails: with a rewriter that reports `unavailable`, the page is sent a
`showResult` with `isError = true` whose text ends in the generic hint and holds neither the
setup instructions nor `chrome://flags`. -/
theorem unavailable_rewriter_gets_generic_hint :
    commandsDelivered
        (handleAction (workerHost (sampleAi "unavailable")) 1 "rewrite-formal" "Hello."
          World.initial).2.trace =
      [Command.ping, Command.showLoading "rewrite-formal" "Hello.",
        Command.showResult "rewrite-formal"
          (JobResult.text "⚠️ **AI Error:** The Rewriter API is not supported on this device.\n\nPlease check the Chrome DevTools console for more details.")
          (some "Hello.") none none (some true)]
    ∧ includes "⚠️ **AI Error:** The Rewriter API is not supported on this device.\n\nPlease check the Chrome DevTools console for more details."
        "chrome://flags" = false
    ∧ includes "⚠️ **AI Error:** The Rewriter API is not supported on this device.\n\nPlease check the Chrome DevTools console for more details."
        setupInstructions = false
    ∧ includes setupInstructions "chrome://flags" = true := by
  refine ⟨by decide, by decide, by decide, by decide⟩

/-- C4, amended: a rewriter or a translator that reports `unavailable` makes the worker answer
at once with a failure of its own message; the coordinator's error command for a failure with
message `m` has `isError = true` and the text `⚠️ **AI Error:** m`, a blank line and the hint of
`getAIErrorHelp` for `m`; and when `toLowerCase` acts on ASCII text as ASCII lower-casing, that
hint is the generic one for the rewriter's message and for the translator's message between
any two of the languages en, es, de, fr, it, ja. -/
theorem unavailable_model_error_text (ai : AiHost) (host : Host) (menuId text : String)
    (mode : Option String)
    (hlower : ∀ s, isAscii s = true → host.toLowerCase s = asciiLower s) :
    (ai.rewriterAvailability = Except.ok "unavailable" →
      offscreenListener ai { action := "rewrite", text := text, mode := mode } =
        { success := false, error := some rewriterUnavailable })
    ∧ (∀ source target, ai.translatorAvailability source target = Except.ok "unavailable" →
      offscreenListener ai { action := "translate", text := text, sourceLanguage := source,
                             targetLanguage := target } =
        { success := false, error := some (translatorUnavailable source target) })
    ∧ (∀ m, aiErrorCommand host menuId text (newError m) =
        Command.showResult menuId
          (JobResult.text ("⚠️ **AI Error:** " ++ m ++ "\n\n"
            ++ getAIErrorHelp host.toLowerCase (newError m)))
          (some text) none none (some true))
    ∧ getAIErrorHelp host.toLowerCase (newError rewriterUnavailable) = genericHint
    ∧ (∀ source ∈ sampleLanguages, ∀ target ∈ SUPPORTED_TRANSLATION_TARGETS,
        getAIErrorHelp host.toLowerCase
          (newError (translatorUnavailable (some source) (some target))) = genericHint) := by
  refine ⟨?_, ?_, ?_, ?_, ?_⟩
  · intro h
    simp [offscreenListener, handleOffscreenAction, processRewrite, h, rewriterUnavailable,
      newError, bind, Except.bind, throw, throwThe, MonadExceptOf.throw]
  · intro source target h
    simp [offscreenListener, handleOffscreenAction, processTranslate, h, translatorUnavailable,
      newError, bind, Except.bind, throw, throwThe, MonadExceptOf.throw]
  · intro m
    rfl
  · have h1 : host.toLowerCase (strOr (newError rewriterUnavailable).message "") =
        asciiLower rewriterUnavailable := hlower _ (by decide)
    unfold getAIErrorHelp
    simp only [h1]
    decide
  · have hall : ∀ source ∈ sampleLanguages, ∀ target ∈ SUPPORTED_TRANSLATION_TARGETS,
        isAscii (translatorUnavailable (some source) (some target)) = true
        ∧ getAIErrorHelp asciiLower
            (newError (translatorUnavailable (some source) (some target))) = genericHint := by
      decide
    intro source hs target ht
    obtain ⟨ha, hg⟩ := hall source hs target ht
    have hne : translatorUnavailable (some source) (some target) ≠ "" := by
      intro h0
      have := congrArg String.length h0
      simp only [translatorUnavailable, String.length_append] at this
      have h3 : (".").length = 1 := by decide
      have h4 : ("").length = 0 := by decide
      omega
    have h1 : host.toLowerCase
        (strOr (newError (translatorUnavailable (some source) (some target))).message "") =
        asciiLower (translatorUnavailable (some source) (some target)) := by
      simp only [newError, strOr, if_neg hne]
      exact hlower _ ha
    have h2 : asciiLower
        (strOr (newError (translatorUnavailable (some source) (some target))).message "") =
        asciiLower (translatorUnavailable (some source) (some target)) := by
      simp only [newError, strOr, if_neg hne]
    unfold getAIErrorHelp at hg ⊢
    simp only [h1]
    simp only [h2] at hg
    exact hg

/-- C4, amended, for a host with ASCII lower-casing and a browser that reports `unavailable`:
the rewriter's failure gets the generic hint. -/
theorem unavailable_model_error_text_witness :
    getAIErrorHelp (workerHost (sampleAi "unavailable")).toLowerCase
      (newError rewriterUnavailable) = genericHint :=
  (unavailable_model_error_text (sampleAi "unavailable") (workerHost (sampleAi "unavailable"))
    "rewrite-formal" "Hello." (some "formal") (fun _ _ => rfl)).2.2.2.1

/-- C5, evaluated on the code: the worker has no case for the action `grammar`, so for every
browser and every text it answers a grammar job with the failure `Unknown offscreen action`;
with a reachable page the coordinator then ends by sending a `showResult` with
`isError = true` and no `showDiff`, not the structured grammar result. -/
theorem grammar_job_unknown_to_worker (ai : AiHost) (text : String) :
    handleOffscreenAction ai { action := "grammar", text := text } =
        Except.error (newError "Unknown offscreen action")
    ∧ offscreenListener ai { action := "grammar", text := text } =
        { success := false, error := some "Unknown offscreen action" }
    ∧ dispatched (handleAction (workerHost ai) 1 "grammar" text World.initial).2.trace =
        [{ action := "grammar", text := text }]
    ∧ commandsDelivered (handleAction (workerHost ai) 1 "grammar" text World.initial).2.trace =
        [Command.ping, Command.showLoading "grammar" text,
          Command.showResult "grammar"
            (JobResult.text "⚠️ **AI Error:** Unknown offscreen action\n\nPlease check the Chrome DevTools console for more details.")
            (some text) none none (some true)] := by
  have h1 : handleOffscreenAction ai { action := "grammar", text := text } =
      Except.error (newError "Unknown offscreen action") := by
    simp [handleOffscreenAction, throw, throwThe, MonadExceptOf.throw]
  have h2 : offscreenListener ai { action := "grammar", text := text } =
      { success := false, error := some "Unknown offscreen action" } := by
    simp [offscreenListener, h1, newError]
  have h3 : getAIErrorHelp asciiLower (newError "Unknown offscreen action") = genericHint := by
    decide
  have h4 : "⚠️ **AI Error:** " ++ "Unknown offscreen action" ++ "\n\n" ++ genericHint =
      "⚠️ **AI Error:** Unknown offscreen action\n\nPlease check the Chrome DevTools console for more details." := by
    decide
  refine ⟨h1, h2, ?_, ?_⟩
  · simp [handleAction, isContentScriptLoaded, tabsSendMessage, workerHost, sendMessageToTab,
      sendMessageToTabLoop, handleActionJob, sendToOffscreen, setupOffscreenDocument,
      createDocument, getCreating, setCreating, await, h2, World.initial, dispatched, strOr, aiErrorCommand]
  · simp [handleAction, isContentScriptLoaded, tabsSendMessage, workerHost, sendMessageToTab,
      sendMessageToTabLoop, handleActionJob, sendToOffscreen, setupOffscreenDocument,
      createDocument, getCreating, setCreating, await, h2, World.initial, commandsDelivered, strOr,
      aiErrorCommand, aiErrorText, h3, interpolate, newError]
    exact h4

/-- C6: from a page without an overlay node, after every sequence of operations (commands
received, clicks, key presses, timers, changes of the selection and of the window) the page
has at most one overlay node; and right after a `showLoading`, a `showResult`, a
`promptForLanguage` or the choice of a language it has exactly one, which shows what the
operation asked for and is a new node, none of those the page had before. -/
theorem single_overlay (p0 : Page) (ops : List PageOp) (hnone : panels p0 = [])
    (hfresh : Fresh p0) :
    (panels (p0.run ops)).length ≤ 1
    ∧ (∀ type text, ∃ n,
        panels ((p0.run ops).step (PageOp.receive (Command.showLoading type text))) = [n]
        ∧ n.content = NodeContent.loading type text
        ∧ ∀ m ∈ (p0.run ops).body, m.ident ≠ n.ident)
    ∧ (∀ type result originalText correctedText showDiff isError, ∃ n view,
        panels ((p0.run ops).step (PageOp.receive
          (Command.showResult type result originalText correctedText showDiff isError))) = [n]
        ∧ n.content = NodeContent.result view ∧ view.actionType = type ∧ view.body = result
        ∧ ∀ m ∈ (p0.run ops).body, m.ident ≠ n.ident)
    ∧ (∀ languages originalText, ∃ n,
        panels ((p0.run ops).step (PageOp.receive
          (Command.promptForLanguage languages originalText))) = [n]
        ∧ n.content = NodeContent.languageSelector languages originalText
        ∧ ∀ m ∈ (p0.run ops).body, m.ident ≠ n.ident)
    ∧ (∀ ident index selector languages originalText targetLang,
        (p0.run ops).body.find? (fun n => n.ident = ident) = some selector →
        selector.content = NodeContent.languageSelector languages originalText →
        languages.get? index = some targetLang →
        ∃ n, panels ((p0.run ops).step (PageOp.click (ClickTarget.langButton ident index))) = [n]
          ∧ n.content = NodeContent.loading "translate" originalText
          ∧ ∀ m ∈ (p0.run ops).body, m.ident ≠ n.ident) := by
  have hlen : (panels p0).length ≤ 1 := by rw [hnone]; exact Nat.zero_le 1
  obtain ⟨h1, h2⟩ := run_invariant p0 ops hlen hfresh
  generalize p0.run ops = p at h1 h2 ⊢
  refine ⟨h1, ?_, ?_, ?_, ?_⟩
  · intro type text
    refine ⟨_, panels_showLoadingPanel type text p, rfl, ?_⟩
    intro m hm
    exact Nat.ne_of_lt (h2 m hm)
  · intro type result originalText correctedText showDiff isError
    obtain ⟨n, view, hp, hid, hc, hv1, hv2⟩ :=
      panels_showResultPanel type result originalText correctedText showDiff isError p
    refine ⟨n, view, hp, hc, hv1, hv2, ?_⟩
    intro m hm
    rw [hid]
    exact Nat.ne_of_lt (h2 m hm)
  · intro languages originalText
    refine ⟨_, panels_showLanguageSelector languages originalText p, rfl, ?_⟩
    intro m hm
    exact Nat.ne_of_lt (h2 m hm)
  · intro ident index selector languages originalText targetLang hfind hcontent hget
    have hlt : index < languages.length := by
      rcases Nat.lt_or_ge index languages.length with h | h
      · exact h
      · rw [List.get?_eq_none.mpr h] at hget
        exact absurd hget (by simp)
    have hclick : clickable (ClickTarget.langButton ident index) p = true := by
      simp [clickable, hfind, NodeContent.hasLangButton, hcontent, hlt]
    have hfind2 := find_onDocumentClick ident (ClickTarget.langButton ident index) p rfl
    rw [hfind] at hfind2
    have hstep : p.step (PageOp.click (ClickTarget.langButton ident index)) =
        { showLoadingPanel "translate" originalText
            (showToast (ToastMessage.translatingTo targetLang) "info" 2000
              (onDocumentClick (ClickTarget.langButton ident index) p)) with
          sent := (showLoadingPanel "translate" originalText
            (showToast (ToastMessage.translatingTo targetLang) "info" 2000
              (onDocumentClick (ClickTarget.langButton ident index) p))).sent
            ++ [(originalText, targetLang)] } := by
      simp only [Page.step, hclick, if_true, onTargetClick, hfind2, hcontent, hget]
    rw [hstep]
    have : ∀ (q : Page) (s : List (String × String)), panels { q with sent := s } = panels q :=
      fun _ _ => rfl
    rw [this, panels_showLoadingPanel]
    refine ⟨_, rfl, rfl, ?_⟩
    intro m hm
    have h3 := h2 m hm
    simp only [createPanel, nextIdent_showToast, nextIdent_onDocumentClick]
    omega

/-- C6 on a page with one element of its own: after a loading overlay, a language prompt, a
language choice and Escape there is at most one overlay node. -/
theorem single_overlay_witness :
    (panels (samplePage.run
      [PageOp.receive (Command.showLoading "translate" "Tea."),
        PageOp.receive (Command.promptForLanguage SUPPORTED_TRANSLATION_TARGETS "Tea."),
        PageOp.click (ClickTarget.langButton 2 2),
        PageOp.keydown "Escape"])).length ≤ 1 :=
  (single_overlay samplePage _ rfl
    (fun n hn => by
      have h : n = _ := List.mem_singleton.mp hn
      rw [h]
      exact Nat.lt_succ_self 0)).1

/-- C7, evaluated on the code: `N ≥ 2` calls of `setupOffscreenDocument` are made while no
worker context exists. The host answers the first that there is no context; it invokes
`createDocument`, the creation succeeds, and the call sets `creating` back to `null` and
returns. Then the answer `[]` to the second call, which the host gave before the context
existed, reaches it: the call finds `creating` empty and invokes `createDocument` a second
time. The promise kept in `creating` does not make the calls converge on one creation. -/
theorem setup_creates_twice (N : Nat) (hN : 2 ≤ N) :
    (Setup.start N).run
        [SetupEvent.contexts 0 false, SetupEvent.settle 0 (Except.ok ()),
          SetupEvent.contexts 1 false] =
      some ⟨CallState.returned :: CallState.awaitingOwn 1
              :: List.replicate (N - 2) CallState.awaitingContexts,
            some 1, [Settlement.fulfilled, Settlement.pending]⟩ := by
  obtain ⟨M, rfl⟩ : ∃ M, N = M + 2 := ⟨N - 2, by omega⟩
  simp [Setup.run, Setup.step, Setup.start, answerAllowed, resume, succeeded,
    List.replicate_succ]

/-- C7 for two calls: the second invocation of `createDocument` is pending while the first
call has returned. -/
theorem setup_creates_twice_witness :
    2 ≤ 2
    ∧ (Setup.start 2).run
        [SetupEvent.contexts 0 false, SetupEvent.settle 0 (Except.ok ()),
          SetupEvent.contexts 1 false] =
      some ⟨[CallState.returned, CallState.awaitingOwn 1], some 1,
        [Settlement.fulfilled, Settlement.pending]⟩ :=
  ⟨by decide, setup_creates_twice 2 (by decide)⟩

/-- C8: once the worker context is set up and the worker answers a job with a response object
`r`, `sendToOffscreen` returns `r.result` unchanged when `r.success` is true, and when it is
false throws an error whose message is `r.error`, or the default message when `r.error` is
missing or empty; the state afterwards is the same in both cases. -/
theorem sendToOffscreen_unwraps (host : Host) (data : Job) (w w1 : World) (r : WorkerResponse)
    (hsetup : setupOffscreenDocument host w = (Except.ok (), w1))
    (hresp : host.runtimeSendMessage w1.calls data = Except.ok (some r)) :
    (sendToOffscreen host data w).2 =
        { w1 with trace := w1.trace ++ [Event.runtimeSendMessage data], calls := w1.calls + 1 }
      ∧ (r.success = true → (sendToOffscreen host data w).1 = Except.ok r.result)
      ∧ (r.success = false → ∀ m, r.error = some m → m ≠ "" →
          (sendToOffscreen host data w).1 = Except.error (newError m))
      ∧ (r.success = false → r.error = none ∨ r.error = some "" →
          (sendToOffscreen host data w).1 =
            Except.error (newError "An unknown error occurred in the offscreen document.")) := by
  have hrun : sendToOffscreen host data w =
      (if r.success then Except.ok r.result
        else Except.error (newError (strOr r.error unknownOffscreenError)),
        { w1 with trace := w1.trace ++ [Event.runtimeSendMessage data],
                  calls := w1.calls + 1 }) := by
    simp only [sendToOffscreen, bind_run, hsetup, ask_run, hresp]
    cases hs : r.success <;> simp [hs]
  rw [hrun]
  refine ⟨rfl, ?_, ?_, ?_⟩
  · intro hs
    simp [hs]
  · intro hs m hm hne
    simp [hs, hm, strOr, hne]
  · intro hs hm
    rcases hm with hm | hm <;> simp [hs, hm, strOr, unknownOffscreenError]

/-- C8 for a summarize job answered by a working worker: the text comes back unchanged. -/
theorem sendToOffscreen_unwraps_witness :
    (sendToOffscreen (workerHost (sampleAi "available")) { action := "summarize", text := "Tea." }
        World.initial).1 = Except.ok (JobResult.text "📝 **Summary**\n\nKey points of: Tea.") :=
  (sendToOffscreen_unwraps (workerHost (sampleAi "available"))
    { action := "summarize", text := "Tea." } World.initial
    ⟨none, [Event.getContexts, Event.createDocument], 2⟩
    { success := true, result := JobResult.text "📝 **Summary**\n\nKey points of: Tea." }
    rfl rfl).2.1 rfl

/-- C9: when the `showLoading` command of an action was delivered and its job then fails with
an error `aiError` before any command is sent (the worker fails, or the kind is unknown),
`handleAction` sends one `showResult` command, attempted `j + 1 ≤ 3` times: it has
`isError = true`, the action's kind, `originalText` the input text, and as text the error's
message followed by the hint of `getAIErrorHelp` for it. When that command is delivered it is
the only `showResult` delivered and no notification is created. A kind outside the table fails
with `Unknown action for AI processing`. -/
theorem handleAction_job_failure (host : Host) (tabId : Nat) (menuId text : String)
    (w w1 w2 : World) (resp : Option TabResponse) (aiError : JsError)
    (hloading : announceLoading host tabId menuId text w = (Except.ok resp, w1))
    (hjob : handleActionJob host tabId menuId text w1 = (Except.error aiError, w2))
    (hquiet : commandsSent (eventsSince w1 w2) = []) :
    aiErrorCommand host menuId text aiError =
        Command.showResult menuId
          (JobResult.text ("⚠️ **AI Error:** " ++ interpolate aiError.message ++ "\n\n"
            ++ getAIErrorHelp host.toLowerCase aiError))
          (some text) none none (some true)
    ∧ (∃ j, j < 3
        ∧ (commandsSent (eventsSince w (handleAction host tabId menuId text w).2)).filter
            Command.isShowResult =
          List.replicate (j + 1) (aiErrorCommand host menuId text aiError))
    ∧ (succeeded ((sendMessageToTab host tabId (aiErrorCommand host menuId text aiError)) w2).1
          = true →
        (commandsDelivered (eventsSince w (handleAction host tabId menuId text w).2)).filter
            Command.isShowResult = [aiErrorCommand host menuId text aiError]
        ∧ notifications (eventsSince w (handleAction host tabId menuId text w).2) = [])
    ∧ (menuId ≠ "grammar" → menuId ≠ "translate" → offscreenJobFor menuId = none →
        ∀ w0, handleActionJob host tabId menuId text w0 =
          (Except.error (newError "Unknown action for AI processing"), w0)) := by
  refine ⟨rfl, ?_, ?_, ?_⟩
  on_goal 3 =>
    intro hg ht hnone w0
    simp [handleActionJob, hg, ht, hnone]
  all_goals
    obtain ⟨evsA, hA, hAll⟩ := emits_announceLoading host tabId menuId text w
    rw [hloading] at hA
    simp only at hA
    obtain ⟨qA1, qA2, qA3, _⟩ := announce_events_quiet tabId menuId text evsA hAll
    obtain ⟨evsJ, hJ, hJn⟩ := emits_handleActionJob host tabId menuId text w1
    rw [hjob] at hJ
    simp only at hJ
    have hJs : commandsSent evsJ = [] := by
      rw [eventsSince_append w1 w2 evsJ hJ] at hquiet
      exact hquiet
    have hJnot : notifications evsJ = [] := by
      clear hJ hJs
      induction evsJ with
      | nil => rfl
      | cons ev evs ih =>
        have h1 : notifications (ev :: evs) = notifications [ev] ++ notifications evs :=
          notifications_append [ev] evs
        rw [h1, hJn ev (List.mem_cons_self _ _),
          ih (fun e he => hJn e (List.mem_cons_of_mem _ he))]
        rfl
    have hAf : (commandsSent evsA).filter Command.isShowResult = [] := by
      rw [List.filter_eq_nil_iff]
      intro c hc
      simp [(qA3 c hc).1]
    have hAd : (commandsDelivered evsA).filter Command.isShowResult = [] := by
      rw [List.filter_eq_nil_iff]
      intro c hc
      have hc2 : c ∈ commandsSent evsA := by
        simp only [commandsDelivered, commandsSent, List.mem_filterMap] at hc ⊢
        obtain ⟨ev, hev, hm⟩ := hc
        refine ⟨ev, hev, ?_⟩
        cases ev with
        | tabsSendMessage t m d => cases d <;> simp_all
        | _ => simp at hm
      simp [(qA3 c hc2).1]
    obtain ⟨j, r, hj, hrun, _, _, _⟩ :=
      sendMessageToTab_run host tabId (aiErrorCommand host menuId text aiError) 3
        (by decide) w2
    have hrun2 : (sendMessageToTab host tabId (aiErrorCommand host menuId text aiError)) w2 = _
      := hrun
    have hshow : (aiErrorCommand host menuId text aiError).isShowResult = true := rfl
    have hfinal : eventsSince w (handleAction host tabId menuId text w).2 =
        evsA ++ evsJ ++ failedRounds tabId (aiErrorCommand host menuId text aiError) 0 j
          ++ [Event.tabsSendMessage tabId (aiErrorCommand host menuId text aiError)
                (succeeded r)]
          ++ (if succeeded r = true then [] else [unreachableNotification]) := by
      apply eventsSince_append
      rw [handleAction_run, hloading]
      simp only
      rw [hjob]
      simp only
      rw [hrun2]
      cases r with
      | ok a => simp [hJ, hA]
      | error e => simp [hJ, hA]
  · refine ⟨j, hj, ?_⟩
    rw [hfinal]
    simp only [commandsSent_append, List.filter_append, hAf, hJs, commandsSent_failedRounds,
      List.nil_append, List.filter_nil]
    have h1 : commandsSent [Event.tabsSendMessage tabId
        (aiErrorCommand host menuId text aiError) (succeeded r)] =
        [aiErrorCommand host menuId text aiError] := rfl
    have h2 : commandsSent (if succeeded r = true then [] else [unreachableNotification]) = [] := by
      split_ifs <;> rfl
    rw [h1, h2, List.replicate_succ']
    simp [hshow]
  · intro hok
    rw [hrun2] at hok
    simp only at hok
    rw [hfinal, hok]
    simp only [commandsDelivered_append, notifications_append, List.filter_append, hAd,
      commandsDelivered_nil_of_sent evsJ hJs, commandsDelivered_failedRounds, qA2, hJnot,
      notifications_failedRounds, List.nil_append, List.filter_nil, if_true, List.append_nil]
    constructor
    · simp [commandsDelivered, hshow]
    · simp [notifications]

/-- C9 for a rewrite request whose rewriter is unavailable and whose page answers: one error
command is delivered, with the rewriter's message and the hint chosen for it. -/
theorem handleAction_job_failure_witness :
    (commandsDelivered (eventsSince World.initial
        (handleAction (workerHost (sampleAi "unavailable")) 1 "rewrite-formal" "Hello."
          World.initial).2)).filter Command.isShowResult =
      [aiErrorCommand (workerHost (sampleAi "unavailable")) "rewrite-formal" "Hello."
        (newError rewriterUnavailable)]
    ∧ notifications (eventsSince World.initial
        (handleAction (workerHost (sampleAi "unavailable")) 1 "rewrite-formal" "Hello."
          World.initial).2) = [] :=
  (handleAction_job_failure (workerHost (sampleAi "unavailable")) 1 "rewrite-formal" "Hello."
    World.initial
    ⟨none, [Event.tabsSendMessage 1 Command.ping true,
      Event.tabsSendMessage 1 (Command.showLoading "rewrite-formal" "Hello.") true], 2⟩
    ⟨none, [Event.tabsSendMessage 1 Command.ping true,
      Event.tabsSendMessage 1 (Command.showLoading "rewrite-formal" "Hello.") true,
      Event.getContexts, Event.createDocument,
      Event.runtimeSendMessage { action := "rewrite", text := "Hello.", mode := some "formal" }],
      5⟩
    (some ⟨some "shown"⟩) (newError rewriterUnavailable) rfl rfl (by decide)).2.2.1 rfl

/-- C10: in a run of `handleAction`, when the probe finds no page script and the injection
fails, or when the page is verified and the `showLoading` command fails after all its retries,
no job is dispatched, no `showResult` and no `promptForLanguage` command is sent, and exactly
one notification is created; and in every run, a job dispatch or a `showResult` attempt comes
after a delivered `showLoading` command of the same action. -/
theorem handleAction_unreachable_page (host : Host) (tabId : Nat) (menuId text : String)
    (w : World) :
    (∀ w0 w1 e, isContentScriptLoaded host tabId w = (Except.ok false, w0) →
        injectContentScript host tabId w0 = (Except.error e, w1) →
        UnreachableOutcome (eventsSince w (handleAction host tabId menuId text w).2))
    ∧ (∀ w0 w1 e, PageVerified host tabId w w0 →
        (sendMessageToTab host tabId (Command.showLoading menuId text)) w0 =
          (Except.error e, w1) →
        UnreachableOutcome (eventsSince w (handleAction host tabId menuId text w).2))
    ∧ (∀ front ev back,
        eventsSince w (handleAction host tabId menuId text w).2 = front ++ ev :: back →
        ev.isJobOrResult = true →
        Event.tabsSendMessage tabId (Command.showLoading menuId text) true ∈ front) := by
  refine ⟨?_, ?_, ?_⟩
  · intro w0 w1 e h0 h1
    apply unreachableOutcome_of_announce_error host tabId menuId text w w1 e
    rw [announceLoading_run, h0]
    simp only
    rw [h1]
  · intro w0 w1 e hv hs
    apply unreachableOutcome_of_announce_error host tabId menuId text w w1 e
    rw [announceLoading_run]
    rcases hv with h0 | ⟨w', h0, h1⟩
    · rw [h0]
      exact hs
    · rw [h0]
      simp only
      rw [h1]
      exact hs
  · intro front ev back hsplit hev
    rcases ha : announceLoading host tabId menuId text w with ⟨e | resp, w1⟩
    · obtain ⟨evs, h1, h2⟩ := handleAction_of_announce_error host tabId menuId text w w1 e ha
      obtain ⟨_, _, _, q4⟩ := announce_events_quiet tabId menuId text evs h1
      have hmem : ev ∈ evs ++ [unreachableNotification] := by
        rw [← h2, hsplit]
        simp
      rcases List.mem_append.mp hmem with hm | hm
      · rw [q4 ev hm] at hev
        exact absurd hev (by decide)
      · have : ev = unreachableNotification := by simpa using hm
        rw [this] at hev
        exact absurd hev (by decide)
    · obtain ⟨evs, rest, h1, hd, _, h2⟩ :=
        handleAction_of_announce_ok host tabId menuId text w w1 resp ha
      obtain ⟨_, _, _, q4⟩ := announce_events_quiet tabId menuId text evs h1
      rw [h2] at hsplit
      refine mem_before_of_split evs rest front back _ ev hsplit ?_ hd
      intro hm
      rw [q4 ev hm] at hev
      exact absurd hev (by decide)

/-- C10 for a page that never answers and accepts the injection: the probe fails, the three
deliveries of `showLoading` fail, and the action ends with one notification and no job. -/
theorem handleAction_unreachable_page_witness :
    UnreachableOutcome (eventsSince World.initial
      (handleAction deafHost 7 "summarize" "Tea." World.initial).2) :=
  (handleAction_unreachable_page deafHost 7 "summarize" "Tea." World.initial).2.1
    ⟨none, [Event.tabsSendMessage 7 Command.ping false, Event.insertCSS 7,
      Event.executeScript 7, Event.setTimeout 200], 3⟩
    ⟨none, [Event.tabsSendMessage 7 Command.ping false, Event.insertCSS 7,
      Event.executeScript 7, Event.setTimeout 200]
      ++ failedDeliveries 7 (Command.showLoading "summarize" "Tea.") 3, 6⟩
    (newError "Could not establish connection. Receiving end does not exist.")
    (Or.inr ⟨⟨none, [Event.tabsSendMessage 7 Command.ping false], 1⟩, rfl, rfl⟩) rfl

/-- C11: when the `showLoading` command of a `translate` action was delivered and the page
answers the prompt, `handleAction` ends after sending, behind the `showLoading`, one
`promptForLanguage` command with the original text and the five targets `es`, `de`, `fr`, `it`,
`ja` (attempted `j + 1 ≤ 3` times, delivered once); it dispatches no job, sends no `showResult`
and creates no notification. No run of `handleAction`, whatever the kind, dispatches a job
with the action `translate`; every job the `doTranslate` request dispatches is the translate
job for its text with the target language the page reported, and it dispatches that job once
when the worker context is set up. -/
theorem handleAction_translate_prompts (host : Host) (tabId : Nat) (text : String)
    (w w1 w2 : World) (resp r : Option TabResponse)
    (hloading : announceLoading host tabId "translate" text w = (Except.ok resp, w1))
    (hprompt : (sendMessageToTab host tabId
        (Command.promptForLanguage SUPPORTED_TRANSLATION_TARGETS text)) w1 = (Except.ok r, w2)) :
    handleAction host tabId "translate" text w = (Except.ok (), w2)
    ∧ (∃ evsA evsP, eventsSince w w2 = evsA ++ evsP
        ∧ Event.tabsSendMessage tabId (Command.showLoading "translate" text) true ∈ evsA
        ∧ (commandsSent evsA).filter Command.isPrompt = []
        ∧ commandsDelivered evsP =
            [Command.promptForLanguage ["es", "de", "fr", "it", "ja"] text])
    ∧ (∃ j, j < 3 ∧ (commandsSent (eventsSince w w2)).filter Command.isPrompt =
        List.replicate (j + 1) (Command.promptForLanguage ["es", "de", "fr", "it", "ja"] text))
    ∧ (commandsDelivered (eventsSince w w2)).filter Command.isPrompt =
        [Command.promptForLanguage ["es", "de", "fr", "it", "ja"] text]
    ∧ dispatched (eventsSince w w2) = []
    ∧ (commandsSent (eventsSince w w2)).filter Command.isShowResult = []
    ∧ notifications (eventsSince w w2) = []
    ∧ (∀ (menuId : String) (w0 : World),
        ∀ job ∈ dispatched (eventsSince w0 (handleAction host tabId menuId text w0).2),
          job.action ≠ "translate")
    ∧ (∀ (targetLanguage : Option String) (detected : List String) (w0 : World),
        (∀ job ∈ dispatched
            (eventsSince w0 (doTranslate host tabId text targetLanguage detected w0).2),
          job = { action := "translate", text := text,
                  sourceLanguage := some (strOr detected.head? "en"),
                  targetLanguage := targetLanguage })
        ∧ (succeeded (setupOffscreenDocument host w0).1 = true →
            dispatched
              (eventsSince w0 (doTranslate host tabId text targetLanguage detected w0).2) =
              [{ action := "translate", text := text,
                 sourceLanguage := some (strOr detected.head? "en"),
                 targetLanguage := targetLanguage }])) := by
  have hjob := handleActionJob_translate host tabId text w1 w2 r hprompt
  obtain ⟨hdone, evsA, evsJ, hA, hshown, hw1, hw2, hev⟩ :=
    handleAction_job_ok host tabId "translate" text w w1 w2 resp hloading hjob
  obtain ⟨qA1, qA2, _, _⟩ := announce_events_quiet tabId "translate" text evsA hA
  obtain ⟨fA1, fA2, fA3, fA4⟩ := announce_no_result tabId "translate" text evsA hA
  obtain ⟨j, hj, hw2'⟩ := sendMessageToTab_ok_events host tabId _ w1 w2 r hprompt
  have hJ : evsJ = failedRounds tabId
      (Command.promptForLanguage SUPPORTED_TRANSLATION_TARGETS text) 0 j
      ++ [Event.tabsSendMessage tabId
        (Command.promptForLanguage SUPPORTED_TRANSLATION_TARGETS text) true] := by
    apply @List.append_cancel_left _ w1.trace
    rw [← hw2, hw2']
    simp only [List.append_assoc]
  have hprompts : commandsDelivered evsJ =
      [Command.promptForLanguage ["es", "de", "fr", "it", "ja"] text] := by
    rw [hJ, commandsDelivered_append, commandsDelivered_failedRounds]
    rfl
  refine ⟨hdone, ⟨evsA, evsJ, hev, hshown, fA3, hprompts⟩, ⟨j, hj, ?_⟩, ?_, ?_, ?_, ?_, ?_, ?_⟩
  · rw [hev, hJ]
    simp only [commandsSent_append, List.filter_append, fA3, commandsSent_failedRounds,
      List.nil_append]
    have h2 : commandsSent [Event.tabsSendMessage tabId
        (Command.promptForLanguage SUPPORTED_TRANSLATION_TARGETS text) true] =
        [Command.promptForLanguage SUPPORTED_TRANSLATION_TARGETS text] := rfl
    rw [h2, List.replicate_succ']
    simp [Command.isPrompt, SUPPORTED_TRANSLATION_TARGETS]
  · rw [hev, commandsDelivered_append, List.filter_append, fA4, hprompts]
    rfl
  · rw [hev, hJ]
    simp only [dispatched_append, qA1, dispatched_failedRounds, List.nil_append]
    rfl
  · rw [hev, hJ]
    simp only [commandsSent_append, List.filter_append, fA1, commandsSent_failedRounds,
      List.nil_append]
    have h2 : commandsSent [Event.tabsSendMessage tabId
        (Command.promptForLanguage SUPPORTED_TRANSLATION_TARGETS text) true] =
        [Command.promptForLanguage SUPPORTED_TRANSLATION_TARGETS text] := rfl
    rw [h2, ← List.filter_append, List.filter_eq_nil_iff]
    intro c hc
    rcases List.mem_append.mp hc with hc | hc
    · rw [List.eq_of_mem_replicate hc]
      simp [Command.isShowResult]
    · rw [List.mem_singleton.mp hc]
      simp [Command.isShowResult]
  · rw [hev, hJ]
    simp only [notifications_append, qA2, notifications_failedRounds, List.nil_append]
    rfl
  · intro menuId w0 job hjobmem
    obtain ⟨evs, h1, h2⟩ := emits_handleAction_noTranslate host tabId menuId text w0
    rw [eventsSince_append _ _ _ h1] at hjobmem
    simp only [dispatched, List.mem_filterMap] at hjobmem
    obtain ⟨ev, hev2, hm⟩ := hjobmem
    cases ev with
    | runtimeSendMessage data =>
      simp only [Option.some.injEq] at hm
      subst hm
      exact h2 _ hev2 _ rfl
    | _ => simp at hm
  · intro targetLanguage detected w0
    constructor
    · intro job hjobmem
      obtain ⟨evs, h1, h2⟩ := emits_doTranslate host tabId text targetLanguage detected w0
      rw [eventsSince_append _ _ _ h1] at hjobmem
      simp only [dispatched, List.mem_filterMap] at hjobmem
      obtain ⟨ev, hev2, hm⟩ := hjobmem
      cases ev with
      | runtimeSendMessage data =>
        simp only [Option.some.injEq] at hm
        subst hm
        exact h2 _ hev2 _ rfl
      | _ => simp at hm
    · intro hs
      rcases hsetup : setupOffscreenDocument host w0 with ⟨e | u, w0'⟩
      · rw [hsetup] at hs
        cases hs
      · exact doTranslate_dispatches host tabId text targetLanguage detected w0 w0' hsetup

/-- C11 for a page that answers at once: the action ends after the probe, the `showLoading`
and the prompt with the five targets, and no job is dispatched. -/
theorem handleAction_translate_prompts_witness :
    handleAction (workerHost (sampleAi "available")) 1 "translate" "Tea." World.initial =
      (Except.ok (),
        ⟨none, [Event.tabsSendMessage 1 Command.ping true,
          Event.tabsSendMessage 1 (Command.showLoading "translate" "Tea.") true,
          Event.tabsSendMessage 1
            (Command.promptForLanguage ["es", "de", "fr", "it", "ja"] "Tea.") true], 3⟩) :=
  (handleAction_translate_prompts (workerHost (sampleAi "available")) 1 "Tea."
    World.initial
    ⟨none, [Event.tabsSendMessage 1 Command.ping true,
      Event.tabsSendMessage 1 (Command.showLoading "translate" "Tea.") true], 2⟩
    ⟨none, [Event.tabsSendMessage 1 Command.ping true,
      Event.tabsSendMessage 1 (Command.showLoading "translate" "Tea.") true,
      Event.tabsSendMessage 1
        (Command.promptForLanguage ["es", "de", "fr", "it", "ja"] "Tea.") true], 3⟩
    (some ⟨some "shown"⟩) (some ⟨some "shown"⟩) rfl rfl).1

/-- C12, as stated, fails: a grammar result that is not an error and has `showDiff` false
schedules no auto-copy, though its kind is not `quiz` and it carries a corrected text. -/
theorem clean_grammar_schedules_no_copy :
    autoCopies cleanGrammarPage = []
    ∧ defaultCopyTarget "grammar" (JobResult.text "No errors found.") (some "Tea is ready.") =
        JobResult.text "Tea is ready." := by
  refine ⟨by decide, by decide⟩

/-- C12, amended: `showResultPanel` schedules exactly one auto-copy, of the default copy target
and after 500 ms, when the result is not an error, its kind is not `quiz`, it is not a grammar
result with `showDiff` false, and the target text is not empty; it schedules none when the
result is an error, when the kind is `quiz`, when it is a grammar result with `showDiff`
false, and when the target text is empty or missing. -/
theorem showResultPanel_auto_copy (actionType : String) (result : JobResult)
    (originalText correctedText : Option String) (showDiff isError : Option Bool) (p : Page) :
    (truthyFlag isError = false → actionType ≠ "quiz" →
        (actionType = "grammar" → truthyFlag showDiff = true) →
        truthyResult (defaultCopyTarget actionType result correctedText) = true →
      autoCopies (showResultPanel actionType result originalText correctedText showDiff
          isError p) =
        autoCopies p ++ [defaultCopyTarget actionType result correctedText]
      ∧ (AUTO_COPY_DELAY, Timer.autoCopy (defaultCopyTarget actionType result correctedText)) ∈
          (showResultPanel actionType result originalText correctedText showDiff
            isError p).timers)
    ∧ (truthyFlag isError = true ∨ actionType = "quiz"
        ∨ (actionType = "grammar" ∧ truthyFlag showDiff = false)
        ∨ truthyResult (defaultCopyTarget actionType result correctedText) = false →
      autoCopies (showResultPanel actionType result originalText correctedText showDiff
          isError p) = autoCopies p) := by
  have hq0 := autoCopies_removed p
  constructor
  · intro he hq hg ht
    have hcopies : autoCopies (showResultPanel actionType result originalText correctedText
        showDiff isError p) =
        autoCopies p ++ [defaultCopyTarget actionType result correctedText] := by
      rw [autoCopies_showResultPanel]
      by_cases hgr : actionType = "grammar"
      · subst hgr
        have ht2 : truthyResult (ofText correctedText) = true := by
          simpa [defaultCopyTarget] using ht
        rw [renderResult_diff _ _ _ _ _ _ he (hg rfl)]
        simp only
        rw [autoCopies_autoCopyText, hq0]
        simp [ht2, defaultCopyTarget]
      · have ht2 : truthyResult result = true := by
          simpa [defaultCopyTarget, hgr] using ht
        rw [renderResult_other _ _ _ _ _ _ _ he hgr]
        simp only
        rw [autoCopies_autoCopyText, hq0]
        simp [ht2, hq, defaultCopyTarget, hgr]
    refine ⟨hcopies, ?_⟩
    apply mem_timers_showResultPanel
    by_cases hgr : actionType = "grammar"
    · subst hgr
      have ht2 : truthyResult (ofText correctedText) = true := by
        simpa [defaultCopyTarget] using ht
      rw [renderResult_diff _ _ _ _ _ _ he (hg rfl)]
      simp only [defaultCopyTarget, if_true]
      exact mem_timers_autoCopyText _ _ _ hq ht2
    · have ht2 : truthyResult result = true := by
        simpa [defaultCopyTarget, hgr] using ht
      rw [renderResult_other _ _ _ _ _ _ _ he hgr]
      simp only [defaultCopyTarget, if_neg hgr]
      exact mem_timers_autoCopyText _ _ _ hq ht2
  · intro h
    rw [autoCopies_showResultPanel]
    rcases truthyFlag_cases isError with he | he
    · rw [renderResult_error _ _ _ _ _ _ _ he]
      simp only
      rw [autoCopies_showToast, hq0]
    · by_cases hgr : actionType = "grammar"
      · subst hgr
        rcases truthyFlag_cases showDiff with hd | hd
        · rw [renderResult_diff _ _ _ _ _ _ he hd]
          simp only
          rw [autoCopies_autoCopyText, hq0]
          rcases h with h | h | h | h
          · rw [he] at h; exact absurd h (by decide)
          · exact absurd h (by decide)
          · rw [hd] at h; exact absurd h.2 (by decide)
          · have h2 : truthyResult (ofText correctedText) = false := by
              simpa [defaultCopyTarget] using h
            simp [h2]
        · rw [renderResult_same _ _ _ _ _ _ he hd]
          exact hq0
      · rw [renderResult_other _ _ _ _ _ _ _ he hgr]
        simp only
        rw [autoCopies_autoCopyText, hq0]
        rcases h with h | h | h | h
        · rw [he] at h; exact absurd h (by decide)
        · simp [h]
        · exact absurd h.1 hgr
        · have h2 : truthyResult result = false := by
            simpa [defaultCopyTarget, hgr] using h
          simp [h2]

/-- C13: the one panel `showResultPanel` leaves renders the action bar with the copy button if
and only if the result is not an error and it is not a grammar result with `showDiff` false; an
error overlay renders none, and a grammar overlay with `showDiff` false renders none. -/
theorem showResultPanel_action_buttons (actionType : String) (result : JobResult)
    (originalText correctedText : Option String) (showDiff isError : Option Bool) (p : Page) :
    ∃ (n : Node) (view : ResultView),
      panels (showResultPanel actionType result originalText correctedText showDiff isError p)
        = [n]
      ∧ n.content = NodeContent.result view
      ∧ (view.showActionButtons = true ↔
          truthyFlag isError = false
            ∧ ¬ (actionType = "grammar" ∧ truthyFlag showDiff = false))
      ∧ (truthyFlag isError = true → view.showActionButtons = false)
      ∧ (actionType = "grammar" → truthyFlag showDiff = false →
          view.showActionButtons = false) := by
  obtain ⟨n, hpanels, _, hcontent⟩ := showResultPanel_view actionType result originalText
    correctedText showDiff isError p
  have hiff := renderResult_buttons actionType result originalText correctedText showDiff
    isError p
  refine ⟨n, _, hpanels, hcontent, hiff, ?_, ?_⟩
  · intro he
    rw [← Bool.not_eq_true, hiff]
    intro h
    rw [he] at h
    exact absurd h.1 (by decide)
  · intro hg hd
    rw [← Bool.not_eq_true, hiff]
    intro h
    exact h.2 ⟨hg, hd⟩

/-- C14: on a page whose identities are in order, a grammar result that is not an error and has
`showDiff` true is rendered with the diff view of the original and the corrected text and
without the disclosure of the original text, and a click on its copy button writes the
corrected text to the clipboard; a result of any other kind that is not an error is rendered
without a diff view, and a click on its copy button writes the result text. -/
theorem showResultPanel_copy_target (actionType : String) (result : JobResult)
    (originalText correctedText : Option String) (showDiff isError : Option Bool) (p : Page)
    (hfresh : Fresh p) (he : truthyFlag isError = false) :
    ∃ (n : Node) (view : ResultView),
      panels (showResultPanel actionType result originalText correctedText showDiff isError p)
        = [n]
      ∧ n.content = NodeContent.result view
      ∧ view.body = result
      ∧ (actionType = "grammar" → truthyFlag showDiff = true →
          view.diff = some (originalText, correctedText)
          ∧ view.textForActions = ofText correctedText
          ∧ view.original = none
          ∧ (onCopyClick n.ident true
              (showResultPanel actionType result originalText correctedText showDiff isError
                p)).clipboard = p.clipboard ++ [ofText correctedText])
      ∧ (actionType ≠ "grammar" →
          view.diff = none
          ∧ view.textForActions = result
          ∧ (onCopyClick n.ident true
              (showResultPanel actionType result originalText correctedText showDiff isError
                p)).clipboard = p.clipboard ++ [result]) := by
  obtain ⟨n, hpanels, hfind, hcontent, hclip⟩ := showResultPanel_find actionType result
    originalText correctedText showDiff isError p hfresh
  refine ⟨n, _, hpanels, hcontent,
    (renderResult_view actionType result originalText correctedText showDiff isError p).2,
    ?_, ?_⟩
  · intro hg hd
    subst hg
    have hview := renderResult_diff result originalText correctedText showDiff isError p he hd
    have hcopy := clipboard_onCopyClick n _ _ hfind hcontent (by rw [hview])
    rw [hclip] at hcopy
    rw [hcopy, hview]
    exact ⟨rfl, rfl, rfl, rfl⟩
  · intro hg
    have hview := renderResult_other actionType result originalText correctedText showDiff
      isError p he hg
    have hcopy := clipboard_onCopyClick n _ _ hfind hcontent (by rw [hview])
    rw [hclip] at hcopy
    rw [hcopy, hview]
    exact ⟨rfl, rfl, rfl⟩

/-- C14 for a grammar check of `Tea are ready.` shown on a page with one element of its own:
the copy button writes the corrected text, and for a summary it writes the summary. -/
theorem showResultPanel_copy_target_witness :
    Fresh samplePage ∧ truthyFlag (some false) = false
    ∧ ∃ (n : Node) (view : ResultView),
      panels (showResultPanel "grammar" (JobResult.text "Corrections found.")
          (some "Tea are ready.") (some "Tea is ready.") (some true) (some false) samplePage)
        = [n]
      ∧ n.content = NodeContent.result view
      ∧ view.body = JobResult.text "Corrections found."
      ∧ ("grammar" = "grammar" → truthyFlag (some true) = true →
          view.diff = some (some "Tea are ready.", some "Tea is ready.")
          ∧ view.textForActions = ofText (some "Tea is ready.")
          ∧ view.original = none
          ∧ (onCopyClick n.ident true
              (showResultPanel "grammar" (JobResult.text "Corrections found.")
                (some "Tea are ready.") (some "Tea is ready.") (some true) (some false)
                samplePage)).clipboard = samplePage.clipboard ++ [ofText (some "Tea is ready.")])
      ∧ ("grammar" ≠ "grammar" →
          view.diff = none
          ∧ view.textForActions = JobResult.text "Corrections found."
          ∧ (onCopyClick n.ident true
              (showResultPanel "grammar" (JobResult.text "Corrections found.")
                (some "Tea are ready.") (some "Tea is ready.") (some true) (some false)
                samplePage)).clipboard =
              samplePage.clipboard ++ [JobResult.text "Corrections found."]) :=
  ⟨by intro n hn; simp [samplePage] at hn; subst hn; decide, rfl,
    showResultPanel_copy_target "grammar" (JobResult.text "Corrections found.")
      (some "Tea are ready.") (some "Tea is ready.") (some true) (some false) samplePage
      (by intro n hn; simp [samplePage] at hn; subst hn; decide) rfl⟩

/-- C15, as stated, fails: the overlay of a failed summary renders the disclosure of the
original text under the error body, and so does the overlay of a grammar check that found
nothing to change under its message. -/
theorem error_overlay_shows_original :
    (panels failedSummaryPage).map (fun n => n.content) =
      [NodeContent.result
        { actionType := "summarize", errorBody := true,
          body := JobResult.text "⚠️ **AI Error:** no model", diff := none,
          textForActions := JobResult.text "⚠️ **AI Error:** no model",
          showActionButtons := false, original := some "Tea is ready." }]
    ∧ (panels cleanGrammarPage).map (fun n => n.content) =
      [NodeContent.result
        { actionType := "grammar", errorBody := false,
          body := JobResult.text "No errors found.", diff := none,
          textForActions := JobResult.text "No errors found.",
          showActionButtons := false, original := some "Tea is ready." }] := by
  refine ⟨by decide, by decide⟩

/-- C15, amended: the one panel `showResultPanel` leaves renders the disclosure of the original
text exactly when the command carries a non-empty original text and the result is not a grammar
result with `showDiff` true that is no error, and the disclosure then shows that original
text; so an error overlay and a grammar overlay without differences render it whenever the
command carries an original text, and only the diff view goes without it. -/
theorem showResultPanel_original_disclosure (actionType : String) (result : JobResult)
    (originalText correctedText : Option String) (showDiff isError : Option Bool) (p : Page) :
    ∃ (n : Node) (view : ResultView),
      panels (showResultPanel actionType result originalText correctedText showDiff isError p)
        = [n]
      ∧ n.content = NodeContent.result view
      ∧ (view.original ≠ none ↔
          truthyText originalText = true
            ∧ ¬ (truthyFlag isError = false ∧ actionType = "grammar"
                  ∧ truthyFlag showDiff = true))
      ∧ (view.original ≠ none → view.original = originalText)
      ∧ (truthyFlag isError = true → truthyText originalText = true →
          view.original = originalText)
      ∧ (actionType = "grammar" → truthyFlag showDiff = false →
          truthyText originalText = true → view.original = originalText) := by
  obtain ⟨n, hpanels, _, hcontent⟩ := showResultPanel_view actionType result originalText
    correctedText showDiff isError p
  have horig := renderResult_original actionType result originalText correctedText showDiff
    isError p
  refine ⟨n, _, hpanels, hcontent, ?_, ?_, ?_, ?_⟩
  · rw [horig]
    constructor
    · intro h
      by_contra hc
      rw [if_neg hc] at h
      exact h rfl
    · intro h
      rw [if_pos h]
      intro hnone
      rw [hnone] at h
      exact absurd h.1 (by decide)
  · rw [horig]
    intro h
    by_cases hc : truthyText originalText = true
        ∧ ¬ (truthyFlag isError = false ∧ actionType = "grammar" ∧ truthyFlag showDiff = true)
    · rw [if_pos hc]
    · rw [if_neg hc] at h
      exact absurd rfl h
  · intro he ht
    rw [horig, if_pos ⟨ht, fun h => by rw [he] at h; exact absurd h.1 (by decide)⟩]
  · intro hg hd ht
    rw [horig, if_pos ⟨ht, fun h => by rw [hd] at h; exact absurd h.2.2 (by decide)⟩]

/-- C16: when the `showLoading` command of a `grammar` action was delivered, the worker
returns the structured result `g` and the page answers, `handleAction` sends one `showResult`
command (attempted `j + 1 ≤ 3` times, delivered once) with `result = g.message`,
`originalText = g.original`, `correctedText = g.corrected`, `showDiff = g.hasChanges` and
`isError = false`; so for a `g` with `hasChanges = (original ≠ corrected)` the command's
`showDiff` is true if and only if its `originalText` differs from its `correctedText`. -/
theorem handleAction_grammar_result (host : Host) (tabId : Nat) (text : String)
    (w w1 w2 w3 : World) (resp r : Option TabResponse) (g : GrammarResult)
    (hloading : announceLoading host tabId "grammar" text w = (Except.ok resp, w1))
    (hjob : sendToOffscreen host { action := "grammar", text := text } w1 =
      (Except.ok (JobResult.grammar g), w2))
    (hsend : (sendMessageToTab host tabId
        (Command.showResult "grammar" (JobResult.text g.message) (some g.original)
          (some g.corrected) (some g.hasChanges) (some false))) w2 = (Except.ok r, w3)) :
    handleAction host tabId "grammar" text w = (Except.ok (), w3)
    ∧ grammarCommand "grammar" (JobResult.grammar g) =
        Except.ok (Command.showResult "grammar" (JobResult.text g.message) (some g.original)
          (some g.corrected) (some g.hasChanges) (some false))
    ∧ (∃ j, j < 3 ∧ (commandsSent (eventsSince w w3)).filter Command.isShowResult =
        List.replicate (j + 1)
          (Command.showResult "grammar" (JobResult.text g.message) (some g.original)
            (some g.corrected) (some g.hasChanges) (some false)))
    ∧ (commandsDelivered (eventsSince w w3)).filter Command.isShowResult =
        [Command.showResult "grammar" (JobResult.text g.message) (some g.original)
          (some g.corrected) (some g.hasChanges) (some false)]
    ∧ dispatched (eventsSince w w3) = [{ action := "grammar", text := text }]
    ∧ notifications (eventsSince w w3) = []
    ∧ (g.hasChanges = decide (g.original ≠ g.corrected) →
        ∀ (type : String) (result : JobResult) (originalText correctedText : Option String)
          (showDiff isError : Option Bool),
          grammarCommand "grammar" (JobResult.grammar g) =
            Except.ok (Command.showResult type result originalText correctedText showDiff
              isError) →
          (showDiff = some true ↔ originalText ≠ correctedText)) := by
  have hrun := handleActionJob_grammar host tabId text w1 w2 w3 g r hjob hsend
  obtain ⟨h1, h2, h3, h4, h5⟩ := handleAction_result_delivered host tabId "grammar" text
    w w1 w2 w3 resp r _ _ _ hloading hjob hsend hrun rfl
  refine ⟨h1, rfl, h3, h4, h2, h5, ?_⟩
  intro hinv type result originalText correctedText showDiff isError hcmd
  simp only [grammarCommand, Except.ok.injEq, Command.showResult.injEq] at hcmd
  obtain ⟨_, _, ho, hc, hd, _⟩ := hcmd
  rw [← ho, ← hc, ← hd, hinv]
  simp

/-- C16 for a worker that answers the grammar job for `Tea are ready.` with a structured
result that has changes: the page is sent the message, both texts and `showDiff = true`. -/
theorem handleAction_grammar_result_witness :
    (commandsDelivered (eventsSince World.initial
        (⟨none, [Event.tabsSendMessage 1 Command.ping true,
          Event.tabsSendMessage 1 (Command.showLoading "grammar" "Tea are ready.") true,
          Event.getContexts, Event.createDocument,
          Event.runtimeSendMessage { action := "grammar", text := "Tea are ready." },
          Event.tabsSendMessage 1
            (Command.showResult "grammar" (JobResult.text "Corrections found.")
              (some "Tea are ready.") (some "Tea is ready.") (some true) (some false)) true],
          6⟩ : World))).filter Command.isShowResult =
      [Command.showResult "grammar" (JobResult.text teaGrammar.message)
        (some teaGrammar.original) (some teaGrammar.corrected) (some teaGrammar.hasChanges)
        (some false)] :=
  (handleAction_grammar_result (grammarHost teaGrammar) 1 "Tea are ready." World.initial
    ⟨none, [Event.tabsSendMessage 1 Command.ping true,
      Event.tabsSendMessage 1 (Command.showLoading "grammar" "Tea are ready.") true], 2⟩
    ⟨none, [Event.tabsSendMessage 1 Command.ping true,
      Event.tabsSendMessage 1 (Command.showLoading "grammar" "Tea are ready.") true,
      Event.getContexts, Event.createDocument,
      Event.runtimeSendMessage { action := "grammar", text := "Tea are ready." }], 5⟩
    ⟨none, [Event.tabsSendMessage 1 Command.ping true,
      Event.tabsSendMessage 1 (Command.showLoading "grammar" "Tea are ready.") true,
      Event.getContexts, Event.createDocument,
      Event.runtimeSendMessage { action := "grammar", text := "Tea are ready." },
      Event.tabsSendMessage 1
        (Command.showResult "grammar" (JobResult.text "Corrections found.")
          (some "Tea are ready.") (some "Tea is ready.") (some true) (some false)) true], 6⟩
    (some ⟨some "shown"⟩) (some ⟨some "shown"⟩) teaGrammar rfl rfl rfl).2.2.2.1

/-- C17: for a kind in the table of `handleAction`, whose entries are `summarize`, `eli5` and
`quiz` with the kind as action and no mode, and `rewrite-simpler`, `rewrite-formal` and
`rewrite-casual` with the action `rewrite` and the mode `simpler`, `formal` and `casual`: when
the `showLoading` command was delivered, the job returns and the page answers, `handleAction`
dispatches the one job `{action, mode, text}` and sends one `showResult` command (attempted
`j + 1 ≤ 3` times, delivered once) with the job's result and `originalText = text`. A kind
outside the table, other than `grammar` and `translate`, dispatches no job and its job part
fails with `Unknown action for AI processing`. -/
theorem handleAction_dispatches_job (host : Host) (tabId : Nat) (menuId text action : String)
    (mode : Option String) (w w1 w2 w3 : World) (resp r : Option TabResponse)
    (result : JobResult)
    (htable : offscreenJobFor menuId = some (action, mode))
    (hloading : announceLoading host tabId menuId text w = (Except.ok resp, w1))
    (hjob : sendToOffscreen host { action := action, mode := mode, text := text } w1 =
      (Except.ok result, w2))
    (hsend : (sendMessageToTab host tabId
        (Command.showResult menuId result (some text) none none none)) w2 = (Except.ok r, w3)) :
    handleAction host tabId menuId text w = (Except.ok (), w3)
    ∧ dispatched (eventsSince w w3) = [{ action := action, mode := mode, text := text }]
    ∧ (∃ j, j < 3 ∧ (commandsSent (eventsSince w w3)).filter Command.isShowResult =
        List.replicate (j + 1) (Command.showResult menuId result (some text) none none none))
    ∧ (commandsDelivered (eventsSince w w3)).filter Command.isShowResult =
        [Command.showResult menuId result (some text) none none none]
    ∧ notifications (eventsSince w w3) = []
    ∧ offscreenJobFor "summarize" = some ("summarize", none)
    ∧ offscreenJobFor "eli5" = some ("eli5", none)
    ∧ offscreenJobFor "quiz" = some ("quiz", none)
    ∧ offscreenJobFor "rewrite-simpler" = some ("rewrite", some "simpler")
    ∧ offscreenJobFor "rewrite-formal" = some ("rewrite", some "formal")
    ∧ offscreenJobFor "rewrite-casual" = some ("rewrite", some "casual")
    ∧ (∀ kind : String, kind ≠ "grammar" → kind ≠ "translate" →
        kind ≠ "summarize" → kind ≠ "eli5" → kind ≠ "quiz" →
        kind ≠ "rewrite-simpler" → kind ≠ "rewrite-formal" → kind ≠ "rewrite-casual" →
        ∀ w0 : World,
          handleActionJob host tabId kind text w0 =
            (Except.error (newError "Unknown action for AI processing"), w0)
          ∧ dispatched (eventsSince w0 (handleAction host tabId kind text w0).2) = []) := by
  have hrun := handleActionJob_table host tabId menuId text action mode w1 w2 w3 result r
    htable hjob hsend
  obtain ⟨h1, h2, h3, h4, h5⟩ := handleAction_result_delivered host tabId menuId text
    w w1 w2 w3 resp r _ _ _ hloading hjob hsend hrun rfl
  refine ⟨h1, h2, h3, h4, h5, by decide, by decide, by decide, by decide, by decide,
    by decide, ?_⟩
  intro kind hg ht k1 k2 k3 k4 k5 k6 w0
  exact handleAction_unknown_kind host tabId kind text hg ht
    (offscreenJobFor_none kind k1 k2 k3 k4 k5 k6) w0

/-- C17 for a summary of `Tea.` with a working worker and a page that answers: the job
`{action: summarize, text}` is the only one dispatched. -/
theorem handleAction_dispatches_job_witness :
    dispatched (eventsSince World.initial
      (⟨none, [Event.tabsSendMessage 1 Command.ping true,
        Event.tabsSendMessage 1 (Command.showLoading "summarize" "Tea.") true,
        Event.getContexts, Event.createDocument,
        Event.runtimeSendMessage { action := "summarize", text := "Tea." },
        Event.tabsSendMessage 1
          (Command.showResult "summarize"
            (JobResult.text "📝 **Summary**\n\nKey points of: Tea.") (some "Tea.")
            none none none) true], 6⟩ : World)) =
      [{ action := "summarize", mode := none, text := "Tea." }] :=
  (handleAction_dispatches_job (workerHost (sampleAi "available")) 1 "summarize" "Tea."
    "summarize" none World.initial
    ⟨none, [Event.tabsSendMessage 1 Command.ping true,
      Event.tabsSendMessage 1 (Command.showLoading "summarize" "Tea.") true], 2⟩
    ⟨none, [Event.tabsSendMessage 1 Command.ping true,
      Event.tabsSendMessage 1 (Command.showLoading "summarize" "Tea.") true,
      Event.getContexts, Event.createDocument,
      Event.runtimeSendMessage { action := "summarize", text := "Tea." }], 5⟩
    ⟨none, [Event.tabsSendMessage 1 Command.ping true,
      Event.tabsSendMessage 1 (Command.showLoading "summarize" "Tea.") true,
      Event.getContexts, Event.createDocument,
      Event.runtimeSendMessage { action := "summarize", text := "Tea." },
      Event.tabsSendMessage 1
        (Command.showResult "summarize"
          (JobResult.text "📝 **Summary**\n\nKey points of: Tea.") (some "Tea.")
          none none none) true], 6⟩
    (some ⟨some "shown"⟩) (some ⟨some "shown"⟩)
    (JobResult.text "📝 **Summary**\n\nKey points of: Tea.") rfl rfl rfl rfl).2.1

/-- C18, as stated, fails in its last part: for a selection whose bottom edge is 50 px above
the top of a 700 px high viewport that is not scrolled, the position 10 px below the selection
is -40 px, a 200 px high overlay there does not overflow the viewport bottom, and yet the top
offset finally assigned is 10 px. -/
theorem selection_above_viewport_raised :
    ∃ a, (positionPanel (some aboveRange) plainWindow).2 = some a
      ∧ a.top = aboveRange.boundingClientRect.bottom + plainWindow.scrollY + 10
      ∧ a.top = -40
      ∧ a.top + panelBox.height ≤ plainWindow.innerHeight + plainWindow.scrollY - 20
      ∧ (positionCallback a plainWindow panelBox).2 = 10 := by
  refine ⟨⟨aboveRange.boundingClientRect,
    aboveRange.boundingClientRect.bottom + plainWindow.scrollY + 10,
    aboveRange.boundingClientRect.left + plainWindow.scrollX⟩, ?_, rfl, ?_, ?_, ?_⟩
  · simp [positionPanel, aboveRange]
  · norm_num [aboveRange, plainWindow]
  · norm_num [aboveRange, plainWindow, panelBox]
  · norm_num [positionCallback, aboveRange, plainWindow, panelBox]

/-- C18, amended: for a selection-anchored overlay of measured height `H`, with `T0 =
rect.bottom + sY + 10` computed when the overlay is shown and the window read again by the
delayed correction, the top offset `T` finally assigned is `T0` if `T0 + H ≤ VH + sY - 20` and
the flipped position `rect.top + sY - H - 10` otherwise, raised to `sY + 10` if it is smaller;
so `T ≥ sY + 10` always, and the overlay is placed 10 px below the selection when that does
not overflow the viewport bottom and `T0` is not less than `sY + 10`, which for an unchanged
scroll offset means that the selection's bottom edge is not above the top of the viewport. -/
theorem positionPanel_top (range : SelRange) (shown now : Viewport) (panelRect : DOMRect)
    (hrange : 0 < range.clientRects) :
    ∃ a, (positionPanel (some range) shown).2 = some a
      ∧ (positionPanel (some range) shown).1.top = some a.top
      ∧ a.top = range.boundingClientRect.bottom + shown.scrollY + 10
      ∧ (positionCallback a now panelRect).2 =
          max (if a.top + panelRect.height ≤ now.innerHeight + now.scrollY - 20 then a.top
            else range.boundingClientRect.top + now.scrollY - panelRect.height - 10)
            (now.scrollY + 10)
      ∧ now.scrollY + 10 ≤ (positionCallback a now panelRect).2
      ∧ (a.top + panelRect.height ≤ now.innerHeight + now.scrollY - 20 →
          now.scrollY + 10 ≤ a.top → (positionCallback a now panelRect).2 = a.top)
      ∧ (now.scrollY = shown.scrollY →
          (now.scrollY + 10 ≤ a.top ↔ 0 ≤ range.boundingClientRect.bottom)) := by
  refine ⟨⟨range.boundingClientRect, range.boundingClientRect.bottom + shown.scrollY + 10,
    range.boundingClientRect.left + shown.scrollX⟩, ?_, ?_, rfl, ?_, ?_, ?_, ?_⟩
  · simp [positionPanel, hrange]
  · simp [positionPanel, hrange]
  · simp only [positionCallback]
    by_cases h : range.boundingClientRect.bottom + shown.scrollY + 10 + panelRect.height ≤
        now.innerHeight + now.scrollY - 20
    · rw [if_pos h, if_neg (not_lt.mpr h)]
      by_cases h2 : range.boundingClientRect.bottom + shown.scrollY + 10 < now.scrollY + 10
      · rw [if_pos h2, max_eq_right (le_of_lt h2)]
      · rw [if_neg h2, max_eq_left (not_lt.mp h2)]
    · rw [if_neg h, if_pos (not_le.mp h)]
      by_cases h2 : range.boundingClientRect.top + now.scrollY - panelRect.height - 10 <
          now.scrollY + 10
      · rw [if_pos h2, max_eq_right (le_of_lt h2)]
      · rw [if_neg h2, max_eq_left (not_lt.mp h2)]
  · simp only [positionCallback]
    split_ifs <;> linarith
  · intro h h2
    simp only [positionCallback]
    rw [if_neg (not_lt.mpr h), if_neg (not_lt.mpr h2)]
  · intro hs
    simp only []
    rw [hs]
    constructor <;> intro h <;> linarith

/-- C18, amended, for a selection whose bottom edge is at 60 px in a 700 px high window and a
200 px high overlay: the overlay stays 10 px below the selection, at 70 px. -/
theorem positionPanel_top_witness :
    0 < edgeRange.clientRects
    ∧ ∃ a, (positionPanel (some edgeRange) plainWindow).2 = some a
      ∧ (positionPanel (some edgeRange) plainWindow).1.top = some a.top
      ∧ a.top = edgeRange.boundingClientRect.bottom + plainWindow.scrollY + 10
      ∧ (positionCallback a plainWindow panelBox).2 =
          max (if a.top + panelBox.height ≤ plainWindow.innerHeight + plainWindow.scrollY - 20
            then a.top
            else edgeRange.boundingClientRect.top + plainWindow.scrollY - panelBox.height - 10)
            (plainWindow.scrollY + 10)
      ∧ plainWindow.scrollY + 10 ≤ (positionCallback a plainWindow panelBox).2
      ∧ (a.top + panelBox.height ≤ plainWindow.innerHeight + plainWindow.scrollY - 20 →
          plainWindow.scrollY + 10 ≤ a.top → (positionCallback a plainWindow panelBox).2 = a.top)
      ∧ (plainWindow.scrollY = plainWindow.scrollY →
          (plainWindow.scrollY + 10 ≤ a.top ↔ 0 ≤ edgeRange.boundingClientRect.bottom)) :=
  ⟨by decide, positionPanel_top edgeRange plainWindow plainWindow panelBox (by decide)⟩

/-- C19: the page starts with id and class `textgenius-panel` in agreement (as on a page that
uses neither), and after any sequence of operations it shows the overlay `panel`. Then
pressing Escape removes the overlay; a click outside the overlay removes it if and only if the
selection is empty (no range, or a collapsed range) and changes nothing when a non-collapsed
range is selected; and the document's click listener changes nothing for a click on or inside
the overlay. -/
theorem overlay_dismissal (p0 : Page) (ops : List PageOp) (panel : Node)
    (htagged : Tagged p0) (hpanel : panels (p0.run ops) = [panel]) :
    panels ((p0.run ops).step (PageOp.keydown "Escape")) = []
    ∧ (∀ target : ClickTarget, target.owner ≠ some panel.ident →
        (panels (onDocumentClick target (p0.run ops)) = [] ↔
          ((p0.run ops).selection = none
            ∨ ∃ range, (p0.run ops).selection = some range ∧ range.collapsed = true))
        ∧ (∀ range, (p0.run ops).selection = some range → range.collapsed = false →
            onDocumentClick target (p0.run ops) = p0.run ops))
    ∧ (∀ target : ClickTarget, target.owner = some panel.ident →
        onDocumentClick target (p0.run ops) = p0.run ops) := by
  have hget : getPanelById (p0.run ops) = some panel := by
    rw [getPanelById_eq _ (tagged_run p0 ops htagged), hpanel]
    rfl
  have hgone := panels_removeNode_only _ _ hpanel
  refine ⟨?_, ?_, ?_⟩
  · show panels (onKeydown "Escape" (p0.run ops)) = []
    unfold onKeydown
    rw [if_pos rfl, hget]
    exact hgone
  · intro target houtside
    have hclick : onDocumentClick target (p0.run ops) =
        match (p0.run ops).selection with
        | some range => if range.collapsed then removeNode panel.ident (p0.run ops)
            else p0.run ops
        | none => removeNode panel.ident (p0.run ops) := by
      unfold onDocumentClick
      rw [hget]
      simp only
      rw [if_pos houtside]
    rcases hsel : (p0.run ops).selection with _ | range
    · have hremoved : onDocumentClick target (p0.run ops) =
          removeNode panel.ident (p0.run ops) := by
        rw [hclick, hsel]
      rw [hremoved]
      exact ⟨⟨fun _ => Or.inl rfl, fun _ => hgone⟩, fun range h => by cases h⟩
    · cases hc : range.collapsed with
      | true =>
        have hremoved : onDocumentClick target (p0.run ops) =
            removeNode panel.ident (p0.run ops) := by
          rw [hclick, hsel]
          simp only [hc, if_true]
        rw [hremoved]
        refine ⟨⟨fun _ => Or.inr ⟨range, rfl, hc⟩, fun _ => hgone⟩, ?_⟩
        intro r hr hr2
        cases hr
        rw [hc] at hr2
        cases hr2
      | false =>
        have hkept : onDocumentClick target (p0.run ops) = p0.run ops := by
          rw [hclick, hsel]
          simp only [hc]
          rfl
        rw [hkept]
        refine ⟨⟨?_, ?_⟩, fun _ _ _ => rfl⟩
        · intro h
          rw [hpanel] at h
          cases h
        · intro h
          rcases h with h | ⟨r, hr, hr2⟩
          · cases h
          · cases hr
            rw [hc] at hr2
            cases hr2
  · intro target hinside
    unfold onDocumentClick
    rw [hget]
    simp only
    rw [if_neg (fun h => h hinside)]

/-- C19 for the loading overlay on a page with one element of its own and no selection: Escape
removes it, and so does a click elsewhere on the page. -/
theorem overlay_dismissal_witness :
    Tagged samplePage
    ∧ ∃ panel : Node,
      panels (samplePage.run [PageOp.receive (Command.showLoading "summarize" "Tea.")])
        = [panel]
      ∧ panels ((samplePage.run [PageOp.receive (Command.showLoading "summarize" "Tea.")]).step
          (PageOp.keydown "Escape")) = []
      ∧ (∀ target : ClickTarget, target.owner ≠ some panel.ident →
          (panels (onDocumentClick target
              (samplePage.run [PageOp.receive (Command.showLoading "summarize" "Tea.")])) = [] ↔
            ((samplePage.run
                [PageOp.receive (Command.showLoading "summarize" "Tea.")]).selection = none
              ∨ ∃ range, (samplePage.run
                  [PageOp.receive (Command.showLoading "summarize" "Tea.")]).selection
                    = some range ∧ range.collapsed = true))
          ∧ (∀ range, (samplePage.run
                [PageOp.receive (Command.showLoading "summarize" "Tea.")]).selection
                  = some range → range.collapsed = false →
              onDocumentClick target
                (samplePage.run [PageOp.receive (Command.showLoading "summarize" "Tea.")]) =
              samplePage.run [PageOp.receive (Command.showLoading "summarize" "Tea.")]))
      ∧ (∀ target : ClickTarget, target.owner = some panel.ident →
          onDocumentClick target
            (samplePage.run [PageOp.receive (Command.showLoading "summarize" "Tea.")]) =
          samplePage.run [PageOp.receive (Command.showLoading "summarize" "Tea.")]) :=
  have htagged : Tagged samplePage := by
    intro n hn
    have h : n = _ := List.mem_singleton.mp hn
    rw [h]
    decide
  ⟨htagged, _, panels_showLoadingPanel "summarize" "Tea." samplePage,
    overlay_dismissal samplePage [PageOp.receive (Command.showLoading "summarize" "Tea.")] _
      htagged (panels_showLoadingPanel "summarize" "Tea." samplePage)⟩

/-- C20: when the focused element is a text input or a text area that is not content-editable,
with value `v` and the selection from `start` to `stop`, `start` within `v`, then
`replaceSelectedText(newText)` returns true, sets the value to the part of `v` before `start`,
then `newText`, then the part of `v` from `stop` on, and puts both ends of the selection at
`start + length(newText)`; and when no element is focused, or the focused element is neither a
`TEXTAREA` nor an `INPUT` nor content-editable, it returns false and leaves everything as it
was. -/
theorem replaceSelectedText_input (newText : JsString) (d : Editing) :
    (∀ (el : ActiveElement) (start stop : Nat),
        d.activeElement = some el →
        el.tagName = "TEXTAREA" ∨ el.tagName = "INPUT" →
        el.isContentEditable = false →
        el.selection = some (start, stop) →
        start ≤ el.value.length →
      (replaceSelectedText newText d).1 = true
      ∧ ∃ edited : ActiveElement,
          (replaceSelectedText newText d).2 = { d with activeElement := some edited }
          ∧ edited.value = el.value.take start ++ newText ++ el.value.drop stop
          ∧ edited.selection = some (start + newText.length, start + newText.length)
          ∧ edited.tagName = el.tagName)
    ∧ (d.activeElement = none
        ∨ (∃ el, d.activeElement = some el ∧ el.tagName ≠ "TEXTAREA" ∧ el.tagName ≠ "INPUT"
            ∧ el.isContentEditable = false) →
      replaceSelectedText newText d = (false, d)) := by
  constructor
  · intro el start stop hactive htag hplain hsel hstart
    have htag2 : el.tagName = "TEXTAREA" ∨ el.tagName = "INPUT" ∨ el.isContentEditable = true :=
      htag.elim Or.inl (fun h => Or.inr (Or.inl h))
    have hrun : replaceSelectedText newText d =
        (true, { d with activeElement := some { el with
            value := substring el.value 0 start ++ newText ++ substringFrom el.value stop,
            selection := some
              (min (start + newText.length)
                (substring el.value 0 start ++ newText ++ substringFrom el.value stop).length,
               min (start + newText.length)
                (substring el.value 0 start ++ newText ++ substringFrom el.value stop).length),
            events := el.events ++ ["input", "change"] } }) := by
      unfold replaceSelectedText
      rw [hactive]
      simp only
      rw [if_pos htag2, hplain, hsel]
      rfl
    rw [hrun]
    refine ⟨rfl, _, rfl, ?_, ?_, rfl⟩
    · simp only [substring_zero, substringFrom_eq]
    · simp only [substring_zero, substringFrom_eq]
      have hlen : start + newText.length ≤
          (List.take start el.value ++ newText ++ List.drop stop el.value).length := by
        simp only [List.length_append, List.length_take, List.length_drop]
        rw [Nat.min_eq_left hstart]
        omega
      rw [Nat.min_eq_left hlen]
  · intro h
    unfold replaceSelectedText
    rcases h with h | ⟨el, h, h1, h2, h3⟩
    · rw [h]
    · rw [h]
      simp only
      rw [if_neg]
      intro hc
      rcases hc with hc | hc | hc
      · exact h1 hc
      · exact h2 hc
      · rw [h3] at hc
        exact absurd hc (by decide)

/-- C20 for the text area holding `Tea are ready.` with `are` selected and the new text `is`:
the value becomes `Tea is ready.` and the cursor stands behind `is`, at 6. -/
theorem replaceSelectedText_input_witness :
    (replaceSelectedText [105, 115] teaArea).1 = true
    ∧ ∃ edited : ActiveElement,
        (replaceSelectedText [105, 115] teaArea).2 =
          { teaArea with activeElement := some edited }
        ∧ edited.value =
            [84, 101, 97, 32, 105, 115, 32, 114, 101, 97, 100, 121, 46]
        ∧ edited.selection = some (6, 6)
        ∧ edited.tagName = "TEXTAREA" :=
  (replaceSelectedText_input [105, 115] teaArea).1
    { tagName := "TEXTAREA", isContentEditable := false, selection := some (4, 7),
      value := [84, 101, 97, 32, 97, 114, 101, 32, 114, 101, 97, 100, 121, 46] }
    4 7 rfl (Or.inl rfl) rfl rfl (by decide)

/-- C21, evaluated on the code: in a focused content-editable element, with a range in the
window's selection, `replaceSelectedText` puts the new text in the place of the range's
contents and returns true, and that is all it does. The element is left with the events it
had: neither `input` nor `change` is dispatched on it, which the branch for text inputs and
text areas of the same function does. The range is left holding the inserted text: the cursor
is not put behind it, which that branch does too. -/
theorem replaceSelectedText_contentEditable (newText : JsString) (d : Editing)
    (el : ActiveElement) (range : EditRange) (hactive : d.activeElement = some el)
    (heditable : el.isContentEditable = true) (hrange : d.range = some range) :
    replaceSelectedText newText d
        = (true, { d with range := some { range with selected := newText } })
    ∧ (replaceSelectedText newText d).2.activeElement = some el
    ∧ ∀ edited, (replaceSelectedText newText d).2.activeElement = some edited →
        edited.events = el.events := by
  have hrun : replaceSelectedText newText d
      = (true, { d with range := some { range with selected := newText } }) := by
    unfold replaceSelectedText
    rw [hactive]
    simp only
    rw [if_pos (Or.inr (Or.inr heditable)), heditable, hrange]
    rfl
  rw [hrun]
  refine ⟨rfl, hactive, ?_⟩
  intro edited hedited
  have h : some el = some edited := hactive.symm.trans hedited
  rw [← Option.some.inj h]

/-- C21 for the content-editable region holding `Tea are ready.` with `are` selected and the
new text `is`: the call returns true, the range holds `is`, and no event was dispatched. -/
theorem replaceSelectedText_contentEditable_witness :
    replaceSelectedText [105, 115] teaRegion =
      (true,
        { activeElement := some
            { tagName := "DIV", isContentEditable := true, selection := none, value := [],
              events := [] },
          range := some
            { before := [84, 101, 97, 32], selected := [105, 115],
              after := [32, 114, 101, 97, 100, 121, 46] } }) :=
  (replaceSelectedText_contentEditable [105, 115] teaRegion
    { tagName := "DIV", isContentEditable := true, selection := none, value := [] }
    { before := [84, 101, 97, 32], selected := [97, 114, 101],
      after := [32, 114, 101, 97, 100, 121, 46] } rfl rfl rfl).1

/-- C22: for a list of language codes (of letters, digits and hyphens) and an original text,
the markup `showLanguageSelector` writes holds one button per code, in list order, whose
`data-lang` attribute reads back as the code. On a page whose identities are in order, the
button number `index` of the selector can be clicked exactly when the list has a code at
`index`; the click sends one `doTranslate` message with the original text and that code, none
was sent before it by the selector, and the page then shows the loading panel of the kind
`translate` for the original text as its one overlay. -/
theorem languageSelector_buttons (toUpperCase : String → String) (languages : List String)
    (originalText : String) (p : Page) (hfresh : Fresh p)
    (hcodes : ∀ code ∈ languages, isLanguageCode code = true) :
    languageButtonsHTML toUpperCase languages =
        String.join (languages.map (langButtonHTML toUpperCase))
    ∧ (languages.map (langButtonHTML toUpperCase)).map readDataLang = languages.map some
    ∧ ∃ n : Node,
        panels (showLanguageSelector languages originalText p) = [n]
        ∧ n.content = NodeContent.languageSelector languages originalText
        ∧ (showLanguageSelector languages originalText p).sent = p.sent
        ∧ (∀ index : Nat,
            clickable (ClickTarget.langButton n.ident index)
                (showLanguageSelector languages originalText p) = true ↔
              index < languages.length)
        ∧ (∀ (index : Nat) (code : String), languages.get? index = some code →
            ((showLanguageSelector languages originalText p).step
                (PageOp.click (ClickTarget.langButton n.ident index))).sent =
              p.sent ++ [(originalText, code)]
            ∧ ∃ m : Node,
                panels ((showLanguageSelector languages originalText p).step
                  (PageOp.click (ClickTarget.langButton n.ident index))) = [m]
                ∧ m.content = NodeContent.loading "translate" originalText) := by
  refine ⟨rfl, ?_, ?_⟩
  · rw [List.map_map]
    apply List.map_congr_left
    intro code hcode
    exact readDataLang_button toUpperCase code (hcodes code hcode)
  · obtain ⟨n, hpanels, hfind, hcontent, hsent⟩ :=
      showLanguageSelector_find languages originalText p hfresh
    have hclickable : ∀ index : Nat,
        clickable (ClickTarget.langButton n.ident index)
            (showLanguageSelector languages originalText p) = true ↔
          index < languages.length := by
      intro index
      unfold clickable
      simp only
      rw [hfind]
      simp only
      rw [hcontent]
      simp [NodeContent.hasLangButton]
    refine ⟨n, hpanels, hcontent, hsent, hclickable, ?_⟩
    intro index code hget
    have hlt : index < languages.length := by
      rw [List.get?_eq_some] at hget
      exact hget.1
    have hstep : (showLanguageSelector languages originalText p).step
        (PageOp.click (ClickTarget.langButton n.ident index)) =
        onTargetClick (ClickTarget.langButton n.ident index)
          (onDocumentClick (ClickTarget.langButton n.ident index)
            (showLanguageSelector languages originalText p)) := by
      unfold Page.step
      simp only
      rw [if_pos ((hclickable index).mpr hlt)]
    have hfind2 := find_onDocumentClick n.ident (ClickTarget.langButton n.ident index)
      (showLanguageSelector languages originalText p) rfl
    rw [hfind] at hfind2
    rw [hstep, onTargetClick_langButton _ n index languages originalText code hfind2 hcontent
      hget]
    refine ⟨?_, ?_⟩
    · show (onDocumentClick _ _).sent ++ _ = _
      rw [sent_onDocumentClick, hsent]
    · exact ⟨_, panels_showLoadingPanel "translate" originalText _, rfl⟩

/-- C22 for the five supported targets on a page with one element of its own: the third
button carries `fr`, and a click on it sends `doTranslate` for `Tea.` with `fr`. -/
theorem languageSelector_buttons_witness :
    (SUPPORTED_TRANSLATION_TARGETS.map (langButtonHTML asciiLower)).map readDataLang =
        [some "es", some "de", some "fr", some "it", some "ja"]
    ∧ ((showLanguageSelector SUPPORTED_TRANSLATION_TARGETS "Tea." samplePage).step
        (PageOp.click (ClickTarget.langButton 1 2))).sent = [("Tea.", "fr")] := by
  have hfresh : Fresh samplePage := by
    intro n hn
    have h : n = _ := List.mem_singleton.mp hn
    rw [h]
    exact Nat.lt_succ_self 0
  obtain ⟨_, hread, n, hpanels, _, _, _, hclick⟩ :=
    languageSelector_buttons asciiLower SUPPORTED_TRANSLATION_TARGETS "Tea." samplePage hfresh
      (by decide)
  have hn : n.ident = 1 := by
    have h := panels_showLanguageSelector SUPPORTED_TRANSLATION_TARGETS "Tea." samplePage
    rw [hpanels] at h
    rw [(List.cons.inj h).1]
    rfl
  rw [hn] at hclick
  exact ⟨hread, (hclick 2 "fr" rfl).1⟩

/-- C23: whatever the kind, the loading panel `showLoadingPanel` leaves shows as preview, between
double quotes, the HTML-escaped first 100 characters of the text, and after them `...` exactly
when the text is longer than 100 characters; a text of at most 100 characters is shown in full
without the ellipsis. Characters are counted as JavaScript does, in UTF-16 code units, which
for a text of the Basic Multilingual Plane is the number of its characters; the escaped text
holds no `<` and no `>`. -/
theorem showLoadingPanel_preview (actionType text : String) (p : Page) :
    (∃ n : Node, panels (showLoadingPanel actionType text p) = [n]
      ∧ n.content = NodeContent.loading actionType text
      ∧ n.content.preview = some (loadingPreview text))
    ∧ loadingPreview text =
        utf16 "\"" ++ escapeHtml ((utf16 text).take 100)
          ++ (if 100 < (utf16 text).length then utf16 "..." else []) ++ utf16 "\""
    ∧ ((utf16 text).length ≤ 100 →
        loadingPreview text = utf16 "\"" ++ escapeHtml (utf16 text) ++ utf16 "\"")
    ∧ (100 < (utf16 text).length →
        loadingPreview text =
          utf16 "\"" ++ escapeHtml ((utf16 text).take 100) ++ utf16 "..." ++ utf16 "\""
        ∧ ((utf16 text).take 100).length = 100)
    ∧ (∀ u ∈ escapeHtml ((utf16 text).take 100), u ≠ 60 ∧ u ≠ 62)
    ∧ ((∀ c ∈ text.data, c.toNat < 65536) → (utf16 text).length = text.length) := by
  have hform : loadingPreview text =
      utf16 "\"" ++ escapeHtml ((utf16 text).take 100)
        ++ (if 100 < (utf16 text).length then utf16 "..." else []) ++ utf16 "\"" := by
    unfold loadingPreview
    rw [substring_zero]
    rfl
  refine ⟨⟨_, panels_showLoadingPanel actionType text p, rfl, rfl⟩, hform, ?_, ?_,
    escapeHtml_no_markup _, utf16_length text⟩
  · intro hle
    rw [hform, if_neg (Nat.not_lt.mpr hle), List.take_of_length_le hle, List.append_nil]
  · intro hlt
    rw [hform, if_pos hlt]
    exact ⟨rfl, by rw [List.length_take]; omega⟩

/-- C23 for a text of a hundred `a` and a `<` behind them: the preview shows the hundred `a`
and the ellipsis, and the `<` is cut off. -/
theorem showLoadingPanel_preview_witness :
    100 < (utf16 longText).length
    ∧ (utf16 longText).take 100 = List.replicate 100 97
    ∧ loadingPreview longText =
        utf16 "\"" ++ escapeHtml ((utf16 longText).take 100) ++ utf16 "..." ++ utf16 "\"" :=
  ⟨by decide, by decide,
    ((showLoadingPanel_preview "summarize" longText samplePage).2.2.2.1 (by decide)).1⟩

/-- C24, as stated, fails: with the worker context set up and a worker that never answers the
summarize job, `sendToOffscreen` stays pending after its three host calls, none of which
starts a timer; no failure is surfaced to its caller. -/
theorem unanswered_job_stays_pending :
    sendToOffscreenFate (workerHost (sampleAi "available")) (fun _ => Fate.pending)
        { action := "summarize", text := "Tea." } World.initial =
      (Fate.pending,
        ⟨none, [Event.getContexts, Event.createDocument,
          Event.runtimeSendMessage { action := "summarize", text := "Tea." }], 3⟩)
    ∧ waits [Event.getContexts, Event.createDocument,
        Event.runtimeSendMessage { action := "summarize", text := "Tea." }] = [] :=
  ⟨rfl, rfl⟩

/-- C24, amended: `sendToOffscreen` has no timeout. When the worker context is set up and the
worker never answers the job, the call stays pending for ever, whatever the job: it surfaces no
failure, and it starts no timer that could end the wait. In general it starts no timer, and it
fails only with the error of the setup, with the rejection of the request, with a `TypeError`
for an `undefined` response, or with the error of a response whose `success` is false. -/
theorem sendToOffscreen_waits_unbounded (host : Host)
    (response : Nat → Fate (Option WorkerResponse)) (data : Job) (w w1 : World)
    (hsetup : setupOffscreenDocument host w = (Except.ok (), w1))
    (hsilent : response w1.calls = Fate.pending) :
    sendToOffscreenFate host response data w =
        (Fate.pending,
          { w1 with trace := w1.trace ++ [Event.runtimeSendMessage data],
                    calls := w1.calls + 1 })
    ∧ (∀ e, (sendToOffscreenFate host response data w).1 ≠ Fate.rejected e)
    ∧ (∀ (answers : Nat → Fate (Option WorkerResponse)) (w0 : World),
        ∃ evs, (sendToOffscreenFate host answers data w0).2.trace = w0.trace ++ evs
          ∧ waits evs = [])
    ∧ (∀ (answers : Nat → Fate (Option WorkerResponse)) (e : JsError),
        (sendToOffscreenFate host answers data w).1 = Fate.rejected e →
        answers w1.calls = Fate.rejected e
        ∨ (answers w1.calls = Fate.fulfilled none ∧ e = typeErrorReading "result")
        ∨ ∃ r, answers w1.calls = Fate.fulfilled (some r) ∧ r.success = false
            ∧ e = newError (strOr r.error "An unknown error occurred in the offscreen document."))
    := by
  have hrun : sendToOffscreenFate host response data w =
      (Fate.pending,
        { w1 with trace := w1.trace ++ [Event.runtimeSendMessage data],
                  calls := w1.calls + 1 }) := by
    unfold sendToOffscreenFate
    rw [hsetup]
    simp only
    rw [hsilent]
  refine ⟨hrun, ?_, ?_, ?_⟩
  · intro e h
    rw [hrun] at h
    cases h
  · intro answers w0
    exact sendToOffscreenFate_trace host answers data w0
  · intro answers e h
    unfold sendToOffscreenFate at h
    rw [hsetup] at h
    simp only at h
    rcases ha : answers w1.calls with resp | e0 | _
    · rw [ha] at h
      cases resp with
      | none =>
        simp only [Fate.rejected.injEq] at h
        exact Or.inr (Or.inl ⟨rfl, h.symm⟩)
      | some r =>
        simp only at h
        cases hs : r.success with
        | true =>
          rw [hs] at h
          simp at h
        | false =>
          rw [hs] at h
          simp only [Bool.not_false, if_true, Fate.rejected.injEq] at h
          exact Or.inr (Or.inr ⟨r, rfl, hs, h.symm⟩)
    · rw [ha] at h
      simp only [Fate.rejected.injEq] at h
      exact Or.inl (by rw [h])
    · rw [ha] at h
      cases h

/-- C24, amended, for a worker that never answers a translate job after the worker context was
created: the call stays pending. -/
theorem sendToOffscreen_waits_unbounded_witness :
    sendToOffscreenFate (workerHost (sampleAi "available")) (fun _ => Fate.pending)
        { action := "translate", text := "Tea.", targetLanguage := some "fr" } World.initial =
      (Fate.pending,
        ⟨none, [Event.getContexts, Event.createDocument,
          Event.runtimeSendMessage
            { action := "translate", text := "Tea.", targetLanguage := some "fr" }], 3⟩) :=
  (sendToOffscreen_waits_unbounded (workerHost (sampleAi "available")) (fun _ => Fate.pending)
    { action := "translate", text := "Tea.", targetLanguage := some "fr" } World.initial
    ⟨none, [Event.getContexts, Event.createDocument], 2⟩ rfl rfl).1

/-- C25: a call of `setupOffscreenDocument` finds no worker context and no creation in flight,
and `chrome.offscreen.createDocument` rejects with `e`. Then the call fails with `e` and leaves
the token `creating` set to the rejected creation. Every later call that finds the token so
and no worker context fails with `e` after the one `getContexts` call, without invoking the
creation again, and leaves the token as it is; a later call that finds a worker context
returns and leaves it too. No call clears a token it finds set: the token is `null` after a
call only if it was unset before and the call found a context or its creation succeeded. -/
theorem setup_failure_sticks (host : Host) (w : World) (e : JsError)
    (hnone : host.getContexts w.calls = false) (hidle : w.creating = none)
    (hfail : host.createDocument (w.calls + 1) = Except.error e) :
    setupOffscreenDocument host w =
        (Except.error e,
          { creating := some (Except.error e),
            trace := w.trace ++ [Event.getContexts, Event.createDocument],
            calls := w.calls + 2 })
    ∧ (∀ later : World, later.creating = some (Except.error e) →
        host.getContexts later.calls = false →
        setupOffscreenDocument host later =
          (Except.error e,
            { later with trace := later.trace ++ [Event.getContexts],
                         calls := later.calls + 1 })
        ∧ (setupOffscreenDocument host later).2.creating = some (Except.error e))
    ∧ (∀ later : World, later.creating = some (Except.error e) →
        host.getContexts later.calls = true →
        setupOffscreenDocument host later =
          (Except.ok (),
            { later with trace := later.trace ++ [Event.getContexts],
                         calls := later.calls + 1 })
        ∧ (setupOffscreenDocument host later).2.creating = some (Except.error e))
    ∧ (∀ w0 : World, (setupOffscreenDocument host w0).2.creating = none →
        w0.creating = none
        ∧ (host.getContexts w0.calls = true
            ∨ host.createDocument (w0.calls + 1) = Except.ok ())) := by
  refine ⟨?_, ?_, ?_, ?_⟩
  · rw [setupOffscreenDocument_run, hnone, hidle]
    simp only [Bool.false_eq_true, if_false]
    rw [hfail]
  · intro later htoken hctx
    have hrun : setupOffscreenDocument host later =
        (Except.error e,
          { later with trace := later.trace ++ [Event.getContexts],
                       calls := later.calls + 1 }) := by
      rw [setupOffscreenDocument_run, hctx, htoken]
      simp only [Bool.false_eq_true, if_false]
    exact ⟨hrun, by rw [hrun]; exact htoken⟩
  · intro later htoken hctx
    have hrun : setupOffscreenDocument host later =
        (Except.ok (),
          { later with trace := later.trace ++ [Event.getContexts],
                       calls := later.calls + 1 }) := by
      rw [setupOffscreenDocument_run, hctx]
      simp only [if_true]
    exact ⟨hrun, by rw [hrun]; exact htoken⟩
  · intro w0 h
    rw [setupOffscreenDocument_run] at h
    cases hctx : host.getContexts w0.calls with
    | true =>
      rw [hctx] at h
      simp only [if_true] at h
      exact ⟨h, Or.inl rfl⟩
    | false =>
      rw [hctx] at h
      simp only [Bool.false_eq_true, if_false] at h
      cases hcr : w0.creating with
      | some promise =>
        rw [hcr] at h
        simp only at h
        cases h
      | none =>
        rw [hcr] at h
        simp only at h
        cases hd : host.createDocument (w0.calls + 1) with
        | ok u => exact ⟨rfl, Or.inr rfl⟩
        | error e0 =>
          rw [hd] at h
          cases h

/-- C25 for a host that cannot create the worker context: the first call fails with the
creation's error and leaves the rejected creation behind, and a second call fails with it
after looking for a context only. -/
theorem setup_failure_sticks_witness :
    setupOffscreenDocument noWorkerHost World.initial =
        (Except.error (newError "Offscreen documents are not available."),
          { creating := some (Except.error (newError "Offscreen documents are not available.")),
            trace := [Event.getContexts, Event.createDocument], calls := 2 })
    ∧ setupOffscreenDocument noWorkerHost
        { creating := some (Except.error (newError "Offscreen documents are not available.")),
          trace := [Event.getContexts, Event.createDocument], calls := 2 } =
        (Except.error (newError "Offscreen documents are not available."),
          { creating := some (Except.error (newError "Offscreen documents are not available.")),
            trace := [Event.getContexts, Event.createDocument, Event.getContexts],
            calls := 3 }) :=
  ⟨(setup_failure_sticks noWorkerHost World.initial
      (newError "Offscreen documents are not available.") rfl rfl rfl).1,
    ((setup_failure_sticks noWorkerHost World.initial
      (newError "Offscreen documents are not available.") rfl rfl rfl).2.1
      { creating := some (Except.error (newError "Offscreen documents are not available.")),
        trace := [Event.getContexts, Event.createDocument], calls := 2 } rfl rfl).1⟩

/-- C26: `handleOffscreenAction` fails with `Unknown offscreen action`, whatever the browser's
AI interfaces do, if and only if the job's action is none of `summarize`, `rewrite`, `eli5`,
`quiz` and `translate`; for these five its outcome is that of `processSummarize(text)`,
`processRewrite(text, mode)`, `processELI5(text)`, `processQuiz(text)` and
`processTranslate(text, sourceLanguage, targetLanguage)` on the job's fields. -/
theorem handleOffscreenAction_dispatch (data : Job) :
    ((∀ ai : AiHost,
        handleOffscreenAction ai data = Except.error (newError "Unknown offscreen action")) ↔
      (data.action ≠ "summarize" ∧ data.action ≠ "rewrite" ∧ data.action ≠ "eli5"
        ∧ data.action ≠ "quiz" ∧ data.action ≠ "translate"))
    ∧ (∀ ai : AiHost,
        (data.action = "summarize" →
          handleOffscreenAction ai data = processSummarize ai data.text)
        ∧ (data.action = "rewrite" →
          handleOffscreenAction ai data = processRewrite ai data.text data.mode)
        ∧ (data.action = "eli5" →
          handleOffscreenAction ai data = processELI5 ai data.text)
        ∧ (data.action = "quiz" →
          handleOffscreenAction ai data = processQuiz ai data.text)
        ∧ (data.action = "translate" →
          handleOffscreenAction ai data =
            processTranslate ai data.text data.sourceLanguage data.targetLanguage)) := by
  have hcases : ∀ ai : AiHost,
      (data.action = "summarize" →
        handleOffscreenAction ai data = processSummarize ai data.text)
      ∧ (data.action = "rewrite" →
        handleOffscreenAction ai data = processRewrite ai data.text data.mode)
      ∧ (data.action = "eli5" →
        handleOffscreenAction ai data = processELI5 ai data.text)
      ∧ (data.action = "quiz" →
        handleOffscreenAction ai data = processQuiz ai data.text)
      ∧ (data.action = "translate" →
        handleOffscreenAction ai data =
          processTranslate ai data.text data.sourceLanguage data.targetLanguage) := by
    intro ai
    refine ⟨?_, ?_, ?_, ?_, ?_⟩ <;> intro h <;> simp [handleOffscreenAction, h]
  refine ⟨⟨?_, ?_⟩, hcases⟩
  · intro hall
    have hsample := hall (sampleAi "available")
    obtain ⟨c1, c2, c3, c4, c5⟩ := hcases (sampleAi "available")
    refine ⟨?_, ?_, ?_, ?_, ?_⟩
    · intro h
      rw [c1 h] at hsample
      simp [processSummarize, sampleAi, bind, Except.bind, pure, Except.pure] at hsample
    · intro h
      rw [c2 h] at hsample
      simp [processRewrite, sampleAi, bind, Except.bind, pure, Except.pure] at hsample
    · intro h
      rw [c3 h] at hsample
      simp [processELI5, sampleAi, bind, Except.bind, pure, Except.pure] at hsample
    · intro h
      rw [c4 h] at hsample
      simp [processQuiz, sampleAi, bind, Except.bind, pure, Except.pure] at hsample
    · intro h
      rw [c5 h] at hsample
      cases ht : data.targetLanguage with
      | none =>
        simp [processTranslate, sampleAi, bind, Except.bind, pure, Except.pure, ht,
          throw, throwThe, MonadExceptOf.throw, typeErrorReading, newError] at hsample
      | some target =>
        simp [processTranslate, sampleAi, bind, Except.bind, pure, Except.pure, ht]
          at hsample
  · intro h ai
    obtain ⟨h1, h2, h3, h4, h5⟩ := h
    simp [handleOffscreenAction, h1, h2, h3, h4, h5, throw, throwThe, MonadExceptOf.throw]

/-- C27: with `retries ≤ 0` the loop of `sendMessageToTab` is not entered: the call makes no
delivery attempt, leaves the state as it was and returns `undefined`, and it throws nothing. -/
theorem sendMessageToTab_no_retries (host : Host) (tabId : Nat) (message : Command)
    (retries : Int) (w : World) (hretries : retries ≤ 0) :
    sendMessageToTab host tabId message retries w = (Except.ok none, w)
    ∧ deliveryAttempts (eventsSince w (sendMessageToTab host tabId message retries w).2) = []
    ∧ (∀ fuel : Nat,
        sendMessageToTabLoop host tabId message retries fuel 0 w = (Except.ok none, w)) := by
  have hloop : ∀ fuel : Nat,
      sendMessageToTabLoop host tabId message retries fuel 0 w = (Except.ok none, w) := by
    intro fuel
    cases fuel with
    | zero => rfl
    | succ fuel =>
      rw [sendMessageToTabLoop, if_neg (by simpa using hretries)]
      rfl
  have hrun : sendMessageToTab host tabId message retries w = (Except.ok none, w) :=
    hloop _
  refine ⟨hrun, ?_, hloop⟩
  rw [hrun]
  simp [eventsSince, deliveryAttempts]

/-- C27 for `retries = 0` and `retries = -2` against a page that never answers: the call
returns `undefined` without an attempt. -/
theorem sendMessageToTab_no_retries_witness :
    sendMessageToTab deafHost 7 Command.ping 0 World.initial = (Except.ok none, World.initial)
    ∧ sendMessageToTab deafHost 7 Command.ping (-2) World.initial =
        (Except.ok none, World.initial) :=
  ⟨(sendMessageToTab_no_retries deafHost 7 Command.ping 0 World.initial (by decide)).1,
    (sendMessageToTab_no_retries deafHost 7 Command.ping (-2) World.initial (by decide)).1⟩

end TextGenius
